import Mathlib

/-!
# myfind: a shallow embedding of `src/main.c`

The C program walks a directory tree, filters every entry through the
predicates given on the command line and prints the entries that pass.
This file embeds the program in Lean and proves properties of the embedding.

Conventions of the embedding
* C strings are `String`s; `strcmp (a, b) == 0` is `a = b`.
* `argv` / `params` is a `List String`; the terminating `NULL` pointer
  `argv[argc]` is the end of the list.
* The `static` variables of `do_file`, the global `program` and the two output
  streams live in an explicit `State` that every function threads through.
* Everything the operating system or the C library decides (whether a `printf`
  or `malloc` fails, whether `localtime` returns `NULL`, what `readlink` and
  `strftime` produce, the bytes found in fresh heap memory) is read from an
  `Env`.
* Integer widths are those of LP64 Linux (`long` is 64 bit, pointers 8 bytes).
* The C library is glibc: `basename` is the POSIX function of `<libgen.h>`,
  which cuts trailing slashes off its argument in place, and `strftime` reads
  through the pointer it is given, so that the process is killed by `SIGSEGV`
  when `localtime` has returned `NULL`.
-/

namespace Myfind

/-! ## Constants of `<stdlib.h>` and `<sys/stat.h>` (Linux values) -/

/-- The value of `EXIT_SUCCESS`. -/
def EXIT_SUCCESS : Int := 0

/-- The value of `EXIT_FAILURE`. -/
def EXIT_FAILURE : Int := 1

/-- The status that a shell reports for a process killed by `SIGSEGV`
(128 + 11). It stands where a function of the embedding has to give a value
although the C function never returns. -/
def KILLED : Int := 139

/-- Mask of the file-format bits of `st_mode`. -/
def S_IFMT : Nat := 0o170000
/-- File format: socket. -/
def S_IFSOCK : Nat := 0o140000
/-- File format: symbolic link. -/
def S_IFLNK : Nat := 0o120000
/-- File format: regular file. -/
def S_IFREG : Nat := 0o100000
/-- File format: block device. -/
def S_IFBLK : Nat := 0o060000
/-- File format: directory. -/
def S_IFDIR : Nat := 0o040000
/-- File format: character device. -/
def S_IFCHR : Nat := 0o020000
/-- File format: FIFO. -/
def S_IFIFO : Nat := 0o010000

/-- Mode bit: set-user-id. -/
def S_ISUID : Nat := 0o4000
/-- Mode bit: set-group-id. -/
def S_ISGID : Nat := 0o2000
/-- Mode bit: sticky. -/
def S_ISVTX : Nat := 0o1000
/-- Mode bit: owner read. -/
def S_IRUSR : Nat := 0o400
/-- Mode bit: owner write. -/
def S_IWUSR : Nat := 0o200
/-- Mode bit: owner execute. -/
def S_IXUSR : Nat := 0o100
/-- Mode bit: group read. -/
def S_IRGRP : Nat := 0o040
/-- Mode bit: group write. -/
def S_IWGRP : Nat := 0o020
/-- Mode bit: group execute. -/
def S_IXGRP : Nat := 0o010
/-- Mode bit: other read. -/
def S_IROTH : Nat := 0o004
/-- Mode bit: other write. -/
def S_IWOTH : Nat := 0o002
/-- Mode bit: other execute. -/
def S_IXOTH : Nat := 0o001

/-- The macro `S_ISBLK (m)`: `((m) & S_IFMT) == S_IFBLK`. -/
def S_ISBLK (m : Nat) : Bool := (m &&& S_IFMT) == S_IFBLK
/-- The macro `S_ISCHR (m)`. -/
def S_ISCHR (m : Nat) : Bool := (m &&& S_IFMT) == S_IFCHR
/-- The macro `S_ISDIR (m)`. -/
def S_ISDIR (m : Nat) : Bool := (m &&& S_IFMT) == S_IFDIR
/-- The macro `S_ISFIFO (m)`. -/
def S_ISFIFO (m : Nat) : Bool := (m &&& S_IFMT) == S_IFIFO
/-- The macro `S_ISREG (m)`. -/
def S_ISREG (m : Nat) : Bool := (m &&& S_IFMT) == S_IFREG
/-- The macro `S_ISLNK (m)`. -/
def S_ISLNK (m : Nat) : Bool := (m &&& S_IFMT) == S_IFLNK
/-- The macro `S_ISSOCK (m)`. -/
def S_ISSOCK (m : Nat) : Bool := (m &&& S_IFMT) == S_IFSOCK

/-- The test `attr.st_mode & BIT` used as a C condition (non-zero is true). -/
def has_bit (m bit : Nat) : Bool := (m &&& bit) != 0

/-! ## Data model -/

/-- The fields of `struct stat` that the program reads, with the values `lstat`
reports (sizes and block counts are never negative). -/
structure stat where
  /-- Inode number (`ino_t`, unsigned 64 bit). -/
  st_ino : Nat
  /-- File format and permission bits (`mode_t`). -/
  st_mode : Nat
  /-- Number of hard links (`nlink_t`, unsigned 64 bit). -/
  st_nlink : Nat
  /-- Owner (`uid_t`, unsigned 32 bit). -/
  st_uid : Nat
  /-- Group (`gid_t`, unsigned 32 bit). -/
  st_gid : Nat
  /-- Size in bytes (`off_t`); for a symbolic link the length of its target. -/
  st_size : Nat
  /-- Number of 512-byte blocks (`blkcnt_t`). -/
  st_blocks : Nat
  /-- Time of last modification (`time_t`). -/
  st_mtime : Int
  deriving DecidableEq

/-- A system call on a path, as recorded in the trace of a run. -/
inductive Call where
  | lstat (path : String)
  | opendir (path : String)
  | closedir (path : String)
  | readlink (path : String)
  deriving DecidableEq

/-- What the operating system and the C library decide during a run. -/
structure Env where
  /-- Outcome of the `n`-th `printf` of the run: `none` when it succeeds,
  `some e` when it returns a negative value and `strerror (errno)` is `e`. -/
  printf_err : Nat → Option String
  /-- Outcome of the `n`-th `malloc` of the run: `none` when it succeeds,
  `some e` when it returns `NULL` and `strerror (errno)` is `e`. -/
  malloc_err : Nat → Option String
  /-- Whether `localtime (&t)` returns `NULL`, as it does when the year of `t`
  does not fit in an `int`. -/
  localtime_null : Int → Bool
  /-- Result of `strftime (mtime, 13, "%b %e %H:%M", tm)` on the broken-down
  time `tm` that `localtime (&t)` returned: the formatted text, or `none` when
  `strftime` returns 0. -/
  strftime : Int → Option String
  /-- Text left in the static `mtime` buffer when `strftime` returns 0. -/
  mtime_stale : String
  /-- Target of the symbolic link at a path, or the `strerror` text of the
  failure of `readlink`. -/
  readlink : String → Except String String
  /-- The byte found at each offset of freshly allocated heap memory. -/
  junk : Nat → Char

/-- The mutable state of the process: the global `program`, the `static`
variables of `do_file`, what has been written to the two streams, and
counters and a trace for the calls whose outcome `Env` decides. -/
structure State where
  /-- The global `char *program`. -/
  program : String
  /-- The static `checked` of `do_file`. -/
  checked : Nat
  /-- The static `s_print` of `do_file`. -/
  s_print : Nat
  /-- The static `s_ls` of `do_file`. -/
  s_ls : Nat
  /-- The static `s_nouser` of `do_file`. -/
  s_nouser : Nat
  /-- The static `s_user` of `do_file`. -/
  s_user : Nat
  /-- The static `s_name` of `do_file`. -/
  s_name : Nat
  /-- The static `s_path` of `do_file`. -/
  s_path : Nat
  /-- The static `s_type` of `do_file`. -/
  s_type : Nat
  /-- Standard output: one element per successful `printf`. -/
  stdout : List String
  /-- Standard error: one element per `fprintf (stderr, ...)`. -/
  stderr : List String
  /-- Number of `printf` calls made so far. -/
  printfs : Nat
  /-- Number of `malloc` calls made so far. -/
  mallocs : Nat
  /-- System calls made so far, oldest first. -/
  calls : List Call
  /-- Paths of the directory streams opened and not yet closed, newest first. -/
  open_dirs : List String
  /-- The bytes of the buffer that holds the path of the entry at hand:
  `argv[1]` for the root, the allocated `full_path` for a child. The caller
  of `do_file` reads its path from this buffer again after the call. -/
  path_buf : String
  /-- The process has been killed by a signal. A function that finds this set
  after a call stops at once; what it returns then stands for nothing. When
  the process is killed, what of `stdout` has reached the file depends on the
  buffering of the stream. -/
  killed : Bool

/-- The state at program start: statics zero-initialised, nothing written.
`program` is still the `NULL` pointer, shown as the text `(null)`. -/
def State.init : State :=
  { program := "(null)", checked := 0, s_print := 0, s_ls := 0, s_nouser := 0, s_user := 0,
    s_name := 0, s_path := 0, s_type := 0, stdout := [], stderr := [], printfs := 0,
    mallocs := 0, calls := [], open_dirs := [], path_buf := "", killed := false }

/-- The call `fprintf (stderr, ...)` of one diagnostic. -/
def State.err (s : State) (msg : String) : State :=
  { s with stderr := s.stderr ++ [msg] }

/-- The string `params[i]`; the text `(null)` stands for the `NULL` pointer at
and past the end of the vector, which the program never prints. -/
def param (params : List String) (i : Nat) : String :=
  params[i]?.getD "(null)"

/-- The first byte `str[0]` of a C string (the terminating NUL when empty). -/
def char0 (str : String) : Char := str.data.headD (Char.ofNat 0)

/-- The C string held in a byte buffer: the bytes before the first NUL. -/
def cstr (buf : List Char) : List Char := buf.takeWhile (fun c => c != Char.ofNat 0)

/-- Conversion of an unsigned 64-bit value to `long` (two's complement). -/
def to_long (n : Nat) : Int :=
  if n % 2 ^ 64 < 2 ^ 63 then ((n % 2 ^ 64 : Nat) : Int) else ((n % 2 ^ 64 : Nat) : Int) - 2 ^ 64

/-- The `printf` conversion of a text right-aligned in a field: `%Ns`, `%Nld`.
The width is counted in characters; the padded texts are ASCII. -/
def pad_left (width : Nat) (txt : String) : String :=
  String.mk (List.replicate (width - txt.length) ' ') ++ txt

/-- The `printf` conversion of a text left-aligned in a field: `%-Nld`. -/
def pad_right (width : Nat) (txt : String) : String :=
  txt ++ String.mk (List.replicate (width - txt.length) ' ')

/-! ## The helpers of `do_file` -/

/-- The function `do_get_type`: the type letter of an entry. -/
def do_get_type (attr : stat) : Char :=
  if S_ISBLK attr.st_mode then 'b'
  else if S_ISCHR attr.st_mode then 'c'
  else if S_ISDIR attr.st_mode then 'd'
  else if S_ISFIFO attr.st_mode then 'p'
  else if S_ISREG attr.st_mode then 'f'
  else if S_ISLNK attr.st_mode then 'l'
  else if S_ISSOCK attr.st_mode then 's'
  else '?'

/-- The twelve bytes that `do_get_perms` stores in its static buffer `perms`. -/
def perms_buf (attr : stat) : List Char :=
  let type := do_get_type attr
  let m := attr.st_mode
  [ (if type = 'f' then '-' else type),
    (if has_bit m S_IRUSR then 'r' else '-'),
    (if has_bit m S_IWUSR then 'w' else '-'),
    (if has_bit m S_ISUID then (if has_bit m S_IXUSR then 's' else 'S')
      else (if has_bit m S_IXUSR then 'x' else '-')),
    (if has_bit m S_IRGRP then 'r' else '-'),
    (if has_bit m S_IWGRP then 'w' else '-'),
    (if has_bit m S_ISGID then (if has_bit m S_IXGRP then 's' else 'S')
      else (if has_bit m S_IXGRP then 'x' else '-')),
    (if has_bit m S_IROTH then 'r' else '-'),
    (if has_bit m S_IWOTH then 'w' else '-'),
    (if has_bit m S_ISVTX then (if has_bit m S_IXOTH then 't' else 'T')
      else (if has_bit m S_IXOTH then 'x' else '-')),
    ' ',
    Char.ofNat 0 ]

/-- The function `do_get_perms`: the C string in the buffer `perms`. -/
def do_get_perms (attr : stat) : String := String.mk (cstr (perms_buf attr))

/-- The function `do_type`. -/
def do_type (type : Char) (attr : stat) : Int :=
  if type = do_get_type attr then EXIT_SUCCESS else EXIT_FAILURE

/-- The function `do_nouser`: its body is only `return EXIT_SUCCESS`. -/
def do_nouser (_attr : stat) : Int := EXIT_SUCCESS

/-- The function `do_user`: its body is only `return EXIT_SUCCESS`. -/
def do_user (_user : String) (_attr : stat) : Int := EXIT_SUCCESS

/-- The function `do_path`: its body is only `return EXIT_SUCCESS`. -/
def do_path (_path : String) (_pattern : String) : Int := EXIT_SUCCESS

/-- The bytes that `basename (path)` leaves in the buffer `path`: when the
path ends in `/` and is not made of slashes only, a NUL is stored over the
first slash of the run of slashes at its end; otherwise the buffer is left as
it is. -/
def basename_cut (path : String) : String :=
  match path.data.reverse.dropWhile (fun c => c == '/') with
  | [] => path
  | kept => String.mk kept.reverse

/-- The function `do_name`: it calls `basename (path)`, which cuts the trailing
slashes off the buffer behind `path`, never uses the result and returns
`EXIT_SUCCESS`. -/
def do_name (s : State) (path : String) (_pattern : String) : Int × State :=
  (EXIT_SUCCESS, { s with path_buf := basename_cut path })

/-- The `printf` of one record to standard output, with the diagnostic that
`do_print` and `do_ls` both write when it fails. -/
def printf_out (env : Env) (s : State) (record : String) : Int × State :=
  match env.printf_err s.printfs with
  | none =>
    (EXIT_SUCCESS, { s with stdout := s.stdout ++ [record], printfs := s.printfs + 1 })
  | some e =>
    (EXIT_FAILURE,
      { s with stderr := s.stderr ++ [s.program ++ ": printf(): " ++ e ++ "\n"],
               printfs := s.printfs + 1 })

/-- The function `do_print`. -/
def do_print (env : Env) (s : State) (path : String) : Int × State :=
  printf_out env s (path ++ "\n")

/-- The function `do_get_mtime`. The result of `localtime` goes to `strftime`
unchecked: when it is `NULL` the process is killed inside `strftime`, and the
function gives `none`. The store `mtime[13] = 0`, one byte past the array, is
not modelled. -/
def do_get_mtime (env : Env) (s : State) (attr : stat) : Option String × State :=
  if env.localtime_null attr.st_mtime then (none, { s with killed := true })
  else
    match env.strftime attr.st_mtime with
    | some txt => (some txt, s)
    | none => (some env.mtime_stale, s.err (s.program ++ ": strftime() failed\n"))

/-- The value of `sizeof (symlink)`, the size of a `char *`. -/
def sizeof_ptr : Nat := 8

/-- The function `do_get_symlink`. The buffer has `st_size + 2` bytes of fresh
heap memory; `readlink` is given the buffer size `sizeof (symlink) - 1` and
stores at most that many bytes of the target, without a NUL; on success the
program then stores a NUL at offset `st_size`. -/
def do_get_symlink (env : Env) (s : State) (path : String) (attr : stat) : String × State :=
  if S_ISLNK attr.st_mode then
    match env.malloc_err s.mallocs with
    | some e =>
      ("", { s with mallocs := s.mallocs + 1,
                    stderr := s.stderr ++ [s.program ++ ": malloc(): " ++ e ++ "\n"] })
    | none =>
      let s1 := { s with mallocs := s.mallocs + 1, calls := s.calls ++ [Call.readlink path] }
      let fresh := (List.range (attr.st_size + 2)).map env.junk
      match env.readlink path with
      | .error e =>
        (String.mk (cstr fresh),
          s1.err (s.program ++ ": readlink(" ++ path ++ "): " ++ e ++ "\n"))
      | .ok target =>
        let n := min target.length (sizeof_ptr - 1)
        let buf := (target.data.take n ++ fresh.drop n).set attr.st_size (Char.ofNat 0)
        (String.mk (cstr buf), s1)
  else ("", s)

/-- The text that the `printf` of `do_ls` produces with the format
`"%-8ld %2lld %11s %2ld %-8ld %-8ld %8lld %12s %s%s%s\n"`. -/
def format_ls (inode : Int) (blocks : Nat) (perms : String) (links : Int) (uid gid size : Nat)
    (mtime path arrow symlink : String) : String :=
  pad_right 8 (toString inode) ++ " " ++ pad_left 2 (toString blocks) ++ " " ++
    pad_left 11 perms ++ " " ++ pad_left 2 (toString links) ++ " " ++
    pad_right 8 (toString uid) ++ " " ++ pad_right 8 (toString gid) ++ " " ++
    pad_left 8 (toString size) ++ " " ++ pad_left 12 mtime ++ " " ++
    path ++ arrow ++ symlink ++ "\n"

/-- The function `do_ls`. When the process is killed in `do_get_mtime`, neither
`do_get_symlink` nor `printf` is reached. -/
def do_ls (env : Env) (s : State) (path : String) (attr : stat) : Int × State :=
  let inode := to_long attr.st_ino
  let blocks := attr.st_blocks / 2
  let perms := do_get_perms attr
  let links := to_long attr.st_nlink
  let uid := attr.st_uid
  let gid := attr.st_gid
  let size := attr.st_size
  let mtime := do_get_mtime env s attr
  match mtime.1 with
  | none => (KILLED, mtime.2)
  | some mtime_txt =>
    let symlink := do_get_symlink env mtime.2 path attr
    let arrow := if symlink.1.length > 0 then " -> " else ""
    printf_out env symlink.2
      (format_ls inode blocks perms links uid gid size mtime_txt path arrow symlink.1)

/-! ## `do_file` -/

/-- The `for` loop of `do_file` that checks the parameters. `rest` is the part
of `params` from index `i` on, so `rest = []` is the test `params[i] == NULL`.
The result is `(status, i, state)` as the loop leaves them: `status` 0 at the
end of the vector, 1 for an unknown predicate (with `i` at the token), 2 for a
missing and 3 for an unknown second part (with `i` advanced by `++i`). -/
def check_params : List String → Nat → State → Nat × Nat × State
  | [], i, s => (0, i, s)
  | tok :: rest, i, s =>
    if tok = "-print" then check_params rest (i + 1) { s with s_print := 1 }
    else if tok = "-ls" then check_params rest (i + 1) { s with s_ls := 1 }
    else if tok = "-nouser" then check_params rest (i + 1) { s with s_nouser := 1 }
    else if tok = "-user" then
      match rest with
      | _ :: rest2 => check_params rest2 (i + 2) { s with s_user := i + 1 }
      | [] => (2, i + 1, s)
    else if tok = "-name" then
      match rest with
      | _ :: rest2 => check_params rest2 (i + 2) { s with s_name := i + 1 }
      | [] => (2, i + 1, s)
    else if tok = "-path" then
      match rest with
      | _ :: rest2 => check_params rest2 (i + 2) { s with s_path := i + 1 }
      | [] => (2, i + 1, s)
    else if tok = "-type" then
      match rest with
      | v :: rest2 =>
        if v = "b" ∨ v = "c" ∨ v = "d" ∨ v = "p" ∨ v = "f" ∨ v = "l" ∨ v = "s" then
          check_params rest2 (i + 2) { s with s_type := i + 1 }
        else (3, i + 1, s)
      | [] => (2, i + 1, s)
    else (1, i, s)

/-- The printing section of `do_file`. A call of `do_ls` in which the process
is killed leaves it through the branch of a failed call. -/
def printing (env : Env) (s : State) (path : String) (attr : stat) : Int × State :=
  let printed : Int × State :=
    if s.s_ls = 0 ∨ s.s_print ≠ 0 then do_print env s path else (EXIT_SUCCESS, s)
  if printed.1 ≠ EXIT_SUCCESS then (EXIT_FAILURE, printed.2)
  else
    let listed : Int × State :=
      if printed.2.s_ls ≠ 0 then do_ls env printed.2 path attr else (EXIT_SUCCESS, printed.2)
    if listed.1 ≠ EXIT_SUCCESS then (EXIT_FAILURE, listed.2)
    else (EXIT_SUCCESS, listed.2)

/-- The part of `do_file` after the test of `-name`: the tests of `-path` and
`-type`, then the printing section. -/
def filter_rest (env : Env) (s : State) (path : String) (params : List String)
    (attr : stat) : Int × State :=
  if s.s_path ≠ 0 ∧ do_path path (param params s.s_path) ≠ EXIT_SUCCESS then
    (EXIT_SUCCESS, s)
  else if s.s_type ≠ 0 ∧ do_type (char0 (param params s.s_type)) attr ≠ EXIT_SUCCESS then
    (EXIT_SUCCESS, s)
  else printing env s path attr

/-- The part of `do_file` after the error handling: the filtering section,
then the printing section. After the call of `do_name` the path is what that
call has left in the buffer. -/
def filter_print (env : Env) (s : State) (path : String) (params : List String)
    (attr : stat) : Int × State :=
  if s.s_nouser ≠ 0 ∧ do_nouser attr ≠ EXIT_SUCCESS then (EXIT_SUCCESS, s)
  else if s.s_user ≠ 0 ∧ do_user (param params s.s_user) attr ≠ EXIT_SUCCESS then
    (EXIT_SUCCESS, s)
  else if s.s_name ≠ 0 then
    let named := do_name s path (param params s.s_name)
    if named.1 ≠ EXIT_SUCCESS then (EXIT_SUCCESS, named.2)
    else filter_rest env named.2 named.2.path_buf params attr
  else filter_rest env s path params attr

/-- The function `do_file`. -/
def do_file (env : Env) (s : State) (path : String) (params : List String) (attr : stat) :
    Int × State :=
  let checked : Nat × Nat × State :=
    if s.checked = 0 then check_params (params.drop 2) 2 s else (0, 0, s)
  let status := checked.1
  let i := checked.2.1
  let s1 : State := { checked.2.2 with checked := 1 }
  if status = 1 then
    (EXIT_FAILURE, s1.err (s1.program ++ ": unknown predicate: " ++ param params i ++ "\n"))
  else if status = 2 then
    (EXIT_FAILURE, s1.err (s1.program ++ ": missing argument to " ++ param params (i - 1) ++ "\n"))
  else if status = 3 then
    (EXIT_FAILURE,
      s1.err (s1.program ++ ": unknown argument to " ++ param params (i - 1) ++ ": " ++
        param params i ++ "\n"))
  else filter_print env s1 path params attr

/-- The state in which `main` makes its first call of `do_file`: `program` is
`argv[0]`, the statics are still zero, `lstat (argv[1])` has been called, and
the path of the entry at hand is in the buffer `argv[1]`. -/
def first_state (argv : List String) : State :=
  { State.init with program := param argv 0, calls := [Call.lstat (param argv 1)],
                    path_buf := param argv 1 }

/-! ## The traversal: `do_dir` and `main` -/

/-- What the file system shows at one path: the outcome of `lstat` on it (the
attributes, or the `strerror` text of the failure); the outcome of `opendir` on
it (the entries that `readdir` then returns, in order, each with its name and
with what is found at `path/name`, or the `strerror` text); and the outcome of
`closedir` (`none` when it returns 0, else the `strerror` text). -/
inductive Node where
  | mk (lstat : Except String stat) (opendir : Except String (List (String × Node)))
      (closedir : Option String) : Node

/-- The function `print_usage`. -/
def print_usage (env : Env) (s : State) : State :=
  (printf_out env s
    ("myfind <file or directory> [ <aktion> ]\n" ++
     "-user <name>|<uid>    entries belonging to a user\n" ++
     "-name <pattern>       entry names matching a pattern\n" ++
     "-type [bcdpfls]       entries of a specific type\n" ++
     "-print                print entries with paths\n" ++
     "-ls                   print entry details\n" ++
     "-nouser               entries not belonging to a user\n" ++
     "-path                 entry paths (incl. names) matching a pattern\n")).2

/-- The state after a successful `opendir (path)`. -/
def State.open_dir (s : State) (path : String) : State :=
  { s with calls := s.calls ++ [Call.opendir path], open_dirs := path :: s.open_dirs }

/-- The state after a failed `opendir (path)`. -/
def State.open_dir_failed (s : State) (path : String) : State :=
  { s with calls := s.calls ++ [Call.opendir path] }

/-- The state after `closedir` on the stream opened for `path`. -/
def State.close_dir (s : State) (path : String) : State :=
  { s with calls := s.calls ++ [Call.closedir path], open_dirs := s.open_dirs.erase path }

/-- The state after one more `malloc`. -/
def State.malloc_done (s : State) : State := { s with mallocs := s.mallocs + 1 }

/-- The state after `lstat (full_path)` on a child, whose path has been
allocated and written by `snprintf` just before. -/
def State.probe_child (s : State) (full_path : String) : State :=
  { s with mallocs := s.mallocs + 1, calls := s.calls ++ [Call.lstat full_path],
           path_buf := full_path }

mutual
/-- The function `do_dir`, called on `path` where the file system shows `node`.
A child directory is entered under the path that `do_file` has left in the
buffer `full_path`. -/
def do_dir (env : Env) (params : List String) : String → Node → State → Int × State
  | path, .mk _ (.error e) _, s =>
    (EXIT_FAILURE,
      (s.open_dir_failed path).err (s.program ++ ": opendir(" ++ path ++ "): " ++ e ++ "\n"))
  | path, .mk _ (.ok entries) closedir, s =>
    match do_dir_loop env params path entries (s.open_dir path) with
    | (some ret, s2) => (ret, s2)
    | (none, s2) =>
      match closedir with
      | some e =>
        (EXIT_FAILURE,
          (s2.close_dir path).err (s2.program ++ ": closedir(" ++ path ++ "): " ++ e ++ "\n"))
      | none => (EXIT_SUCCESS, s2.close_dir path)
/-- The `while` loop of `do_dir` over the entries that `readdir` still has to
return. The result is `some ret` when the loop body executes `return ret`, and
`none` when `readdir` returns `NULL` and the loop ends. When the process is
killed in `do_file` or below `do_dir`, the loop stops there and the result is
`some KILLED`. -/
def do_dir_loop (env : Env) (params : List String) :
    String → List (String × Node) → State → Option Int × State
  | _, [], s => (none, s)
  | path, (d_name, .mk child_lstat child_opendir child_closedir) :: rest, s =>
    if d_name = "." ∨ d_name = ".." then do_dir_loop env params path rest s
    else
      match env.malloc_err s.mallocs with
      | some e =>
        (some EXIT_FAILURE, s.malloc_done.err (s.program ++ ": malloc(): " ++ e ++ "\n"))
      | none =>
        match child_lstat with
        | .ok attr =>
          if (do_file env (s.probe_child (path ++ "/" ++ d_name)) (path ++ "/" ++ d_name)
              params attr).2.killed then
            (some KILLED,
              (do_file env (s.probe_child (path ++ "/" ++ d_name)) (path ++ "/" ++ d_name)
                params attr).2)
          else if S_ISDIR attr.st_mode then
            if (do_dir env params
                (do_file env (s.probe_child (path ++ "/" ++ d_name)) (path ++ "/" ++ d_name)
                  params attr).2.path_buf
                (.mk child_lstat child_opendir child_closedir)
                (do_file env (s.probe_child (path ++ "/" ++ d_name)) (path ++ "/" ++ d_name)
                  params attr).2).2.killed then
              (some KILLED,
                (do_dir env params
                  (do_file env (s.probe_child (path ++ "/" ++ d_name)) (path ++ "/" ++ d_name)
                    params attr).2.path_buf
                  (.mk child_lstat child_opendir child_closedir)
                  (do_file env (s.probe_child (path ++ "/" ++ d_name)) (path ++ "/" ++ d_name)
                    params attr).2).2)
            else
              do_dir_loop env params path rest
                (do_dir env params
                  (do_file env (s.probe_child (path ++ "/" ++ d_name)) (path ++ "/" ++ d_name)
                    params attr).2.path_buf
                  (.mk child_lstat child_opendir child_closedir)
                  (do_file env (s.probe_child (path ++ "/" ++ d_name)) (path ++ "/" ++ d_name)
                    params attr).2).2
          else
            do_dir_loop env params path rest
              (do_file env (s.probe_child (path ++ "/" ++ d_name)) (path ++ "/" ++ d_name)
                params attr).2
        | .error e =>
          (some EXIT_FAILURE,
            (s.probe_child (path ++ "/" ++ d_name)).err
              (s.program ++ ": lstat(" ++ path ++ "/" ++ d_name ++ "): " ++ e ++ "\n"))
end

/-- The function `main`, run with the argument vector `argv` on a file system
that shows `root` at the path `argv[1]`. The root directory is entered under
the path that `do_file` has left in the buffer `argv[1]`; nothing reads
`argv[1]` through `params`. When the process is killed there is no exit status
and the first component is `KILLED`. -/
def main (env : Env) (argv : List String) (root : Node) : Int × State :=
  if argv.length < 3 then (EXIT_FAILURE, print_usage env State.init)
  else
    match root with
    | .mk (.ok attr) _ _ =>
      let r := do_file env (first_state argv) (param argv 1) argv attr
      if r.2.killed then (KILLED, r.2)
      else if r.1 ≠ EXIT_SUCCESS then (EXIT_FAILURE, r.2)
      else if S_ISDIR attr.st_mode then
        let d := do_dir env argv r.2.path_buf root r.2
        if d.2.killed then (KILLED, d.2) else (EXIT_SUCCESS, d.2)
      else (EXIT_SUCCESS, r.2)
    | .mk (.error e) _ _ =>
      (EXIT_FAILURE,
        (first_state argv).err
          (param argv 0 ++ ": lstat(" ++ param argv 1 ++ "): " ++ e ++ "\n"))

/-! ## Notions used to state the properties -/

/-- The parameter groups that the check of `do_file` accepts: one of the
single tokens, or a two-token predicate with its value (any token for `-user`,
`-name`, `-path`; one of the seven letters for `-type`). -/
def accepted_group (g : List String) : Prop :=
  match g with
  | [t] => t = "-print" ∨ t = "-ls" ∨ t = "-nouser"
  | [p, v] =>
    p = "-user" ∨ p = "-name" ∨ p = "-path" ∨
      (p = "-type" ∧ (v = "b" ∨ v = "c" ∨ v = "d" ∨ v = "p" ∨ v = "f" ∨ v = "l" ∨ v = "s"))
  | _ => False

/-- Two states that agree on everything but the seven parameter flags. -/
def same_frame (a b : State) : Prop :=
  a.program = b.program ∧ a.checked = b.checked ∧ a.stdout = b.stdout ∧
  a.stderr = b.stderr ∧ a.printfs = b.printfs ∧ a.mallocs = b.mallocs ∧ a.calls = b.calls ∧
  a.open_dirs = b.open_dirs ∧ a.path_buf = b.path_buf ∧ a.killed = b.killed

/-- The values of the eight statics of `do_file`. -/
def statics (s : State) : List Nat :=
  [s.checked, s.s_print, s.s_ls, s.s_nouser, s.s_user, s.s_name, s.s_path, s.s_type]

/-- The state `s` with the eight statics of `do_file` taken from `t`. -/
def with_statics (s t : State) : State :=
  { s with checked := t.checked, s_print := t.s_print, s_ls := t.s_ls, s_nouser := t.s_nouser,
           s_user := t.s_user, s_name := t.s_name, s_path := t.s_path, s_type := t.s_type }

/-- The state in which the first call of `do_file` under `argv` leaves its
loop and sets `checked`. -/
def after_check (argv : List String) : State :=
  { (check_params (argv.drop 2) 2 (first_state argv)).2.2 with checked := 1 }

/-- The states in which a run under `argv` can call `do_file`: the state of the
first call, and every state in which `program` and the statics are as the
first call left them (whatever has been written, counted and traced since). -/
def run_state (argv : List String) (s : State) : Prop :=
  s = first_state argv ∨ (s.program = param argv 0 ∧ statics s = statics (after_check argv))

/-- The path with which a call of `do_file` that has the statics of `s` goes on
after the test of `-name`: what `do_name` leaves of `path` when `-name` is
bound, else `path`. -/
def path_seen (s : State) (path : String) : String :=
  if s.s_name ≠ 0 then basename_cut path else path

/-- The state in which a call of `do_file` on `path` that has the statics of
`s` goes on after the test of `-name`. -/
def name_done (s : State) (path : String) : State :=
  if s.s_name ≠ 0 then { s with path_buf := basename_cut path } else s

/-- The text that `do_get_mtime` returns when `localtime` succeeds: the text of
`strftime`, or what the buffer held when `strftime` returns 0. -/
def mtime_text (env : Env) (attr : stat) : String :=
  (env.strftime attr.st_mtime).getD env.mtime_stale

/-- The effect on the statics of one accepted group that starts at index `i`. -/
def bind_group (i : Nat) (s : State) (g : List String) : State :=
  match g with
  | [t] =>
    if t = "-print" then { s with s_print := 1 }
    else if t = "-ls" then { s with s_ls := 1 }
    else if t = "-nouser" then { s with s_nouser := 1 }
    else s
  | [p, _] =>
    if p = "-user" then { s with s_user := i + 1 }
    else if p = "-name" then { s with s_name := i + 1 }
    else if p = "-path" then { s with s_path := i + 1 }
    else if p = "-type" then { s with s_type := i + 1 }
    else s
  | _ => s

/-- The effect on the statics of a sequence of accepted groups that starts at
index `i`. -/
def bind_groups : Nat → State → List (List String) → State
  | _, s, [] => s
  | i, s, g :: gs => bind_groups (i + g.length) (bind_group i s g) gs

/-- An environment in which every call succeeds. -/
def env_ok : Env :=
  { printf_err := fun _ => none, malloc_err := fun _ => none,
    localtime_null := fun _ => false,
    strftime := fun _ => some "Jan  1 00:00", mtime_stale := "",
    readlink := fun _ => .ok "a.txt", junk := fun _ => 'x' }

/-- A regular file with mode 0644 owned by user 1000. -/
def regular_file : stat :=
  { st_ino := 42, st_mode := 0o100644, st_nlink := 1, st_uid := 1000, st_gid := 1000,
    st_size := 5, st_blocks := 8, st_mtime := 0 }

/-- The execute slot of a permission triple in the words of the specification:
the special letter in lower case when the special bit and the execute bit are
both set, in upper case when the special bit is set and the execute bit is
clear, `x` when only the execute bit is set, `-` otherwise. -/
def exec_slot_spec (special exec : Bool) (lower upper : Char) : Char :=
  if special = true ∧ exec = true then lower
  else if special = true ∧ exec = false then upper
  else if special = false ∧ exec = true then 'x'
  else '-'

/-- The permission mnemonic in the words of the specification, with the mode
bits read by position: bits 8, 7, 6 are owner read, write, execute, bits 5, 4, 3
the same for the group, bits 2, 1, 0 for others, and bits 11, 10, 9 are
set-user-id, set-group-id and sticky. -/
def perms_spec (attr : stat) : String :=
  let m := attr.st_mode
  String.mk
    [ (if do_get_type attr = 'f' then '-' else do_get_type attr),
      (if m.testBit 8 then 'r' else '-'),
      (if m.testBit 7 then 'w' else '-'),
      exec_slot_spec (m.testBit 11) (m.testBit 6) 's' 'S',
      (if m.testBit 5 then 'r' else '-'),
      (if m.testBit 4 then 'w' else '-'),
      exec_slot_spec (m.testBit 10) (m.testBit 3) 's' 'S',
      (if m.testBit 2 then 'r' else '-'),
      (if m.testBit 1 then 'w' else '-'),
      exec_slot_spec (m.testBit 9) (m.testBit 0) 't' 'T',
      ' ' ]

/-- A directory with mode 0755. -/
def directory : stat :=
  { st_ino := 40, st_mode := 0o040755, st_nlink := 2, st_uid := 1000, st_gid := 1000,
    st_size := 4096, st_blocks := 8, st_mtime := 0 }

/-- A symbolic link whose target has five bytes. -/
def symbolic_link : stat :=
  { st_ino := 43, st_mode := 0o120777, st_nlink := 1, st_uid := 1000, st_gid := 1000,
    st_size := 5, st_blocks := 0, st_mtime := 0 }

/-- An entry that is not a directory. -/
def leaf (attr : stat) : Node := .mk (.ok attr) (.error "Not a directory") none

/-- The entries `.` and `..` of a directory; the program never looks at what
they lead to. -/
def dot_entries : List (String × Node) :=
  [(".", .mk (.error "unused") (.error "unused") none),
   ("..", .mk (.error "unused") (.error "unused") none)]

/-- The fixture tree of the specification: the directory `T` with the regular
file `a.txt`, the empty directory `d` and the symbolic link `link`. -/
def fixture : Node :=
  .mk (.ok directory)
    (.ok (dot_entries ++
      [("a.txt", leaf regular_file),
       ("d", .mk (.ok { directory with st_ino := 41 }) (.ok dot_entries) none),
       ("link", leaf symbolic_link)]))
    none

/-- The state `s` with the static `s_print` set. -/
def set_print (s : State) : State := { s with s_print := 1 }

/-- A symbolic link whose target has ten bytes. -/
def long_link : stat :=
  { st_ino := 44, st_mode := 0o120777, st_nlink := 1, st_uid := 1000, st_gid := 1000,
    st_size := 10, st_blocks := 0, st_mtime := 0 }

/-- An environment in which every call succeeds, every symbolic link has the
target `0123456789` and fresh heap memory is filled with the byte `fill`. -/
def env_long_link (fill : Char) : Env :=
  { env_ok with readlink := fun _ => .ok "0123456789", junk := fun _ => fill }

/-- An environment in which the first `malloc` fails and every other call
succeeds. -/
def env_no_memory : Env :=
  { env_ok with
    malloc_err := fun n => if n = 0 then some "Cannot allocate memory" else none }

/-- A directory `T` in which `lstat` fails for the first child `a` and the
second child `b` is a regular file. -/
def broken_tree : Node :=
  .mk (.ok directory)
    (.ok (dot_entries ++
      [("a", .mk (.error "No such file or directory") (.error "unused") none),
       ("b", leaf regular_file)]))
    none

/-- An environment in which `localtime` returns `NULL` for the times past the
last second of the year 2147485547, the last year that fits in `tm_year`, and
every other call succeeds. -/
def env_year_overflow : Env :=
  { env_ok with localtime_null := fun t => decide (67767976233532799 < t) }

/-- A regular file whose modification time is `2 ^ 62`. -/
def far_future_file : stat := { regular_file with st_mtime := 2 ^ 62 }

/-- The paths given to `lstat` in a trace, in the order of the calls. -/
def lstat_paths : List Call → List String
  | [] => []
  | Call.lstat p :: rest => p :: lstat_paths rest
  | _ :: rest => lstat_paths rest

/-- The paths given to `opendir` in a trace, in the order of the calls. -/
def opendir_paths : List Call → List String
  | [] => []
  | Call.opendir p :: rest => p :: opendir_paths rest
  | _ :: rest => opendir_paths rest

/-- The diagnostics that the helpers of the printing section write for the
entry at `path`: a failed `printf`, `strftime`, `malloc` or `readlink`. -/
def runtime_diagnostic (prog path line : String) : Prop :=
  (∃ e, line = prog ++ ": printf(): " ++ e ++ "\n") ∨
  line = prog ++ ": strftime() failed\n" ∨
  (∃ e, line = prog ++ ": malloc(): " ++ e ++ "\n") ∨
  (∃ e, line = prog ++ ": readlink(" ++ path ++ "): " ++ e ++ "\n")

/-- The three argument diagnostics of `do_file`. -/
def argument_diagnostic (prog line : String) : Prop :=
  (∃ t, line = prog ++ ": unknown predicate: " ++ t ++ "\n") ∨
  (∃ p, line = prog ++ ": missing argument to " ++ p ++ "\n") ∨
  (∃ p v, line = prog ++ ": unknown argument to " ++ p ++ ": " ++ v ++ "\n")

/-- The state `t` has the standard error of `s` followed by diagnostics of the
printing section only. -/
def stderr_extends (prog path : String) (s t : State) : Prop :=
  ∃ new, t.stderr = s.stderr ++ new ∧ ∀ l ∈ new, runtime_diagnostic prog path l

/-- The last component of a path: what follows its final `/`, or the whole
path when it has none. -/
def last_component (path : String) : String :=
  String.mk ((path.data.reverse.takeWhile (fun c => c != '/')).reverse)

/-- The line is a record that `do_file` writes for `path`: the bare path, or
the long form with `path` as its path, followed by nothing or by the arrow
and the target of a symbolic link. -/
def record_for (path line : String) : Prop :=
  line = path ++ "\n" ∨
  ∃ (inode : Int) (blocks : Nat) (perms : String) (links : Int) (uid gid size : Nat)
    (mtime arrow symlink : String),
    ((arrow = "" ∧ symlink = "") ∨ arrow = " -> ") ∧
    line = format_ls inode blocks perms links uid gid size mtime path arrow symlink

/-- The line is a record for a path whose last component is neither `.` nor
`..`. -/
def record_below (line : String) : Prop :=
  ∃ path : String, record_for path line ∧ last_component path ≠ "." ∧
    last_component path ≠ ".."

/-- The state `t` has the standard output of `s` followed by lines that all
satisfy `P`. -/
def stdout_extends (P : String → Prop) (s t : State) : Prop :=
  ∃ new, t.stdout = s.stdout ++ new ∧ ∀ l ∈ new, P l

mutual
/-- The lines `out` are a pre-order listing of entries below the directory at
`path`: nothing when the directory cannot be opened, else the blocks of its
entries in the order of enumeration. -/
def preorder_dir (path : String) : Node → List String → Prop
  | .mk _ (.error _) _, out => out = []
  | .mk _ (.ok entries) _, out => preorder_entries path entries out
/-- The lines `out` are made of one block per entry, in the order of the
entries: the block of an entry is its own line `path/d_name`, or nothing,
followed by a pre-order listing of the entries below it. -/
def preorder_entries (path : String) : List (String × Node) → List String → Prop
  | [], out => out = []
  | (d_name, .mk child_lstat child_opendir child_closedir) :: rest, out =>
    ∃ own sub tail, out = own ++ sub ++ tail ∧
      (own = [] ∨ own = [path ++ "/" ++ d_name ++ "\n"]) ∧
      preorder_dir (path ++ "/" ++ d_name) (.mk child_lstat child_opendir child_closedir) sub ∧
      preorder_entries path rest tail
end

/-- The lines `out` are a pre-order listing of the tree at `path`: the line of
the root, or nothing, followed by a pre-order listing of the entries below it. -/
def preorder_run (path : String) (node : Node) (out : List String) : Prop :=
  ∃ own sub, out = own ++ sub ∧ (own = [] ∨ own = [path ++ "\n"]) ∧ preorder_dir path node sub

mutual
/-- The paths of the entries below the directory at `path`, in pre-order: the
entries other than `.` and `..`, each followed by the entries below it when it
is a directory. -/
def paths_below (path : String) : Node → List String
  | .mk _ (.error _) _ => []
  | .mk _ (.ok entries) _ => paths_entries path entries
/-- The paths of the given entries of the directory at `path` and of the
entries below them, in pre-order. -/
def paths_entries (path : String) : List (String × Node) → List String
  | [] => []
  | (d_name, .mk child_lstat child_opendir child_closedir) :: rest =>
    if d_name = "." ∨ d_name = ".." then paths_entries path rest
    else
      (path ++ "/" ++ d_name) ::
        ((match child_lstat with
          | .ok attr =>
            if S_ISDIR attr.st_mode then
              paths_below (path ++ "/" ++ d_name)
                (.mk child_lstat child_opendir child_closedir)
            else []
          | .error _ => []) ++ paths_entries path rest)
end

mutual
/-- The paths of the directories below the directory at `path`, in pre-order. -/
def dirs_below (path : String) : Node → List String
  | .mk _ (.error _) _ => []
  | .mk _ (.ok entries) _ => dirs_entries path entries
/-- The paths of the directories among the given entries of the directory at
`path` and below them, in pre-order. -/
def dirs_entries (path : String) : List (String × Node) → List String
  | [] => []
  | (d_name, .mk child_lstat child_opendir child_closedir) :: rest =>
    if d_name = "." ∨ d_name = ".." then dirs_entries path rest
    else
      (match child_lstat with
        | .ok attr =>
          if S_ISDIR attr.st_mode then
            (path ++ "/" ++ d_name) ::
              dirs_below (path ++ "/" ++ d_name)
                (.mk child_lstat child_opendir child_closedir)
          else []
        | .error _ => []) ++ dirs_entries path rest
end

mutual
/-- The directory can be opened, and below it every entry can be probed and
every directory can be opened. -/
def all_ok_dir : Node → Prop
  | .mk _ (.error _) _ => False
  | .mk _ (.ok entries) _ => all_ok_entries entries
/-- Every one of the entries other than `.` and `..` can be probed, and so can
everything below those that are directories. -/
def all_ok_entries : List (String × Node) → Prop
  | [] => True
  | (d_name, .mk child_lstat child_opendir child_closedir) :: rest =>
    (d_name = "." ∨ d_name = ".." ∨
      match child_lstat with
      | .ok attr =>
        S_ISDIR attr.st_mode = true →
          all_ok_dir (.mk child_lstat child_opendir child_closedir)
      | .error _ => False) ∧
    all_ok_entries rest
end

mutual
/-- The names in every directory of the tree are plain: not empty and without
`/`, as `readdir` returns them. -/
def plain_names_dir : Node → Prop
  | .mk _ (.error _) _ => True
  | .mk _ (.ok entries) _ => plain_names_entries entries
/-- The names of the given entries are not empty and have no `/`, and the same
holds below each of them. -/
def plain_names_entries : List (String × Node) → Prop
  | [] => True
  | (d_name, .mk child_lstat child_opendir child_closedir) :: rest =>
    d_name ≠ "" ∧ '/' ∉ d_name.data ∧
      plain_names_dir (.mk child_lstat child_opendir child_closedir) ∧
      plain_names_entries rest
end

mutual
/-- The names in every directory of the tree are what a file system gives:
not empty, without `/` and different from one another. -/
def names_ok_dir : Node → Prop
  | .mk _ (.error _) _ => True
  | .mk _ (.ok entries) _ => names_ok_entries entries
/-- The names of the given entries are not empty, have no `/` and are
different from one another, and the same holds below each of them. -/
def names_ok_entries : List (String × Node) → Prop
  | [] => True
  | (d_name, .mk child_lstat child_opendir child_closedir) :: rest =>
    d_name ≠ "" ∧ '/' ∉ d_name.data ∧ (∀ e ∈ rest, e.1 ≠ d_name) ∧
      names_ok_dir (.mk child_lstat child_opendir child_closedir) ∧ names_ok_entries rest
end

/-- The state `t` has the trace of `s` followed by calls that are neither
`lstat` nor `opendir`. -/
def calls_extend_quietly (s t : State) : Prop :=
  ∃ extra, t.calls = s.calls ++ extra ∧ lstat_paths extra = [] ∧ opendir_paths extra = []

/-- The path `q` is `base` itself or continues `base` with a `/`. -/
def under (base q : String) : Prop :=
  ∃ r : List Char, q.data = base.data ++ r ∧ (r = [] ∨ ∃ r2, r = '/' :: r2)

/-! # Properties -/

/-! ## The parameter check -/

/-- Induction over a list for a function that consumes one or two elements per step. -/
theorem two_step_induction {α : Type} {P : List α → Prop} (hnil : P [])
    (hcons : ∀ a l, P l → (∀ b l2, l = b :: l2 → P l2) → P (a :: l)) (l : List α) : P l := by
  have key : P l ∧ ∀ b l2, l = b :: l2 → P l2 := by
    induction l with
    | nil => exact ⟨hnil, fun b l2 h => by cases h⟩
    | cons a l ih =>
      refine ⟨hcons a l ih.1 ih.2, fun b l2 h => ?_⟩
      cases h
      exact ih.1
  exact key.1

/-- One iteration of the loop, unfolded. -/
theorem check_params_cons (tok : String) (rest : List String) (i : Nat) (s : State) :
    check_params (tok :: rest) i s =
    if tok = "-print" then check_params rest (i + 1) { s with s_print := 1 }
    else if tok = "-ls" then check_params rest (i + 1) { s with s_ls := 1 }
    else if tok = "-nouser" then check_params rest (i + 1) { s with s_nouser := 1 }
    else if tok = "-user" then
      match rest with
      | _ :: rest2 => check_params rest2 (i + 2) { s with s_user := i + 1 }
      | [] => (2, i + 1, s)
    else if tok = "-name" then
      match rest with
      | _ :: rest2 => check_params rest2 (i + 2) { s with s_name := i + 1 }
      | [] => (2, i + 1, s)
    else if tok = "-path" then
      match rest with
      | _ :: rest2 => check_params rest2 (i + 2) { s with s_path := i + 1 }
      | [] => (2, i + 1, s)
    else if tok = "-type" then
      match rest with
      | v :: rest2 =>
        if v = "b" ∨ v = "c" ∨ v = "d" ∨ v = "p" ∨ v = "f" ∨ v = "l" ∨ v = "s" then
          check_params rest2 (i + 2) { s with s_type := i + 1 }
        else (3, i + 1, s)
      | [] => (2, i + 1, s)
    else (1, i, s) := by
  cases rest <;> rfl

/-- The loop changes nothing but the parameter flags. -/
theorem check_params_frame (l : List String) :
    ∀ (i : Nat) (s : State), same_frame (check_params l i s).2.2 s := by
  induction l using two_step_induction with
  | hnil => intro i s; simp [check_params, same_frame]
  | hcons tok rest ih1 ih2 =>
    intro i s
    cases rest with
    | nil =>
      rw [check_params_cons]
      split_ifs <;> simp [same_frame, check_params]
    | cons v rest2 =>
      have ih3 := ih2 v rest2 rfl
      rw [check_params_cons]
      dsimp only
      split_ifs <;> first
        | exact ih1 _ _
        | exact ih3 _ _
        | simp [same_frame]

/-- The loop never moves its counter backwards. -/
theorem check_params_index (l : List String) :
    ∀ (i : Nat) (s : State), i ≤ (check_params l i s).2.1 := by
  induction l using two_step_induction with
  | hnil => intro i s; simp [check_params]
  | hcons tok rest ih1 ih2 =>
    intro i s
    cases rest with
    | nil =>
      rw [check_params_cons]
      split_ifs <;> simp [check_params]
    | cons v rest2 =>
      have ih3 := ih2 v rest2 rfl
      rw [check_params_cons]
      dsimp only
      split_ifs <;> first
        | exact Nat.le_trans (Nat.le_add_right i 1) (ih1 _ _)
        | exact Nat.le_trans (Nat.le_add_right i 2) (ih3 _ _)
        | simp

/-- The loop steps over an accepted group. -/
theorem check_params_group (g tail : List String) (i : Nat) (s : State)
    (hg : accepted_group g) :
    ∃ s1, check_params (g ++ tail) i s = check_params tail (i + g.length) s1 := by
  match g, hg with
  | [t], h =>
    rcases h with h | h | h <;> subst h <;> simp [check_params_cons]
  | [p, v], h =>
    rcases h with h | h | h | ⟨h, hv⟩ <;> subst h
    · simp [check_params_cons]
    · simp [check_params_cons]
    · simp [check_params_cons]
    · simp [check_params_cons, hv]

/-- The loop steps over a sequence of accepted groups. -/
theorem check_params_groups (groups : List (List String)) (tail : List String)
    (hg : ∀ g ∈ groups, accepted_group g) :
    ∀ (i : Nat) (s : State),
      ∃ s1, check_params (groups.flatten ++ tail) i s =
        check_params tail (i + groups.flatten.length) s1 := by
  induction groups with
  | nil => intro i s; exact ⟨s, by simp⟩
  | cons g gs ih =>
    intro i s
    obtain ⟨s1, h1⟩ := check_params_group g (gs.flatten ++ tail) i s (hg g (by simp))
    obtain ⟨s2, h2⟩ := ih (fun g2 hg2 => hg g2 (by simp [hg2])) (i + g.length) s1
    refine ⟨s2, ?_⟩
    simp only [List.flatten_cons, List.append_assoc, List.length_append]
    rw [h1, h2, Nat.add_assoc]

/-- The token that follows `n` tokens after `argv[1]` is `argv[n + 2]`. -/
theorem param_after (prog root : String) (pre : List String) (t : String) (rest : List String) :
    param (prog :: root :: (pre ++ t :: rest)) (pre.length + 2) = t := by
  have h : (pre ++ t :: rest)[pre.length]? = some t := by
    rw [List.getElem?_append_right (Nat.le_refl _)]
    simp
  unfold param
  rw [List.getElem?_cons_succ, List.getElem?_cons_succ, h]
  rfl

theorem param_zero (prog : String) (l : List String) : param (prog :: l) 0 = prog := by
  simp [param]

/-- What the first call of `do_file` does when the loop stops with a status
other than 0: it fails, writes the one diagnostic and prints nothing. -/
theorem first_call_error (env : Env) (argv : List String) (path : String) (attr : stat)
    (status i : Nat) (s1 : State)
    (h : check_params (argv.drop 2) 2 (first_state argv) = (status, i, s1))
    (hst : status = 1 ∨ status = 2 ∨ status = 3) :
    (do_file env (first_state argv) path argv attr).1 = EXIT_FAILURE ∧
    (do_file env (first_state argv) path argv attr).2.stderr =
      [if status = 1 then param argv 0 ++ ": unknown predicate: " ++ param argv i ++ "\n"
       else if status = 2 then
         param argv 0 ++ ": missing argument to " ++ param argv (i - 1) ++ "\n"
       else param argv 0 ++ ": unknown argument to " ++ param argv (i - 1) ++ ": " ++
         param argv i ++ "\n"] ∧
    (do_file env (first_state argv) path argv attr).2.stdout = [] := by
  have hfr := check_params_frame (argv.drop 2) 2 (first_state argv)
  rw [h] at hfr
  obtain ⟨f1, _, f3, f4, _, _, _, _⟩ := hfr
  have f1' : s1.program = param argv 0 := f1
  have f3' : s1.stdout = [] := f3
  have f4' : s1.stderr = [] := f4
  have hchk : (first_state argv).checked = 0 := rfl
  rcases hst with hst | hst | hst <;> subst hst <;>
    simp [do_file, hchk, h, State.err, f1', f3', f4']

/-- C1. When the scan of the parameters, after any number of accepted groups,
reaches a token `t` that is none of the seven known ones, the first call of
`do_file` returns `EXIT_FAILURE`, writes exactly `<program>: unknown predicate: t`
to standard error and nothing to standard output. -/
theorem unknown_predicate_reported (env : Env) (prog root : String)
    (groups : List (List String)) (t : String) (rest : List String) (path : String)
    (attr : stat) (hg : ∀ g ∈ groups, accepted_group g)
    (ht : t ≠ "-print" ∧ t ≠ "-ls" ∧ t ≠ "-nouser" ∧ t ≠ "-user" ∧ t ≠ "-name" ∧
      t ≠ "-path" ∧ t ≠ "-type") :
    (do_file env (first_state (prog :: root :: (groups.flatten ++ t :: rest))) path
        (prog :: root :: (groups.flatten ++ t :: rest)) attr).1 = EXIT_FAILURE ∧
    (do_file env (first_state (prog :: root :: (groups.flatten ++ t :: rest))) path
        (prog :: root :: (groups.flatten ++ t :: rest)) attr).2.stderr =
      [prog ++ ": unknown predicate: " ++ t ++ "\n"] ∧
    (do_file env (first_state (prog :: root :: (groups.flatten ++ t :: rest))) path
        (prog :: root :: (groups.flatten ++ t :: rest)) attr).2.stdout = [] := by
  obtain ⟨h1, h2, h3, h4, h5, h6, h7⟩ := ht
  have hskip := fun s => check_params_groups groups (t :: rest) hg 2 s
  clear hg
  generalize groups.flatten = pre at hskip ⊢
  obtain ⟨s1, hs1⟩ := hskip (first_state (prog :: root :: (pre ++ t :: rest)))
  have hstop : check_params (t :: rest) (2 + pre.length) s1 = (1, pre.length + 2, s1) := by
    rw [check_params_cons]; simp [h1, h2, h3, h4, h5, h6, h7]; omega
  have key := first_call_error env (prog :: root :: (pre ++ t :: rest)) path attr 1
    (pre.length + 2) s1 (by rw [← hstop, ← hs1]; rfl) (Or.inl rfl)
  rw [if_pos rfl, param_after, param_zero] at key
  exact key

/-- C1 at the input of the specification: `myfind T -typ f`. -/
theorem unknown_predicate_reported_witness :
    (do_file env_ok (first_state ["myfind", "T", "-typ", "f"]) "T"
        ["myfind", "T", "-typ", "f"] regular_file).1 = EXIT_FAILURE ∧
    (do_file env_ok (first_state ["myfind", "T", "-typ", "f"]) "T"
        ["myfind", "T", "-typ", "f"] regular_file).2.stderr =
      ["myfind: unknown predicate: -typ\n"] ∧
    (do_file env_ok (first_state ["myfind", "T", "-typ", "f"]) "T"
        ["myfind", "T", "-typ", "f"] regular_file).2.stdout = [] :=
  unknown_predicate_reported env_ok "myfind" "T" [] "-typ" ["f"] "T" regular_file
    (by simp) (by decide)

/-- C2. When a two-token predicate `p` is the last element of the argument
vector and everything before it is accepted, the first call of `do_file`
returns `EXIT_FAILURE`, writes exactly `<program>: missing argument to p` to
standard error and nothing to standard output. -/
theorem missing_argument_reported (env : Env) (prog root : String)
    (groups : List (List String)) (p : String) (path : String) (attr : stat)
    (hg : ∀ g ∈ groups, accepted_group g)
    (hp : p = "-user" ∨ p = "-name" ∨ p = "-path" ∨ p = "-type") :
    (do_file env (first_state (prog :: root :: (groups.flatten ++ [p]))) path
        (prog :: root :: (groups.flatten ++ [p])) attr).1 = EXIT_FAILURE ∧
    (do_file env (first_state (prog :: root :: (groups.flatten ++ [p]))) path
        (prog :: root :: (groups.flatten ++ [p])) attr).2.stderr =
      [prog ++ ": missing argument to " ++ p ++ "\n"] ∧
    (do_file env (first_state (prog :: root :: (groups.flatten ++ [p]))) path
        (prog :: root :: (groups.flatten ++ [p])) attr).2.stdout = [] := by
  have hskip := fun s => check_params_groups groups [p] hg 2 s
  clear hg
  generalize groups.flatten = pre at hskip ⊢
  obtain ⟨s1, hs1⟩ := hskip (first_state (prog :: root :: (pre ++ [p])))
  have hstop : check_params [p] (2 + pre.length) s1 = (2, pre.length + 2 + 1, s1) := by
    rw [check_params_cons]
    rcases hp with h | h | h | h <;> subst h <;> simp <;> omega
  have key := first_call_error env (prog :: root :: (pre ++ [p])) path attr 2
    (pre.length + 2 + 1) s1 (by rw [← hstop, ← hs1]; rfl) (Or.inr (Or.inl rfl))
  rw [if_neg (by decide), if_pos rfl, Nat.add_sub_cancel, param_after, param_zero] at key
  exact key

/-- C2 at the input of the specification: `myfind T -type`. -/
theorem missing_argument_reported_witness :
    (do_file env_ok (first_state ["myfind", "T", "-type"]) "T"
        ["myfind", "T", "-type"] regular_file).1 = EXIT_FAILURE ∧
    (do_file env_ok (first_state ["myfind", "T", "-type"]) "T"
        ["myfind", "T", "-type"] regular_file).2.stderr =
      ["myfind: missing argument to -type\n"] ∧
    (do_file env_ok (first_state ["myfind", "T", "-type"]) "T"
        ["myfind", "T", "-type"] regular_file).2.stdout = [] :=
  missing_argument_reported env_ok "myfind" "T" [] "-type" "T" regular_file
    (by simp) (by decide)

/-- C3. For a value `v` given to `-type` after accepted groups: the check stops
at `v` with status 3 exactly when `v` is none of the strings `b c d p f l s`;
when `v` is one of them the scan binds `s_type` to the index of `v` and goes on
with the token after it; and when it is none of them the first call of
`do_file` returns `EXIT_FAILURE`, writes exactly
`<program>: unknown argument to -type: v` to standard error and nothing to
standard output. -/
theorem type_argument_checked (env : Env) (prog root : String)
    (groups : List (List String)) (v : String) (rest : List String) (path : String)
    (attr : stat) (hg : ∀ g ∈ groups, accepted_group g) :
    (((check_params (groups.flatten ++ "-type" :: v :: rest) 2
          (first_state (prog :: root :: (groups.flatten ++ "-type" :: v :: rest)))).1 = 3 ∧
        (check_params (groups.flatten ++ "-type" :: v :: rest) 2
          (first_state (prog :: root :: (groups.flatten ++ "-type" :: v :: rest)))).2.1 =
          groups.flatten.length + 3) ↔
      ¬ (v = "b" ∨ v = "c" ∨ v = "d" ∨ v = "p" ∨ v = "f" ∨ v = "l" ∨ v = "s")) ∧
    ((v = "b" ∨ v = "c" ∨ v = "d" ∨ v = "p" ∨ v = "f" ∨ v = "l" ∨ v = "s") →
      ∃ s1, s1.s_type = groups.flatten.length + 3 ∧
        check_params (groups.flatten ++ "-type" :: v :: rest) 2
          (first_state (prog :: root :: (groups.flatten ++ "-type" :: v :: rest))) =
        check_params rest (groups.flatten.length + 4) s1) ∧
    (¬ (v = "b" ∨ v = "c" ∨ v = "d" ∨ v = "p" ∨ v = "f" ∨ v = "l" ∨ v = "s") →
      (do_file env (first_state (prog :: root :: (groups.flatten ++ "-type" :: v :: rest)))
          path (prog :: root :: (groups.flatten ++ "-type" :: v :: rest)) attr).1 =
        EXIT_FAILURE ∧
      (do_file env (first_state (prog :: root :: (groups.flatten ++ "-type" :: v :: rest)))
          path (prog :: root :: (groups.flatten ++ "-type" :: v :: rest)) attr).2.stderr =
        [prog ++ ": unknown argument to -type: " ++ v ++ "\n"] ∧
      (do_file env (first_state (prog :: root :: (groups.flatten ++ "-type" :: v :: rest)))
          path (prog :: root :: (groups.flatten ++ "-type" :: v :: rest)) attr).2.stdout =
        []) := by
  have hskip := fun s => check_params_groups groups ("-type" :: v :: rest) hg 2 s
  clear hg
  generalize groups.flatten = pre at hskip ⊢
  obtain ⟨s1, hs1⟩ := hskip (first_state (prog :: root :: (pre ++ "-type" :: v :: rest)))
  have hstep : check_params ("-type" :: v :: rest) (2 + pre.length) s1 =
      if v = "b" ∨ v = "c" ∨ v = "d" ∨ v = "p" ∨ v = "f" ∨ v = "l" ∨ v = "s" then
        check_params rest (2 + pre.length + 2) { s1 with s_type := 2 + pre.length + 1 }
      else (3, 2 + pre.length + 1, s1) := by
    rw [check_params_cons]; simp
  refine ⟨?_, ?_, ?_⟩
  · rw [hs1, hstep]
    by_cases hv : v = "b" ∨ v = "c" ∨ v = "d" ∨ v = "p" ∨ v = "f" ∨ v = "l" ∨ v = "s"
    · rw [if_pos hv]
      have hi := check_params_index rest (2 + pre.length + 2)
        { s1 with s_type := 2 + pre.length + 1 }
      constructor
      · rintro ⟨_, h2⟩
        omega
      · intro h; exact absurd hv h
    · rw [if_neg hv]
      constructor
      · intro _; exact hv
      · intro _; exact ⟨rfl, by simp only []; omega⟩
  · intro hv
    refine ⟨{ s1 with s_type := 2 + pre.length + 1 }, by simp only []; omega, ?_⟩
    rw [hs1, hstep, if_pos hv]
    congr 1
    omega
  · intro hv
    rw [if_neg hv] at hstep
    have hstop : check_params ("-type" :: v :: rest) (2 + pre.length) s1 =
        (3, pre.length + 1 + 2, s1) := by
      rw [hstep]; congr 2; omega
    have key := first_call_error env (prog :: root :: (pre ++ "-type" :: v :: rest)) path
      attr 3 (pre.length + 1 + 2) s1 (by rw [← hstop, ← hs1]; rfl) (Or.inr (Or.inr rfl))
    have hp2 := param_after prog root (pre ++ ["-type"]) v rest
    simp only [List.append_assoc, List.singleton_append, List.length_append,
      List.length_singleton] at hp2
    have hi : pre.length + 1 + 2 - 1 = pre.length + 2 := by omega
    have hlit : prog ++ ": unknown argument to " ++ "-type" ++ ": " =
        prog ++ ": unknown argument to -type: " := by
      rw [String.append_assoc, String.append_assoc]
      rfl
    rw [if_neg (by decide), if_neg (by decide), hp2, hi, param_after, param_zero, hlit] at key
    exact key

/-- C3 at the input of the specification: `myfind T -type q`. -/
theorem type_argument_checked_witness :
    (do_file env_ok (first_state ["myfind", "T", "-type", "q"]) "T"
        ["myfind", "T", "-type", "q"] regular_file).1 = EXIT_FAILURE ∧
    (do_file env_ok (first_state ["myfind", "T", "-type", "q"]) "T"
        ["myfind", "T", "-type", "q"] regular_file).2.stderr =
      ["myfind: unknown argument to -type: q\n"] ∧
    (do_file env_ok (first_state ["myfind", "T", "-type", "q"]) "T"
        ["myfind", "T", "-type", "q"] regular_file).2.stdout = [] :=
  (type_argument_checked env_ok "myfind" "T" [] "q" [] "T" regular_file (by simp)).2.2
    (by decide)
/-! ## Type letter and permission string -/

/-- A buffer of bytes other than NUL followed by a NUL holds those bytes. -/
theorem cstr_terminated (l : List Char) (rest : List Char) (h : ∀ c ∈ l, c ≠ Char.ofNat 0) :
    cstr (l ++ Char.ofNat 0 :: rest) = l := by
  induction l with
  | nil => simp [cstr, List.takeWhile]
  | cons a l ih =>
    have ha : a ≠ Char.ofNat 0 := h a (by simp)
    have := ih (fun c hc => h c (by simp [hc]))
    simp only [cstr, List.cons_append] at this ⊢
    rw [List.takeWhile_cons]
    simp [ha, this]

/-- The test of a single mode bit reads the bit at that position. -/
theorem has_bit_two_pow (m k : Nat) : has_bit m (2 ^ k) = m.testBit k := by
  unfold has_bit
  rw [Nat.and_two_pow]
  cases h : m.testBit k <;> simp

/-- The type letter is one of the eight letters. -/
theorem do_get_type_mem (attr : stat) :
    do_get_type attr ∈ ['b', 'c', 'd', 'p', 'f', 'l', 's', '?'] := by
  unfold do_get_type
  split_ifs <;> simp

theorem do_get_type_ne_nul (attr : stat) : do_get_type attr ≠ Char.ofNat 0 := by
  have h := do_get_type_mem attr
  intro h0
  rw [h0] at h
  revert h
  decide

/-- The bytes in the buffer of `do_get_perms` before its NUL. -/
theorem do_get_perms_eq (attr : stat) :
    do_get_perms attr = String.mk ((perms_buf attr).take 11) := by
  unfold do_get_perms
  congr 1
  have hsplit : perms_buf attr = (perms_buf attr).take 11 ++ Char.ofNat 0 :: [] := by
    simp [perms_buf]
  conv_lhs => rw [hsplit]
  apply cstr_terminated
  intro c hc
  simp only [perms_buf, List.take, List.mem_cons, List.mem_singleton] at hc
  have ht := do_get_type_ne_nul attr
  rcases hc with h | h | h | h | h | h | h | h | h | h | h | h
  all_goals first
    | exact absurd h (List.not_mem_nil c)
    | (rw [h]; decide)
    | (rw [h]; split_ifs <;> first | exact ht | decide)

/-- C9. For every `st_mode` the string returned by `do_get_perms` has exactly
11 characters and the last one, at position 10, is a space. -/
theorem perms_length_and_trailing_space (attr : stat) :
    (do_get_perms attr).length = 11 ∧ (do_get_perms attr).data[10]? = some ' ' := by
  rw [do_get_perms_eq]
  simp [perms_buf, String.length]

/-- The slot the code computes for an execute position is the one the
specification describes. -/
theorem exec_slot_eq (special exec : Bool) (lower upper : Char) :
    (if special then (if exec then lower else upper) else (if exec then 'x' else '-')) =
      exec_slot_spec special exec lower upper := by
  cases special <;> cases exec <;> simp [exec_slot_spec]

/-- C10. For every `st_mode`, `do_get_perms` returns the string the
specification describes: the type letter with `f` shown as `-`, then for
owner, group and others the letters `r` and `w` where the bit is set and `-`
where it is not, and the execute slot with `s`/`S` (set-user-id, set-group-id)
or `t`/`T` (sticky), lower case when the execute bit is set as well. A regular
file with mode 0644 gives `-rw-r--r-- `. -/
theorem perms_content (attr : stat) :
    do_get_perms attr = perms_spec attr ∧ do_get_perms regular_file = "-rw-r--r-- " := by
  refine ⟨?_, by decide⟩
  rw [do_get_perms_eq]
  have b11 : has_bit attr.st_mode S_ISUID = attr.st_mode.testBit 11 :=
    has_bit_two_pow attr.st_mode 11
  have b10 : has_bit attr.st_mode S_ISGID = attr.st_mode.testBit 10 :=
    has_bit_two_pow attr.st_mode 10
  have b9 : has_bit attr.st_mode S_ISVTX = attr.st_mode.testBit 9 :=
    has_bit_two_pow attr.st_mode 9
  have b8 : has_bit attr.st_mode S_IRUSR = attr.st_mode.testBit 8 :=
    has_bit_two_pow attr.st_mode 8
  have b7 : has_bit attr.st_mode S_IWUSR = attr.st_mode.testBit 7 :=
    has_bit_two_pow attr.st_mode 7
  have b6 : has_bit attr.st_mode S_IXUSR = attr.st_mode.testBit 6 :=
    has_bit_two_pow attr.st_mode 6
  have b5 : has_bit attr.st_mode S_IRGRP = attr.st_mode.testBit 5 :=
    has_bit_two_pow attr.st_mode 5
  have b4 : has_bit attr.st_mode S_IWGRP = attr.st_mode.testBit 4 :=
    has_bit_two_pow attr.st_mode 4
  have b3 : has_bit attr.st_mode S_IXGRP = attr.st_mode.testBit 3 :=
    has_bit_two_pow attr.st_mode 3
  have b2 : has_bit attr.st_mode S_IROTH = attr.st_mode.testBit 2 :=
    has_bit_two_pow attr.st_mode 2
  have b1 : has_bit attr.st_mode S_IWOTH = attr.st_mode.testBit 1 :=
    has_bit_two_pow attr.st_mode 1
  have b0 : has_bit attr.st_mode S_IXOTH = attr.st_mode.testBit 0 :=
    has_bit_two_pow attr.st_mode 0
  simp only [perms_buf, perms_spec, List.take, b0, b1, b2, b3, b4, b5, b6, b7, b8, b9, b10,
    b11, exec_slot_eq]
/-! ## Accepted argument vectors and the states of a run -/

/-- The loop steps over an accepted group and binds it. -/
theorem check_params_bind_group (g tail : List String) (i : Nat) (s : State)
    (hg : accepted_group g) :
    check_params (g ++ tail) i s = check_params tail (i + g.length) (bind_group i s g) := by
  match g, hg with
  | [t], h =>
    rcases h with h | h | h <;> subst h <;> simp [check_params_cons, bind_group]
  | [p, v], h =>
    rcases h with h | h | h | ⟨h, hv⟩ <;> subst h
    · simp [check_params_cons, bind_group]
    · simp [check_params_cons, bind_group]
    · simp [check_params_cons, bind_group]
    · simp [check_params_cons, bind_group, hv]

/-- The loop steps over a sequence of accepted groups and binds them. -/
theorem check_params_bind_groups (groups : List (List String)) (tail : List String)
    (hg : ∀ g ∈ groups, accepted_group g) :
    ∀ (i : Nat) (s : State),
      check_params (groups.flatten ++ tail) i s =
        check_params tail (i + groups.flatten.length) (bind_groups i s groups) := by
  induction groups with
  | nil => intro i s; simp [bind_groups]
  | cons g gs ih =>
    intro i s
    have h1 := check_params_bind_group g (gs.flatten ++ tail) i s (hg g (by simp))
    have h2 := ih (fun g2 hg2 => hg g2 (by simp [hg2])) (i + g.length) (bind_group i s g)
    simp only [List.flatten_cons, List.append_assoc, List.length_append, bind_groups]
    rw [h1, h2, Nat.add_assoc]

/-- An argument vector made of accepted groups passes the check. -/
theorem check_params_accepted (groups : List (List String))
    (hg : ∀ g ∈ groups, accepted_group g) (i : Nat) (s : State) :
    check_params groups.flatten i s =
      (0, i + groups.flatten.length, bind_groups i s groups) := by
  have h := check_params_bind_groups groups [] hg i s
  rw [List.append_nil] at h
  rw [h]
  rfl

/-- A state whose statics are those of `t` is unchanged by taking the statics of `t`. -/
theorem with_statics_self (s t : State) (h : statics s = statics t) : with_statics s t = s := by
  cases s
  simp only [statics, List.cons.injEq, and_true] at h
  obtain ⟨h1, h2, h3, h4, h5, h6, h7, h8⟩ := h
  simp [with_statics, ← h1, ← h2, ← h3, ← h4, ← h5, ← h6, ← h7, ← h8]

/-- Two states with the same frame differ in their statics only. -/
theorem with_statics_of_frame (s t : State) (h : same_frame t s) :
    with_statics s { t with checked := 1 } = { t with checked := 1 } := by
  cases s
  cases t
  obtain ⟨h1, h2, h3, h4, h5, h6, h7, h8⟩ := h
  simp only at h1 h2 h3 h4 h5 h6 h7 h8
  simp [with_statics, h1, h3, h4, h5, h6, h7, h8]

/-- In a run under an accepted argument vector every call of `do_file` goes
on to the filters with the statics that the check left. -/
theorem do_file_in_run (env : Env) (prog root : String) (groups : List (List String))
    (hg : ∀ g ∈ groups, accepted_group g) (s : State)
    (hs : run_state (prog :: root :: groups.flatten) s) (path : String) (attr : stat) :
    do_file env s path (prog :: root :: groups.flatten) attr =
      filter_print env (with_statics s (after_check (prog :: root :: groups.flatten))) path
        (prog :: root :: groups.flatten) attr := by
  rcases hs with hs | ⟨_, hs⟩
  · subst hs
    have hfr := check_params_frame groups.flatten 2 (first_state (prog :: root :: groups.flatten))
    have hw := with_statics_of_frame _ _ hfr
    have hchk : (first_state (prog :: root :: groups.flatten)).checked = 0 := rfl
    have hacc := check_params_accepted groups hg 2 (first_state (prog :: root :: groups.flatten))
    unfold after_check
    simp only [List.drop_succ_cons, List.drop_zero]
    rw [hw]
    simp only [do_file, hchk, List.drop_succ_cons, List.drop_zero, if_true]
    rw [hacc]
    simp
  · rw [with_statics_self s _ hs]
    have hc : s.checked = 1 := by
      simp only [statics, List.cons.injEq] at hs
      exact hs.1
    have hs1 : { s with checked := 1 } = s := by
      cases s
      simp only at hc
      simp [hc]
    simp [do_file, hc, hs1]
/-! ## The statics that accepted groups leave -/

theorem bind_groups_append (g1 g2 : List (List String)) :
    ∀ (i : Nat) (s : State),
      bind_groups i s (g1 ++ g2) =
        bind_groups (i + g1.flatten.length) (bind_groups i s g1) g2 := by
  induction g1 with
  | nil => intro i s; simp [bind_groups]
  | cons g gs ih =>
    intro i s
    have h := ih (i + g.length) (bind_group i s g)
    simp only [List.cons_append, bind_groups, List.flatten_cons, List.length_append]
    rw [← Nat.add_assoc]
    exact h

/-- A property of the state that every group of a sequence keeps is kept by
the sequence. -/
theorem bind_groups_keeps (P : State → Prop) (groups : List (List String))
    (h : ∀ g ∈ groups, ∀ (i : Nat) (s : State), P s → P (bind_group i s g)) :
    ∀ (i : Nat) (s : State), P s → P (bind_groups i s groups) := by
  induction groups with
  | nil => intro i s hs; exact hs
  | cons g gs ih =>
    intro i s hs
    exact ih (fun g2 hg2 => h g2 (by simp [hg2])) _ _ (h g (by simp) i s hs)

theorem bind_group_cases (P : State → Prop) (i : Nat) (s : State) (g : List String)
    (h0 : P s)
    (h1 : g = ["-print"] → P { s with s_print := 1 })
    (h2 : g = ["-ls"] → P { s with s_ls := 1 })
    (h3 : g = ["-nouser"] → P { s with s_nouser := 1 })
    (h4 : ∀ v, g = ["-user", v] → P { s with s_user := i + 1 })
    (h5 : ∀ v, g = ["-name", v] → P { s with s_name := i + 1 })
    (h6 : ∀ v, g = ["-path", v] → P { s with s_path := i + 1 })
    (h7 : ∀ v, g = ["-type", v] → P { s with s_type := i + 1 }) :
    P (bind_group i s g) := by
  match g with
  | [] => exact h0
  | [t] =>
    simp only [bind_group]
    split_ifs with a b c
    · exact h1 (by rw [a])
    · exact h2 (by rw [b])
    · exact h3 (by rw [c])
    · exact h0
  | [p, v] =>
    simp only [bind_group]
    split_ifs with a b c d
    · exact h4 v (by rw [a])
    · exact h5 v (by rw [b])
    · exact h6 v (by rw [c])
    · exact h7 v (by rw [d])
    · exact h0
  | _ :: _ :: _ :: _ => exact h0

/-- Binding groups changes nothing but the seven parameter flags. -/
theorem bind_groups_frame (groups : List (List String)) (i : Nat) (s : State) :
    same_frame (bind_groups i s groups) s := by
  apply bind_groups_keeps (fun t => same_frame t s) groups _ i s
  · simp [same_frame]
  · intro g _ j t ht
    apply bind_group_cases (fun u => same_frame u s) j t g ht <;> intros <;> exact ht

theorem bind_groups_s_ls_kept (groups : List (List String)) (h : ["-ls"] ∉ groups)
    (i : Nat) (s : State) : (bind_groups i s groups).s_ls = s.s_ls := by
  apply bind_groups_keeps (fun t => t.s_ls = s.s_ls) groups _ i s rfl
  intro g hg j t ht
  apply bind_group_cases (fun u => u.s_ls = s.s_ls) j t g ht <;> intros <;> first
    | exact ht
    | (rename_i hh; rw [hh] at hg; exact absurd hg h)

theorem bind_groups_s_type_kept (groups : List (List String))
    (h : ∀ v, ["-type", v] ∉ groups) (i : Nat) (s : State) :
    (bind_groups i s groups).s_type = s.s_type := by
  apply bind_groups_keeps (fun t => t.s_type = s.s_type) groups _ i s rfl
  intro g hg j t ht
  apply bind_group_cases (fun u => u.s_type = s.s_type) j t g ht <;> intros <;> first
    | exact ht
    | (rename_i v hh; rw [hh] at hg; exact absurd hg (h v))

/-- The statics after the check of an accepted argument vector. -/
theorem after_check_accepted (prog root : String) (groups : List (List String))
    (hg : ∀ g ∈ groups, accepted_group g) :
    after_check (prog :: root :: groups.flatten) =
      { bind_groups 2 (first_state (prog :: root :: groups.flatten)) groups with
        checked := 1 } := by
  unfold after_check
  simp only [List.drop_succ_cons, List.drop_zero]
  rw [check_params_accepted groups hg]
/-! ## The printing section -/

theorem do_get_mtime_text (env : Env) (s t : State) (attr : stat) :
    (do_get_mtime env s attr).1 = (do_get_mtime env t attr).1 := by
  unfold do_get_mtime
  split_ifs
  · rfl
  · cases env.strftime attr.st_mtime <;> rfl

/-- While `localtime` succeeds, `do_get_mtime` returns a text and the process
lives on. -/
theorem do_get_mtime_some (env : Env) (s : State) (attr : stat)
    (hlt : env.localtime_null attr.st_mtime = false) :
    (do_get_mtime env s attr).1 = some (mtime_text env attr) ∧
    (do_get_mtime env s attr).2.killed = s.killed := by
  unfold do_get_mtime mtime_text
  rw [hlt]
  cases env.strftime attr.st_mtime <;> exact ⟨rfl, rfl⟩

/-- When `localtime` returns `NULL`, the process is killed in `do_get_mtime`. -/
theorem do_get_mtime_none (env : Env) (s : State) (attr : stat)
    (hlt : env.localtime_null attr.st_mtime = true) :
    do_get_mtime env s attr = (none, { s with killed := true }) := by
  unfold do_get_mtime
  rw [hlt]
  rfl

theorem do_get_symlink_text (env : Env) (s t : State) (path : String) (attr : stat)
    (h : s.mallocs = t.mallocs) :
    (do_get_symlink env s path attr).1 = (do_get_symlink env t path attr).1 := by
  unfold do_get_symlink
  rw [h]
  split_ifs
  · cases env.malloc_err t.mallocs
    · cases env.readlink path <;> rfl
    · rfl
  · rfl

/-- The function `do_get_mtime` writes nothing to standard output and keeps the statics
and the counters. -/
theorem do_get_mtime_state (env : Env) (s : State) (attr : stat) :
    (do_get_mtime env s attr).2.stdout = s.stdout ∧
    (do_get_mtime env s attr).2.printfs = s.printfs ∧
    (do_get_mtime env s attr).2.mallocs = s.mallocs ∧
    (do_get_mtime env s attr).2.program = s.program ∧
    statics (do_get_mtime env s attr).2 = statics s := by
  unfold do_get_mtime
  split_ifs
  · simp [statics]
  · cases env.strftime attr.st_mtime <;> simp [State.err, statics]

/-- The function `do_get_symlink` writes nothing to standard output and keeps the statics
and the `printf` counter. -/
theorem do_get_symlink_state (env : Env) (s : State) (path : String) (attr : stat) :
    (do_get_symlink env s path attr).2.stdout = s.stdout ∧
    (do_get_symlink env s path attr).2.printfs = s.printfs ∧
    (do_get_symlink env s path attr).2.program = s.program ∧
    statics (do_get_symlink env s path attr).2 = statics s := by
  unfold do_get_symlink
  split_ifs
  · cases env.malloc_err s.mallocs
    · cases env.readlink path <;> simp [State.err, statics]
    · simp [statics]
  · simp

/-- The function `do_get_symlink` leaves the path buffer and the process as they are. -/
theorem do_get_symlink_buf (env : Env) (s : State) (path : String) (attr : stat) :
    (do_get_symlink env s path attr).2.path_buf = s.path_buf ∧
    (do_get_symlink env s path attr).2.killed = s.killed := by
  unfold do_get_symlink
  split_ifs
  · cases env.malloc_err s.mallocs
    · cases env.readlink path <;> simp [State.err]
    · simp
  · simp

/-- The function `do_get_mtime` leaves the path buffer as it is. -/
theorem do_get_mtime_buf (env : Env) (s : State) (attr : stat) :
    (do_get_mtime env s attr).2.path_buf = s.path_buf := by
  unfold do_get_mtime
  split_ifs
  · rfl
  · cases env.strftime attr.st_mtime <;> rfl

/-- The function `do_ls` while `localtime` succeeds: one `printf` of the record. -/
theorem do_ls_alive (env : Env) (s : State) (path : String) (attr : stat)
    (hlt : env.localtime_null attr.st_mtime = false) :
    do_ls env s path attr =
      printf_out env (do_get_symlink env (do_get_mtime env s attr).2 path attr).2
        (format_ls (to_long attr.st_ino) (attr.st_blocks / 2) (do_get_perms attr)
          (to_long attr.st_nlink) attr.st_uid attr.st_gid attr.st_size
          (mtime_text env attr) path
          (if (do_get_symlink env (do_get_mtime env s attr).2 path attr).1.length > 0 then " -> "
            else "")
          (do_get_symlink env (do_get_mtime env s attr).2 path attr).1) := by
  have h := (do_get_mtime_some env s attr hlt).1
  unfold do_ls
  simp only [h]

/-- The function `do_ls` when `localtime` returns `NULL`: the process is killed
before anything is written. -/
theorem do_ls_killed (env : Env) (s : State) (path : String) (attr : stat)
    (hlt : env.localtime_null attr.st_mtime = true) :
    do_ls env s path attr = (KILLED, { s with killed := true }) := by
  have h := do_get_mtime_none env s attr hlt
  unfold do_ls
  simp only [h]

/-- The record that `do_ls` prints for an entry in the state `s`. -/
theorem do_ls_stdout (env : Env) (s : State) (path : String) (attr : stat)
    (hout : env.printf_err s.printfs = none)
    (hlt : env.localtime_null attr.st_mtime = false) :
    (do_ls env s path attr).1 = EXIT_SUCCESS ∧
    (do_ls env s path attr).2.stdout = s.stdout ++
      [format_ls (to_long attr.st_ino) (attr.st_blocks / 2) (do_get_perms attr)
        (to_long attr.st_nlink) attr.st_uid attr.st_gid attr.st_size
        (mtime_text env attr) path
        (if (do_get_symlink env s path attr).1.length > 0 then " -> " else "")
        (do_get_symlink env s path attr).1] := by
  have hm := do_get_mtime_state env s attr
  have hl := do_get_symlink_state env (do_get_mtime env s attr).2 path attr
  have htxt := do_get_symlink_text env (do_get_mtime env s attr).2 s path attr hm.2.2.1
  have hp : env.printf_err (do_get_symlink env (do_get_mtime env s attr).2 path attr).2.printfs
      = none := by
    rw [hl.2.1, hm.2.1]; exact hout
  rw [do_ls_alive env s path attr hlt]
  simp only [printf_out, hp, htxt, hl.1, hm.1]
  exact ⟨trivial, trivial⟩

theorem ret_snd (r : Int × State) :
    (if r.1 ≠ EXIT_SUCCESS then (EXIT_FAILURE, r.2) else (EXIT_SUCCESS, r.2)).2 = r.2 := by
  split_ifs <;> rfl

/-- The printing section when only `-ls` is selected. -/
theorem printing_ls_only (env : Env) (s : State) (path : String) (attr : stat)
    (hls : s.s_ls ≠ 0) (hpr : s.s_print = 0) :
    (printing env s path attr).2 = (do_ls env s path attr).2 := by
  have h1 : ¬ (s.s_ls = 0 ∨ s.s_print ≠ 0) := by
    intro h
    rcases h with h | h
    · exact hls h
    · exact h hpr
  unfold printing
  simp only [if_neg h1, ne_eq, not_true_eq_false, if_false, if_pos hls]
  exact ret_snd _

theorem bind_groups_s_name_kept (groups : List (List String))
    (h : ∀ v, ["-name", v] ∉ groups) (i : Nat) (s : State) :
    (bind_groups i s groups).s_name = s.s_name := by
  apply bind_groups_keeps (fun t => t.s_name = s.s_name) groups _ i s rfl
  intro g hg j t ht
  apply bind_group_cases (fun u => u.s_name = s.s_name) j t g ht <;> intros <;> first
    | exact ht
    | (rename_i v hh; rw [hh] at hg; exact absurd hg (h v))

theorem bind_groups_s_name_set (groups : List (List String)) (v : String)
    (h : ["-name", v] ∈ groups) (i : Nat) (s : State) :
    (bind_groups i s groups).s_name ≠ 0 := by
  obtain ⟨g1, g2, rfl⟩ := List.append_of_mem h
  rw [bind_groups_append]
  simp only [bind_groups]
  apply bind_groups_keeps (fun t => t.s_name ≠ 0) g2
  · intro g _ j t ht
    apply bind_group_cases (fun u => u.s_name ≠ 0) j t g ht <;> intros <;> first
      | exact ht
      | exact Nat.succ_ne_zero _
  · simp [bind_group]

/-- The path that the calls of a run go on with after the test of `-name`:
the path given when no `-name` is among the groups, and the path without its
trailing slashes when one is. -/
theorem path_seen_accepted (prog root : String) (groups : List (List String))
    (hg : ∀ g ∈ groups, accepted_group g) (path : String) :
    ((∀ v, ["-name", v] ∉ groups) →
      path_seen (after_check (prog :: root :: groups.flatten)) path = path) ∧
    ((∃ v, ["-name", v] ∈ groups) →
      path_seen (after_check (prog :: root :: groups.flatten)) path = basename_cut path) := by
  rw [after_check_accepted prog root groups hg]
  constructor
  · intro h
    have h0 : (bind_groups 2 (first_state (prog :: root :: groups.flatten)) groups).s_name = 0 :=
      bind_groups_s_name_kept groups h 2 _
    simp only [path_seen, h0, ne_eq, not_true_eq_false, if_false]
  · rintro ⟨v, h⟩
    have h0 := bind_groups_s_name_set groups v h 2 (first_state (prog :: root :: groups.flatten))
    simp only [path_seen]
    rw [if_pos h0]

theorem name_done_fields (s : State) (path : String) :
    statics (name_done s path) = statics s ∧ (name_done s path).program = s.program ∧
    (name_done s path).stdout = s.stdout ∧ (name_done s path).stderr = s.stderr ∧
    (name_done s path).printfs = s.printfs ∧ (name_done s path).mallocs = s.mallocs ∧
    (name_done s path).calls = s.calls ∧ (name_done s path).open_dirs = s.open_dirs ∧
    (name_done s path).killed = s.killed := by
  unfold name_done
  split_ifs <;> exact ⟨rfl, rfl, rfl, rfl, rfl, rfl, rfl, rfl, rfl⟩

theorem name_done_flags (s : State) (path : String) :
    (name_done s path).checked = s.checked ∧ (name_done s path).s_print = s.s_print ∧
    (name_done s path).s_ls = s.s_ls ∧ (name_done s path).s_name = s.s_name ∧
    (name_done s path).s_type = s.s_type := by
  unfold name_done
  split_ifs <;> exact ⟨rfl, rfl, rfl, rfl, rfl⟩

/-- Of the five filters only `-type` can reject an entry: the other four
functions return `EXIT_SUCCESS` whatever they are given. -/
theorem filter_print_eq (env : Env) (s : State) (path : String) (params : List String)
    (attr : stat) :
    filter_print env s path params attr =
      if s.s_type ≠ 0 ∧ do_type (char0 (param params s.s_type)) attr ≠ EXIT_SUCCESS then
        (EXIT_SUCCESS, name_done s path)
      else printing env (name_done s path) (path_seen s path) attr := by
  unfold filter_print filter_rest name_done path_seen
  by_cases hn : s.s_name ≠ 0
  · simp [do_nouser, do_user, do_name, do_path, hn]
  · simp [do_nouser, do_user, do_path, hn]

theorem S_IS_exclusive (m : Nat) :
    (S_ISREG m = true → S_ISBLK m = false ∧ S_ISCHR m = false ∧ S_ISDIR m = false ∧
      S_ISFIFO m = false) ∧
    (S_ISLNK m = true → S_ISBLK m = false ∧ S_ISCHR m = false ∧ S_ISDIR m = false ∧
      S_ISFIFO m = false ∧ S_ISREG m = false) := by
  simp only [S_ISREG, S_ISBLK, S_ISCHR, S_ISDIR, S_ISFIFO, S_ISLNK, beq_iff_eq]
  constructor
  · intro h
    rw [h]
    decide
  · intro h
    rw [h]
    decide

/-- The index and the value that the last `-type` group of an accepted
argument vector leaves in `s_type`. -/
theorem after_check_s_type (prog root : String) (groups1 groups2 : List (List String))
    (c : String) (h1 : ∀ g ∈ groups1, accepted_group g) (h2 : ∀ g ∈ groups2, accepted_group g)
    (hc : accepted_group ["-type", c]) (hlast : ∀ v, ["-type", v] ∉ groups2) :
    (after_check (prog :: root :: (groups1 ++ ["-type", c] :: groups2).flatten)).s_type ≠ 0 ∧
    param (prog :: root :: (groups1 ++ ["-type", c] :: groups2).flatten)
      (after_check (prog :: root :: (groups1 ++ ["-type", c] :: groups2).flatten)).s_type = c
    := by
  have hg : ∀ g ∈ groups1 ++ ["-type", c] :: groups2, accepted_group g := by
    intro g hg
    rcases List.mem_append.mp hg with h | h
    · exact h1 g h
    · rcases List.mem_cons.mp h with h | h
      · rw [h]; exact hc
      · exact h2 g h
  rw [after_check_accepted prog root _ hg]
  have hidx : (bind_groups 2 (first_state
      (prog :: root :: (groups1 ++ ["-type", c] :: groups2).flatten))
      (groups1 ++ ["-type", c] :: groups2)).s_type = groups1.flatten.length + 1 + 2 := by
    rw [bind_groups_append]
    simp only [bind_groups]
    rw [bind_groups_s_type_kept groups2 hlast]
    simp only [bind_group, if_neg (show ¬ ("-type" = "-user") by decide),
      if_neg (show ¬ ("-type" = "-name") by decide),
      if_neg (show ¬ ("-type" = "-path") by decide), if_true]
    omega
  have hflat : (groups1 ++ ["-type", c] :: groups2).flatten =
      (groups1.flatten ++ ["-type"]) ++ c :: groups2.flatten := by
    simp
  have hp := param_after prog root (groups1.flatten ++ ["-type"]) c groups2.flatten
  simp only [List.length_append, List.length_singleton] at hp
  refine ⟨?_, ?_⟩
  · show (bind_groups 2 _ _).s_type ≠ 0
    rw [hidx]
    omega
  · show param _ (bind_groups 2 _ _).s_type = c
    rw [hidx, hflat]
    exact hp
/-- C7. `do_get_type` returns one of the letters `b c d p f l s ?` for every
`st_mode`; it returns `?` exactly when the file-format bits are none of block
device, character device, directory, FIFO, regular file, symbolic link and
socket; a regular file is classified `f` and a symbolic link `l`; and in a run
under an accepted argument vector whose last `-type` value is `c`, an entry
adds to standard output only if its type letter is `c`, so that an entry
classified `?` adds nothing. -/
theorem type_filter (attr : stat) :
    do_get_type attr ∈ ['b', 'c', 'd', 'p', 'f', 'l', 's', '?'] ∧
    (do_get_type attr = '?' ↔
      (attr.st_mode &&& S_IFMT ≠ S_IFBLK ∧ attr.st_mode &&& S_IFMT ≠ S_IFCHR ∧
        attr.st_mode &&& S_IFMT ≠ S_IFDIR ∧ attr.st_mode &&& S_IFMT ≠ S_IFIFO ∧
        attr.st_mode &&& S_IFMT ≠ S_IFREG ∧ attr.st_mode &&& S_IFMT ≠ S_IFLNK ∧
        attr.st_mode &&& S_IFMT ≠ S_IFSOCK)) ∧
    (S_ISREG attr.st_mode = true → do_get_type attr = 'f') ∧
    (S_ISLNK attr.st_mode = true → do_get_type attr = 'l') ∧
    (∀ (env : Env) (prog root : String) (groups1 groups2 : List (List String)) (c : String)
        (s : State) (path : String),
      (∀ g ∈ groups1, accepted_group g) → (∀ g ∈ groups2, accepted_group g) →
      accepted_group ["-type", c] → (∀ v, ["-type", v] ∉ groups2) →
      run_state (prog :: root :: (groups1 ++ ["-type", c] :: groups2).flatten) s →
      ((do_file env s path (prog :: root :: (groups1 ++ ["-type", c] :: groups2).flatten)
          attr).2.stdout ≠ s.stdout → do_get_type attr = char0 c) ∧
      (do_get_type attr = '?' →
        (do_file env s path (prog :: root :: (groups1 ++ ["-type", c] :: groups2).flatten)
          attr).2.stdout = s.stdout)) := by
  refine ⟨do_get_type_mem attr, ?_, ?_, ?_, ?_⟩
  · unfold do_get_type
    simp only [S_ISREG, S_ISBLK, S_ISCHR, S_ISDIR, S_ISFIFO, S_ISLNK, S_ISSOCK, beq_iff_eq]
    split_ifs <;> simp_all
  · intro h
    obtain ⟨h1, h2, h3, h4⟩ := (S_IS_exclusive attr.st_mode).1 h
    simp [do_get_type, h, h1, h2, h3, h4]
  · intro h
    obtain ⟨h1, h2, h3, h4, h5⟩ := (S_IS_exclusive attr.st_mode).2 h
    simp [do_get_type, h, h1, h2, h3, h4, h5]
  · intro env prog root groups1 groups2 c s path h1 h2 hc hlast hs
    have hg : ∀ g ∈ groups1 ++ ["-type", c] :: groups2, accepted_group g := by
      intro g hg
      rcases List.mem_append.mp hg with h | h
      · exact h1 g h
      · rcases List.mem_cons.mp h with h | h
        · rw [h]; exact hc
        · exact h2 g h
    obtain ⟨hne, hval⟩ := after_check_s_type prog root groups1 groups2 c h1 h2 hc hlast
    rw [do_file_in_run env prog root _ hg s hs, filter_print_eq]
    have key : do_get_type attr ≠ char0 c →
        (if (with_statics s (after_check
              (prog :: root :: (groups1 ++ ["-type", c] :: groups2).flatten))).s_type ≠ 0 ∧
            do_type (char0 (param (prog :: root :: (groups1 ++ ["-type", c] :: groups2).flatten)
              (with_statics s (after_check
                (prog :: root :: (groups1 ++ ["-type", c] :: groups2).flatten))).s_type))
              attr ≠ EXIT_SUCCESS then
          (EXIT_SUCCESS, name_done (with_statics s (after_check
            (prog :: root :: (groups1 ++ ["-type", c] :: groups2).flatten))) path)
        else printing env (name_done (with_statics s (after_check
            (prog :: root :: (groups1 ++ ["-type", c] :: groups2).flatten))) path)
            (path_seen (with_statics s (after_check
            (prog :: root :: (groups1 ++ ["-type", c] :: groups2).flatten))) path)
            attr).2.stdout = s.stdout := by
      intro hneq
      have hty : do_type (char0 c) attr ≠ EXIT_SUCCESS := by
        unfold do_type
        rw [if_neg (fun h => hneq h.symm)]
        decide
      rw [if_pos]
      · exact (name_done_fields _ path).2.2.1
      · refine ⟨hne, ?_⟩
        show do_type (char0 (param _ (after_check _).s_type)) attr ≠ EXIT_SUCCESS
        rw [hval]
        exact hty
    constructor
    · intro hout
      by_contra hneq
      exact hout (key hneq)
    · intro hq
      apply key
      rw [hq]
      have hc2 : c = "b" ∨ c = "c" ∨ c = "d" ∨ c = "p" ∨ c = "f" ∨ c = "l" ∨ c = "s" := by
        simpa [accepted_group] using hc
      rcases hc2 with h | h | h | h | h | h | h <;> rw [h] <;> decide

/-- C7 on the fixture: under `myfind T -type f -print` the regular file is
printed, and it is classified `f`. -/
theorem type_filter_witness :
    (do_file env_ok (first_state ["myfind", "T", "-type", "f", "-print"]) "T/a.txt"
        ["myfind", "T", "-type", "f", "-print"] regular_file).2.stdout ≠
      (first_state ["myfind", "T", "-type", "f", "-print"]).stdout ∧
    do_get_type regular_file = char0 "f" :=
  ⟨by decide,
    ((type_filter regular_file).2.2.2.2 env_ok "myfind" "T" [] [["-print"]] "f"
      (first_state ["myfind", "T", "-type", "f", "-print"]) "T/a.txt"
      (by simp) (by simp [accepted_group]) (by simp [accepted_group]) (by simp)
      (Or.inl rfl)).1 (by decide)⟩
/-! ## The statics after the first call -/

theorem printf_out_state (env : Env) (s : State) (record : String) :
    statics (printf_out env s record).2 = statics s ∧
    (printf_out env s record).2.program = s.program ∧
    (printf_out env s record).2.mallocs = s.mallocs := by
  unfold printf_out
  cases env.printf_err s.printfs <;> simp [statics]

theorem do_get_symlink_mallocs (env : Env) (s t : State) (path : String) (attr : stat)
    (h : s.mallocs = t.mallocs) :
    (do_get_symlink env s path attr).2.mallocs = (do_get_symlink env t path attr).2.mallocs := by
  unfold do_get_symlink
  rw [h]
  split_ifs
  · cases env.malloc_err t.mallocs
    · cases env.readlink path <;> simp [State.err, h]
    · simp [h]
  · exact h

theorem do_ls_state (env : Env) (s : State) (path : String) (attr : stat) :
    statics (do_ls env s path attr).2 = statics s ∧
    (do_ls env s path attr).2.program = s.program := by
  cases hlt : env.localtime_null attr.st_mtime with
  | true =>
    rw [do_ls_killed env s path attr hlt]
    exact ⟨rfl, rfl⟩
  | false =>
    have hm := do_get_mtime_state env s attr
    have hl := do_get_symlink_state env (do_get_mtime env s attr).2 path attr
    have hp := printf_out_state env (do_get_symlink env (do_get_mtime env s attr).2 path attr).2
      (format_ls (to_long attr.st_ino) (attr.st_blocks / 2) (do_get_perms attr)
        (to_long attr.st_nlink) attr.st_uid attr.st_gid attr.st_size
        (mtime_text env attr) path
        (if (do_get_symlink env (do_get_mtime env s attr).2 path attr).1.length > 0 then " -> "
          else "")
        (do_get_symlink env (do_get_mtime env s attr).2 path attr).1)
    rw [do_ls_alive env s path attr hlt]
    exact ⟨by rw [hp.1, hl.2.2.2, hm.2.2.2.2], by rw [hp.2.1, hl.2.2.1, hm.2.2.2.1]⟩

/-- The printing section leaves `program` and the statics as they are. -/
theorem printing_state (env : Env) (s : State) (path : String) (attr : stat) :
    statics (printing env s path attr).2 = statics s ∧
    (printing env s path attr).2.program = s.program := by
  have hp := printf_out_state env s (path ++ "\n")
  unfold printing
  by_cases h1 : s.s_ls = 0 ∨ s.s_print ≠ 0
  · simp only [if_pos h1]
    by_cases h2 : (do_print env s path).1 ≠ EXIT_SUCCESS
    · simp only [if_pos h2]
      exact ⟨hp.1, hp.2.1⟩
    · simp only [if_neg h2]
      by_cases h3 : (do_print env s path).2.s_ls ≠ 0
      · have hl := do_ls_state env (do_print env s path).2 path attr
        simp only [if_pos h3, ret_snd]
        exact ⟨by rw [hl.1]; exact hp.1, by rw [hl.2]; exact hp.2.1⟩
      · simp only [if_neg h3, ret_snd]
        exact ⟨hp.1, hp.2.1⟩
  · simp only [if_neg h1, ne_eq, not_true_eq_false, if_false]
    by_cases h3 : s.s_ls ≠ 0
    · have hl := do_ls_state env s path attr
      simp only [if_pos h3, ret_snd]
      exact hl
    · simp only [if_neg h3, ret_snd]
      exact ⟨rfl, rfl⟩

/-- Once `checked` is set, `do_file` is its filtering and printing sections. -/
theorem do_file_checked (env : Env) (s : State) (path : String) (params : List String)
    (attr : stat) (hc : s.checked = 1) :
    do_file env s path params attr = filter_print env s path params attr := by
  have hs1 : { s with checked := 1 } = s := by
    cases s
    simp only at hc
    simp [hc]
  simp [do_file, hc, hs1]

/-- Once `checked` is set, a call of `do_file` leaves `program` and the statics
as they are. -/
theorem do_file_state (env : Env) (s : State) (path : String) (params : List String)
    (attr : stat) (hc : s.checked = 1) :
    statics (do_file env s path params attr).2 = statics s ∧
    (do_file env s path params attr).2.program = s.program := by
  have hn := name_done_fields s path
  have hp := printing_state env (name_done s path) (path_seen s path) attr
  rw [do_file_checked env s path params attr hc, filter_print_eq]
  split_ifs
  · exact ⟨hn.1, hn.2.1⟩
  · exact ⟨hp.1.trans hn.1, hp.2.trans hn.2.1⟩
/-! ## Appending `-print` to an argument vector without actions -/

theorem printf_out_set_print (env : Env) (s : State) (record : String) :
    printf_out env (set_print s) record =
      ((printf_out env s record).1, set_print (printf_out env s record).2) := by
  unfold printf_out
  cases h : env.printf_err s.printfs <;> simp [set_print, h]

/-- Without `-ls` the printing section does the same with and without `s_print`. -/
theorem printing_set_print (env : Env) (s : State) (path : String) (attr : stat)
    (hls : s.s_ls = 0) :
    printing env (set_print s) path attr =
      ((printing env s path attr).1, set_print (printing env s path attr).2) := by
  have hp := printf_out_set_print env s (path ++ "\n")
  have hst := (printf_out_state env s (path ++ "\n")).1
  have hls2 : (printf_out env s (path ++ "\n")).2.s_ls = 0 := by
    simp only [statics, List.cons.injEq] at hst
    rw [hst.2.2.1]; exact hls
  have hls3 : (set_print (printf_out env s (path ++ "\n")).2).s_ls = 0 := hls2
  have c1 : (set_print s).s_ls = 0 ∨ (set_print s).s_print ≠ 0 := Or.inl hls
  have c2 : s.s_ls = 0 ∨ s.s_print ≠ 0 := Or.inl hls
  unfold printing
  simp only [if_pos c1, if_pos c2, do_print, hp, hls2, hls3, ne_eq, not_true_eq_false, if_false]
  split_ifs <;> rfl

/-- The relation between the states of the run under `A` and of the run under
`A` with `-print` appended: the same `-type` test, no `-ls`. -/
theorem filter_print_set_print (env : Env) (A B : List String) (s : State) (path : String)
    (attr : stat) (hls : s.s_ls = 0)
    (hty : s.s_type = 0 ∨ param A s.s_type = param B s.s_type) :
    filter_print env (set_print s) path B attr =
      ((filter_print env s path A attr).1, set_print (filter_print env s path A attr).2) := by
  rw [filter_print_eq, filter_print_eq]
  have en : name_done (set_print s) path = set_print (name_done s path) := by
    unfold name_done set_print
    split_ifs <;> rfl
  have ep : path_seen (set_print s) path = path_seen s path := rfl
  have hls2 : (name_done s path).s_ls = 0 := by rw [(name_done_flags s path).2.2.1]; exact hls
  rw [en, ep]
  have hcond : ((set_print s).s_type ≠ 0 ∧
      do_type (char0 (param B (set_print s).s_type)) attr ≠ EXIT_SUCCESS) ↔
      (s.s_type ≠ 0 ∧ do_type (char0 (param A s.s_type)) attr ≠ EXIT_SUCCESS) := by
    show (s.s_type ≠ 0 ∧ do_type (char0 (param B s.s_type)) attr ≠ EXIT_SUCCESS) ↔ _
    rcases hty with h | h
    · simp [h]
    · rw [h]
  by_cases hc : s.s_type ≠ 0 ∧ do_type (char0 (param A s.s_type)) attr ≠ EXIT_SUCCESS
  · rw [if_pos hc, if_pos (hcond.mpr hc)]
  · rw [if_neg hc, if_neg (fun h => hc (hcond.mp h))]
    exact printing_set_print env (name_done s path) (path_seen s path) attr hls2

/-- The invariant of the two runs. -/
theorem do_file_set_print (env : Env) (A B : List String) (s : State) (path : String)
    (attr : stat) (hc : s.checked = 1) (hls : s.s_ls = 0)
    (hty : s.s_type = 0 ∨ param A s.s_type = param B s.s_type) :
    do_file env (set_print s) path B attr =
      ((do_file env s path A attr).1, set_print (do_file env s path A attr).2) := by
  rw [do_file_checked env s path A attr hc, do_file_checked env (set_print s) path B attr hc]
  exact filter_print_set_print env A B s path attr hls hty

/-- The first iteration of the loop of `do_dir`, by cases. -/
theorem do_dir_loop_cons (env : Env) (params : List String) (path d_name : String)
    (child_lstat : Except String stat) (child_opendir : Except String (List (String × Node)))
    (child_closedir : Option String) (rest : List (String × Node)) (s : State) :
    do_dir_loop env params path ((d_name, .mk child_lstat child_opendir child_closedir) :: rest) s
      =
    if d_name = "." ∨ d_name = ".." then do_dir_loop env params path rest s
    else
      match env.malloc_err s.mallocs with
      | some e =>
        (some EXIT_FAILURE, s.malloc_done.err (s.program ++ ": malloc(): " ++ e ++ "\n"))
      | none =>
        match child_lstat with
        | .ok attr =>
          if (do_file env (s.probe_child (path ++ "/" ++ d_name)) (path ++ "/" ++ d_name)
              params attr).2.killed = true then
            (some KILLED,
              (do_file env (s.probe_child (path ++ "/" ++ d_name)) (path ++ "/" ++ d_name)
                params attr).2)
          else if S_ISDIR attr.st_mode = true then
            if (do_dir env params
                (do_file env (s.probe_child (path ++ "/" ++ d_name)) (path ++ "/" ++ d_name)
                  params attr).2.path_buf
                (.mk child_lstat child_opendir child_closedir)
                (do_file env (s.probe_child (path ++ "/" ++ d_name)) (path ++ "/" ++ d_name)
                  params attr).2).2.killed = true then
              (some KILLED,
                (do_dir env params
                  (do_file env (s.probe_child (path ++ "/" ++ d_name)) (path ++ "/" ++ d_name)
                    params attr).2.path_buf
                  (.mk child_lstat child_opendir child_closedir)
                  (do_file env (s.probe_child (path ++ "/" ++ d_name)) (path ++ "/" ++ d_name)
                    params attr).2).2)
            else
              do_dir_loop env params path rest
                (do_dir env params
                  (do_file env (s.probe_child (path ++ "/" ++ d_name)) (path ++ "/" ++ d_name)
                    params attr).2.path_buf
                  (.mk child_lstat child_opendir child_closedir)
                  (do_file env (s.probe_child (path ++ "/" ++ d_name)) (path ++ "/" ++ d_name)
                    params attr).2).2
          else
            do_dir_loop env params path rest
              (do_file env (s.probe_child (path ++ "/" ++ d_name)) (path ++ "/" ++ d_name)
                params attr).2
        | .error e =>
          (some EXIT_FAILURE,
            (s.probe_child (path ++ "/" ++ d_name)).err
              (s.program ++ ": lstat(" ++ path ++ "/" ++ d_name ++ "): " ++ e ++ "\n")) := by
  by_cases h1 : d_name = "." ∨ d_name = ".."
  · simp only [do_dir_loop, if_pos h1]
  · simp only [do_dir_loop, if_neg h1]

mutual
theorem do_dir_set_print (env : Env) (A B : List String) (st : List Nat)
    (hst : ∀ s, statics s = st →
      s.checked = 1 ∧ s.s_ls = 0 ∧ (s.s_type = 0 ∨ param A s.s_type = param B s.s_type)) :
    ∀ (node : Node) (path : String) (s : State), statics s = st →
      do_dir env B path node (set_print s) =
        ((do_dir env A path node s).1, set_print (do_dir env A path node s).2) ∧
      statics (do_dir env A path node s).2 = st
  | .mk _ (.error e) _, path, s, hs => by
    simp only [do_dir]
    exact ⟨rfl, hs⟩
  | .mk _ (.ok entries) closedir, path, s, hs => by
    obtain ⟨ih1, ih2⟩ := do_dir_loop_set_print env A B st hst entries path (s.open_dir path) hs
    have e1 : (set_print s).open_dir path = set_print (s.open_dir path) := rfl
    simp only [do_dir]
    rw [e1, ih1]
    cases h : do_dir_loop env A path entries (s.open_dir path) with
    | mk r s2 =>
      rw [h] at ih2
      cases r with
      | some ret => exact ⟨rfl, ih2⟩
      | none =>
        cases closedir with
        | none => exact ⟨rfl, ih2⟩
        | some e => exact ⟨rfl, ih2⟩
theorem do_dir_loop_set_print (env : Env) (A B : List String) (st : List Nat)
    (hst : ∀ s, statics s = st →
      s.checked = 1 ∧ s.s_ls = 0 ∧ (s.s_type = 0 ∨ param A s.s_type = param B s.s_type)) :
    ∀ (entries : List (String × Node)) (path : String) (s : State), statics s = st →
      do_dir_loop env B path entries (set_print s) =
        ((do_dir_loop env A path entries s).1, set_print (do_dir_loop env A path entries s).2) ∧
      statics (do_dir_loop env A path entries s).2 = st
  | [], path, s, hs => by
    simp only [do_dir_loop]
    exact ⟨trivial, hs⟩
  | (d_name, .mk child_lstat child_opendir child_closedir) :: rest, path, s, hs => by
    have hm : (set_print s).mallocs = s.mallocs := rfl
    have hpg : (set_print s).program = s.program := rfl
    rw [do_dir_loop_cons, do_dir_loop_cons, hm, hpg]
    by_cases hdot : d_name = "." ∨ d_name = ".."
    · rw [if_pos hdot, if_pos hdot]
      exact do_dir_loop_set_print env A B st hst rest path s hs
    · rw [if_neg hdot, if_neg hdot]
      cases hmal : env.malloc_err s.mallocs with
      | some e => exact ⟨rfl, hs⟩
      | none =>
        cases child_lstat with
        | error e => exact ⟨rfl, hs⟩
        | ok attr =>
          obtain ⟨hc, hls, hty⟩ := hst (s.probe_child (path ++ "/" ++ d_name)) hs
          have hf := do_file_set_print env A B (s.probe_child (path ++ "/" ++ d_name))
            (path ++ "/" ++ d_name) attr hc hls hty
          have hfs : statics (do_file env (s.probe_child (path ++ "/" ++ d_name))
              (path ++ "/" ++ d_name) A attr).2 = st :=
            ((do_file_state env (s.probe_child (path ++ "/" ++ d_name))
              (path ++ "/" ++ d_name) A attr hc).1).trans hs
          have e1 : (set_print s).probe_child (path ++ "/" ++ d_name) =
              set_print (s.probe_child (path ++ "/" ++ d_name)) := rfl
          have ek : ∀ x : State, (set_print x).killed = x.killed := fun _ => rfl
          have eb : ∀ x : State, (set_print x).path_buf = x.path_buf := fun _ => rfl
          simp only [e1, hf, ek, eb]
          by_cases hk : (do_file env (s.probe_child (path ++ "/" ++ d_name))
              (path ++ "/" ++ d_name) A attr).2.killed = true
          · simp only [if_pos hk]
            exact ⟨trivial, hfs⟩
          · simp only [if_neg hk]
            by_cases hd : S_ISDIR attr.st_mode = true
            · simp only [if_pos hd]
              obtain ⟨d1, d2⟩ := do_dir_set_print env A B st hst
                (.mk (.ok attr) child_opendir child_closedir)
                (do_file env (s.probe_child (path ++ "/" ++ d_name))
                  (path ++ "/" ++ d_name) A attr).2.path_buf
                (do_file env (s.probe_child (path ++ "/" ++ d_name))
                  (path ++ "/" ++ d_name) A attr).2 hfs
              rw [d1]
              simp only [ek]
              by_cases hk2 : (do_dir env A
                  (do_file env (s.probe_child (path ++ "/" ++ d_name))
                    (path ++ "/" ++ d_name) A attr).2.path_buf
                  (.mk (.ok attr) child_opendir child_closedir)
                  (do_file env (s.probe_child (path ++ "/" ++ d_name))
                    (path ++ "/" ++ d_name) A attr).2).2.killed = true
              · simp only [if_pos hk2]
                exact ⟨trivial, d2⟩
              · simp only [if_neg hk2]
                exact do_dir_loop_set_print env A B st hst rest path _ d2
            · simp only [if_neg hd]
              exact do_dir_loop_set_print env A B st hst rest path _ hfs
end
/-- A sequence of groups either has no `-type` group or has a last one. -/
theorem last_type_split (groups : List (List String)) :
    (∀ v, ["-type", v] ∉ groups) ∨
    ∃ g1 c g2, groups = g1 ++ ["-type", c] :: g2 ∧ ∀ v, ["-type", v] ∉ g2 := by
  induction groups with
  | nil => left; intro v; simp
  | cons g gs ih =>
    rcases ih with h | ⟨g1, c, g2, h, hlast⟩
    · by_cases hg : ∃ v, g = ["-type", v]
      · obtain ⟨v, hv⟩ := hg
        right
        exact ⟨[], v, gs, by rw [hv]; rfl, h⟩
      · left
        intro v hv
        rcases List.mem_cons.mp hv with h1 | h1
        · exact hg ⟨v, h1.symm⟩
        · exact h v h1
    · right
      exact ⟨g :: g1, c, g2, by rw [h]; rfl, hlast⟩

/-- The statics after the check of an accepted argument vector with `-print`
appended are those without it, with `s_print` set. -/
theorem after_check_append_print (prog root : String) (groups : List (List String))
    (hg : ∀ g ∈ groups, accepted_group g) :
    after_check (prog :: root :: (groups.flatten ++ ["-print"])) =
      set_print (after_check (prog :: root :: groups.flatten)) := by
  have hB : groups.flatten ++ ["-print"] = (groups ++ [["-print"]]).flatten := by simp
  have hgB : ∀ g ∈ groups ++ [["-print"]], accepted_group g := by
    intro g h
    rcases List.mem_append.mp h with h | h
    · exact hg g h
    · rw [List.mem_singleton.mp h]; simp [accepted_group]
  have hfs : first_state (prog :: root :: (groups ++ [["-print"]]).flatten) =
      first_state (prog :: root :: groups.flatten) := by
    simp [first_state, param]
  rw [hB, after_check_accepted prog root _ hgB, after_check_accepted prog root _ hg,
    bind_groups_append, hfs]
  simp [bind_groups, bind_group, set_print]

/-- The `-type` test is the same with and without an appended `-print`. -/
theorem type_test_append_print (prog root : String) (groups : List (List String))
    (hg : ∀ g ∈ groups, accepted_group g) :
    (after_check (prog :: root :: groups.flatten)).s_type = 0 ∨
    param (prog :: root :: groups.flatten) (after_check (prog :: root :: groups.flatten)).s_type =
      param (prog :: root :: (groups.flatten ++ ["-print"]))
        (after_check (prog :: root :: groups.flatten)).s_type := by
  rcases last_type_split groups with h | ⟨g1, c, g2, h, hlast⟩
  · left
    rw [after_check_accepted prog root groups hg]
    exact bind_groups_s_type_kept groups h 2 _
  · right
    subst h
    have h1 : ∀ g ∈ g1, accepted_group g := fun g hm => hg g (by simp [hm])
    have h2 : ∀ g ∈ g2, accepted_group g := fun g hm => hg g (by simp [hm])
    have hc : accepted_group ["-type", c] := hg _ (by simp)
    have h2B : ∀ g ∈ g2 ++ [["-print"]], accepted_group g := by
      intro g hm
      rcases List.mem_append.mp hm with hm | hm
      · exact h2 g hm
      · rw [List.mem_singleton.mp hm]; simp [accepted_group]
    have hlastB : ∀ v, ["-type", v] ∉ g2 ++ [["-print"]] := by
      intro v hm
      rcases List.mem_append.mp hm with hm | hm
      · exact hlast v hm
      · simp at hm
    have hA := (after_check_s_type prog root g1 g2 c h1 h2 hc hlast).2
    have hB := (after_check_s_type prog root g1 (g2 ++ [["-print"]]) c h1 h2B hc hlastB).2
    have hflat : (g1 ++ ["-type", c] :: (g2 ++ [["-print"]])).flatten =
        (g1 ++ ["-type", c] :: g2).flatten ++ ["-print"] := by simp
    rw [hflat, after_check_append_print prog root _ hg] at hB
    rw [hA]
    exact hB.symm
/-- C4. For an accepted argument vector with at least three elements that does
not select `-ls` (whether or not it selects `-print`), and for every file
system and environment, the run with `-print` appended writes the same
standard output as the run without it. -/
theorem default_action_is_print (env : Env) (prog root : String)
    (groups : List (List String)) (node : Node)
    (hg : ∀ g ∈ groups, accepted_group g)
    (hargc : 3 ≤ (prog :: root :: groups.flatten).length) (hls : ["-ls"] ∉ groups) :
    (main env (prog :: root :: (groups.flatten ++ ["-print"])) node).2.stdout =
      (main env (prog :: root :: groups.flatten) node).2.stdout := by
  have hA3 : ¬ (prog :: root :: groups.flatten).length < 3 := by omega
  have hB3 : ¬ (prog :: root :: (groups.flatten ++ ["-print"])).length < 3 := by
    simp only [List.length_cons, List.length_append] at hargc ⊢
    omega
  have hB : groups.flatten ++ ["-print"] = (groups ++ [["-print"]]).flatten := by simp
  have hgB : ∀ g ∈ groups ++ [["-print"]], accepted_group g := by
    intro g h
    rcases List.mem_append.mp h with h | h
    · exact hg g h
    · rw [List.mem_singleton.mp h]; simp [accepted_group]
  have hfs : first_state (prog :: root :: (groups.flatten ++ ["-print"])) =
      first_state (prog :: root :: groups.flatten) := by
    simp [first_state, param]
  have hroot : param (prog :: root :: (groups.flatten ++ ["-print"])) 1 =
      param (prog :: root :: groups.flatten) 1 := by
    simp [param]
  have hprog : param (prog :: root :: (groups.flatten ++ ["-print"])) 0 =
      param (prog :: root :: groups.flatten) 0 := by
    simp [param]
  cases node with
  | mk node_lstat node_opendir node_closedir =>
    cases node_lstat with
    | error e =>
      simp only [main, if_neg hA3, if_neg hB3, hfs]
      rfl
    | ok attr =>
      have hst : ∀ s, statics s = statics (after_check (prog :: root :: groups.flatten)) →
          s.checked = 1 ∧ s.s_ls = 0 ∧
            (s.s_type = 0 ∨ param (prog :: root :: groups.flatten) s.s_type =
              param (prog :: root :: (groups.flatten ++ ["-print"])) s.s_type) := by
        intro s hs
        simp only [statics, List.cons.injEq, and_true] at hs
        obtain ⟨c1, _, c3, _, _, _, _, c8⟩ := hs
        refine ⟨c1, ?_, ?_⟩
        · rw [c3, after_check_accepted prog root groups hg]
          exact bind_groups_s_ls_kept groups hls 2 _
        · rw [c8]
          exact type_test_append_print prog root groups hg
      have runA : run_state (prog :: root :: groups.flatten)
          (first_state (prog :: root :: groups.flatten)) := Or.inl rfl
      have runB : run_state (prog :: root :: (groups ++ [["-print"]]).flatten)
          (first_state (prog :: root :: (groups ++ [["-print"]]).flatten)) := Or.inl rfl
      have dA := do_file_in_run env prog root groups hg _ runA
        (param (prog :: root :: groups.flatten) 1) attr
      have dB := do_file_in_run env prog root _ hgB _ runB
        (param (prog :: root :: groups.flatten) 1) attr
      rw [← hB, hfs, after_check_append_print prog root groups hg] at dB
      generalize hw : with_statics (first_state (prog :: root :: groups.flatten))
        (after_check (prog :: root :: groups.flatten)) = w at dA
      have hwB : with_statics (first_state (prog :: root :: groups.flatten))
          (set_print (after_check (prog :: root :: groups.flatten))) = set_print w := by
        rw [← hw]; rfl
      rw [hwB] at dB
      have hws : statics w = statics (after_check (prog :: root :: groups.flatten)) := by
        rw [← hw]; rfl
      obtain ⟨wc, wls, wty⟩ := hst w hws
      have hfp := filter_print_set_print env (prog :: root :: groups.flatten)
        (prog :: root :: (groups.flatten ++ ["-print"])) w
        (param (prog :: root :: groups.flatten) 1) attr wls wty
      rw [hfp] at dB
      have hws2 : statics (filter_print env w (param (prog :: root :: groups.flatten) 1)
          (prog :: root :: groups.flatten) attr).2 =
          statics (after_check (prog :: root :: groups.flatten)) := by
        rw [← do_file_checked env w _ _ attr wc]
        exact ((do_file_state env w _ _ attr wc).1).trans hws
      have ek : ∀ x : State, (set_print x).killed = x.killed := fun _ => rfl
      have eb : ∀ x : State, (set_print x).path_buf = x.path_buf := fun _ => rfl
      simp only [main, if_neg hA3, if_neg hB3, hfs, hroot, dA, dB, ek, eb]
      by_cases hk : (filter_print env w (param (prog :: root :: groups.flatten) 1)
          (prog :: root :: groups.flatten) attr).2.killed = true
      · simp only [if_pos hk]
        rfl
      · simp only [if_neg hk]
        by_cases hr : (filter_print env w (param (prog :: root :: groups.flatten) 1)
            (prog :: root :: groups.flatten) attr).1 ≠ EXIT_SUCCESS
        · simp only [if_pos hr]
          rfl
        · simp only [if_neg hr]
          by_cases hd : S_ISDIR attr.st_mode = true
          · simp only [if_pos hd]
            rw [(do_dir_set_print env _ _ _ hst (.mk (.ok attr) node_opendir node_closedir)
              (filter_print env w (param (prog :: root :: groups.flatten) 1)
                (prog :: root :: groups.flatten) attr).2.path_buf _ hws2).1]
            simp only [ek]
            split_ifs <;> rfl
          · simp only [if_neg hd]
            rfl

/-- C4 on the fixture tree: `myfind T -name x` and `myfind T -name x -print`. -/
theorem default_action_is_print_witness :
    (main env_ok ["myfind", "T", "-name", "x", "-print"] fixture).2.stdout =
      (main env_ok ["myfind", "T", "-name", "x"] fixture).2.stdout :=
  default_action_is_print env_ok "myfind" "T" [["-name", "x"]] fixture
    (by simp [accepted_group]) (by simp) (by simp)
/-! ## Adding a predicate -/

theorem printf_out_stdout_le (env : Env) (s : State) (record : String) :
    s.stdout.length ≤ (printf_out env s record).2.stdout.length := by
  unfold printf_out
  cases env.printf_err s.printfs <;> simp

theorem do_ls_stdout_le (env : Env) (s : State) (path : String) (attr : stat) :
    s.stdout.length ≤ (do_ls env s path attr).2.stdout.length := by
  cases hlt : env.localtime_null attr.st_mtime with
  | true =>
    rw [do_ls_killed env s path attr hlt]
  | false =>
    have hm := (do_get_mtime_state env s attr).1
    have hl := (do_get_symlink_state env (do_get_mtime env s attr).2 path attr).1
    rw [do_ls_alive env s path attr hlt]
    refine Nat.le_trans ?_ (printf_out_stdout_le env _ _)
    rw [hl, hm]

/-- While `printf` succeeds, the printing section adds to standard output when
it prints the bare path. -/
theorem printing_outputs_print (env : Env) (s : State) (path : String) (attr : stat)
    (hout : env.printf_err s.printfs = none) (h1 : s.s_ls = 0 ∨ s.s_print ≠ 0) :
    (printing env s path attr).2.stdout ≠ s.stdout := by
  have hlen : s.stdout.length < (printing env s path attr).2.stdout.length := by
    have hp : do_print env s path =
        (EXIT_SUCCESS,
          { s with stdout := s.stdout ++ [path ++ "\n"], printfs := s.printfs + 1 }) := by
      simp only [do_print, printf_out, hout]
    unfold printing
    simp only [if_pos h1, hp, ne_eq, not_true_eq_false, if_false]
    by_cases h2 : s.s_ls ≠ 0
    · simp only [if_pos h2, ret_snd]
      refine Nat.lt_of_lt_of_le ?_ (do_ls_stdout_le env _ path attr)
      simp
    · simp only [if_neg h2, ret_snd]
      simp
  intro h
  rw [h] at hlen
  exact Nat.lt_irrefl _ hlen

/-- While `printf` succeeds and `localtime` does not return `NULL`, the
printing section adds to standard output. -/
theorem printing_outputs (env : Env) (s : State) (path : String) (attr : stat)
    (hout : env.printf_err s.printfs = none)
    (hlt : env.localtime_null attr.st_mtime = false) :
    (printing env s path attr).2.stdout ≠ s.stdout := by
  by_cases h1 : s.s_ls = 0 ∨ s.s_print ≠ 0
  · exact printing_outputs_print env s path attr hout h1
  · have hls : s.s_ls ≠ 0 := fun h => h1 (Or.inl h)
    have hpr : s.s_print = 0 := by
      by_contra h
      exact h1 (Or.inr h)
    rw [printing_ls_only env s path attr hls hpr, (do_ls_stdout env s path attr hout hlt).2]
    simp

/-- With `-ls` alone the printing section writes nothing when `localtime`
returns `NULL`. -/
theorem printing_ls_killed (env : Env) (s : State) (path : String) (attr : stat)
    (hls : s.s_ls ≠ 0) (hpr : s.s_print = 0)
    (hlt : env.localtime_null attr.st_mtime = true) :
    (printing env s path attr).2.stdout = s.stdout := by
  rw [printing_ls_only env s path attr hls hpr, do_ls_killed env s path attr hlt]

theorem bind_group_s_ls_ne (i : Nat) (s : State) (g : List String) (h : s.s_ls ≠ 0) :
    (bind_group i s g).s_ls ≠ 0 := by
  apply bind_group_cases (fun u => u.s_ls ≠ 0) i s g h <;> intros <;> first
    | exact h
    | exact Nat.one_ne_zero

theorem bind_group_s_print_eq (i : Nat) (s : State) (g : List String) (h : g ≠ ["-print"]) :
    (bind_group i s g).s_print = s.s_print := by
  apply bind_group_cases (fun u => u.s_print = s.s_print) i s g rfl <;> intros <;> first
    | rfl
    | (rename_i hh; exact absurd hh h)

theorem with_statics_s_type (s t : State) : (with_statics s t).s_type = t.s_type := rfl

/-- C6, as amended. Let `p` be an accepted group appended to an accepted
argument vector; when `p` is `-type c`, let the vector have no `-type` group
or let its last `-type` group have the value `c`. Then an entry that adds to
standard output in the run with `p` appended also adds to standard output in
the run without it, while `printf` succeeds there. For the predicates `p`
nothing more is asked; when `p` is the action `-print`, `localtime` is to
succeed on the entry, as the shorter run may be one with `-ls` alone. -/
theorem predicate_monotonicity (env : Env) (prog root : String)
    (groups : List (List String)) (p : List String) (s t : State) (path : String)
    (attr : stat) (hg : ∀ g ∈ groups, accepted_group g) (hp : accepted_group p)
    (hlast : ∀ c, p = ["-type", c] →
      (∀ v, ["-type", v] ∉ groups) ∨
      ∃ g1 g2, groups = g1 ++ ["-type", c] :: g2 ∧ ∀ v, ["-type", v] ∉ g2)
    (hs : run_state (prog :: root :: groups.flatten) s)
    (ht : run_state (prog :: root :: (groups.flatten ++ p)) t)
    (hout : env.printf_err s.printfs = none)
    (hlt : p = ["-print"] → env.localtime_null attr.st_mtime = false)
    (hmatched : (do_file env t path (prog :: root :: (groups.flatten ++ p)) attr).2.stdout ≠
      t.stdout) :
    (do_file env s path (prog :: root :: groups.flatten) attr).2.stdout ≠ s.stdout := by
  have hB : groups.flatten ++ p = (groups ++ [p]).flatten := by simp
  have hgB : ∀ g ∈ groups ++ [p], accepted_group g := by
    intro g h
    rcases List.mem_append.mp h with h | h
    · exact hg g h
    · rw [List.mem_singleton.mp h]; exact hp
  rw [hB] at ht hmatched
  rw [do_file_in_run env prog root _ hgB t ht, filter_print_eq] at hmatched
  rw [do_file_in_run env prog root groups hg s hs, filter_print_eq]
  simp only [with_statics_s_type] at hmatched ⊢
  -- the entry passed the `-type` test of the longer vector
  have hpassB : ¬ ((after_check (prog :: root :: (groups ++ [p]).flatten)).s_type ≠ 0 ∧
      do_type (char0 (param (prog :: root :: (groups ++ [p]).flatten)
        (after_check (prog :: root :: (groups ++ [p]).flatten)).s_type)) attr ≠ EXIT_SUCCESS) := by
    intro h
    apply hmatched
    rw [if_pos h]
    exact (name_done_fields _ path).2.2.1
  -- so it passes the `-type` test of the shorter one
  have hpassA : ¬ ((after_check (prog :: root :: groups.flatten)).s_type ≠ 0 ∧
      do_type (char0 (param (prog :: root :: groups.flatten)
        (after_check (prog :: root :: groups.flatten)).s_type)) attr ≠ EXIT_SUCCESS) := by
    by_cases hpt : ∃ c, p = ["-type", c]
    · obtain ⟨c, hc⟩ := hpt
      subst hc
      rcases hlast c rfl with h | ⟨g1, g2, h, hl2⟩
      · intro hrej
        apply hrej.1
        rw [after_check_accepted prog root groups hg]
        exact bind_groups_s_type_kept groups h 2 _
      · subst h
        have h1 : ∀ g ∈ g1, accepted_group g := fun g hm => hg g (by simp [hm])
        have h2 : ∀ g ∈ g2, accepted_group g := fun g hm => hg g (by simp [hm])
        have hA := after_check_s_type prog root g1 g2 c h1 h2 hp hl2
        have hBt := after_check_s_type prog root (g1 ++ ["-type", c] :: g2) [] c hg
          (by simp) hp (by simp)
        rw [hBt.2] at hpassB
        rw [hA.2]
        intro hrej
        exact hpassB ⟨hBt.1, hrej.2⟩
    · rcases last_type_split groups with h | ⟨g1, c, g2, h, hl2⟩
      · intro hrej
        apply hrej.1
        rw [after_check_accepted prog root groups hg]
        exact bind_groups_s_type_kept groups h 2 _
      · subst h
        have h1 : ∀ g ∈ g1, accepted_group g := fun g hm => hg g (by simp [hm])
        have h2 : ∀ g ∈ g2, accepted_group g := fun g hm => hg g (by simp [hm])
        have hc : accepted_group ["-type", c] := hg _ (by simp)
        have h2B : ∀ g ∈ g2 ++ [p], accepted_group g := by
          intro g hm
          rcases List.mem_append.mp hm with hm | hm
          · exact h2 g hm
          · rw [List.mem_singleton.mp hm]; exact hp
        have hl2B : ∀ v, ["-type", v] ∉ g2 ++ [p] := by
          intro v hm
          rcases List.mem_append.mp hm with hm | hm
          · exact hl2 v hm
          · exact hpt ⟨v, (List.mem_singleton.mp hm).symm⟩
        have hA := after_check_s_type prog root g1 g2 c h1 h2 hc hl2
        have hBt := after_check_s_type prog root g1 (g2 ++ [p]) c h1 h2B hc hl2B
        have hassoc : g1 ++ ["-type", c] :: (g2 ++ [p]) = (g1 ++ ["-type", c] :: g2) ++ [p] := by
          simp
        rw [hassoc] at hBt
        rw [hBt.2] at hpassB
        rw [hA.2]
        intro hrej
        exact hpassB ⟨hBt.1, hrej.2⟩
  rw [if_neg hpassA]
  rw [if_neg hpassB] at hmatched
  have hnA := name_done_fields (with_statics s (after_check (prog :: root :: groups.flatten))) path
  have hfA := name_done_flags (with_statics s (after_check (prog :: root :: groups.flatten))) path
  have hnB := name_done_fields
    (with_statics t (after_check (prog :: root :: (groups ++ [p]).flatten))) path
  have hfB := name_done_flags
    (with_statics t (after_check (prog :: root :: (groups ++ [p]).flatten))) path
  have houtA : env.printf_err
      (name_done (with_statics s (after_check (prog :: root :: groups.flatten))) path).printfs =
      none := by
    rw [hnA.2.2.2.2.1]; exact hout
  have key : (printing env
      (name_done (with_statics s (after_check (prog :: root :: groups.flatten))) path)
      (path_seen (with_statics s (after_check (prog :: root :: groups.flatten))) path)
      attr).2.stdout ≠
      (name_done (with_statics s (after_check (prog :: root :: groups.flatten))) path).stdout := by
    by_cases h1 : (after_check (prog :: root :: groups.flatten)).s_ls = 0 ∨
        (after_check (prog :: root :: groups.flatten)).s_print ≠ 0
    · exact printing_outputs_print env _ _ attr houtA (by rw [hfA.2.2.1, hfA.2.1]; exact h1)
    · cases hnull : env.localtime_null attr.st_mtime with
      | false => exact printing_outputs env _ _ attr houtA hnull
      | true =>
        exfalso
        have hls : (after_check (prog :: root :: groups.flatten)).s_ls ≠ 0 :=
          fun h => h1 (Or.inl h)
        have hpr : (after_check (prog :: root :: groups.flatten)).s_print = 0 := by
          by_contra h
          exact h1 (Or.inr h)
        have hpne : p ≠ ["-print"] := by
          intro hp2
          rw [hlt hp2] at hnull
          exact Bool.noConfusion hnull
        have hfs : first_state (prog :: root :: (groups ++ [p]).flatten) =
            first_state (prog :: root :: groups.flatten) := by
          simp [first_state, param]
        have hacA := after_check_accepted prog root groups hg
        have hacB := after_check_accepted prog root _ hgB
        rw [hfs, bind_groups_append] at hacB
        simp only [bind_groups] at hacB
        rw [hacA] at hls hpr
        have hlsB : (after_check (prog :: root :: (groups ++ [p]).flatten)).s_ls ≠ 0 := by
          rw [hacB]
          exact bind_group_s_ls_ne _ _ p hls
        have hprB : (after_check (prog :: root :: (groups ++ [p]).flatten)).s_print = 0 := by
          rw [hacB]
          exact (bind_group_s_print_eq _ _ p hpne).trans hpr
        apply hmatched
        rw [printing_ls_killed env _ _ attr (by rw [hfB.2.2.1]; exact hlsB)
          (by rw [hfB.2.1]; exact hprB) hnull]
        exact hnB.2.2.1
  rw [hnA.2.2.1] at key
  exact key

/-- C6 for `-type f` appended to `myfind T -type f`, on the regular file. -/
theorem predicate_monotonicity_witness :
    (do_file env_ok (first_state ["myfind", "T", "-type", "f"]) "T/a.txt"
        ["myfind", "T", "-type", "f"] regular_file).2.stdout ≠
      (first_state ["myfind", "T", "-type", "f"]).stdout :=
  predicate_monotonicity env_ok "myfind" "T" [["-type", "f"]] ["-type", "f"]
    (first_state ["myfind", "T", "-type", "f"])
    (first_state ["myfind", "T", "-type", "f", "-type", "f"]) "T/a.txt" regular_file
    (by simp [accepted_group]) (by simp [accepted_group])
    (fun c hc => Or.inr ⟨[], [], by rw [hc]; rfl, by simp⟩)
    (Or.inl rfl) (Or.inl rfl) rfl (fun h => absurd h (by decide)) (by decide)

/-- C6 as stated fails: with `-type d` appended to `myfind T -type f` the
directory `T` adds to standard output, and without it `T` adds nothing; over
the fixture the longer vector prints `T` and `T/d`, the shorter one only
`T/a.txt`. -/
theorem predicate_monotonicity_counterexample :
    (do_file env_ok (first_state ["myfind", "T", "-type", "f", "-type", "d"]) "T"
        ["myfind", "T", "-type", "f", "-type", "d"] directory).2.stdout ≠
      (first_state ["myfind", "T", "-type", "f", "-type", "d"]).stdout ∧
    (do_file env_ok (first_state ["myfind", "T", "-type", "f"]) "T"
        ["myfind", "T", "-type", "f"] directory).2.stdout =
      (first_state ["myfind", "T", "-type", "f"]).stdout ∧
    (main env_ok ["myfind", "T", "-type", "f", "-type", "d"] fixture).2.stdout =
      ["T\n", "T/d\n"] ∧
    (main env_ok ["myfind", "T", "-type", "f"] fixture).2.stdout = ["T/a.txt\n"] := by
  decide

/-! ## The `-name` filter -/

/-- C8 fails on the code: `do_name` returns `EXIT_SUCCESS` for every path and
pattern, and `myfind T -name *.txt` over the fixture prints all four entries,
not only `T/a.txt`. -/
theorem name_filter_matches_everything :
    (∀ (s : State) (path pattern : String), (do_name s path pattern).1 = EXIT_SUCCESS) ∧
    (main env_ok ["myfind", "T", "-name", "*.txt"] fixture).2.stdout =
      ["T\n", "T/a.txt\n", "T/d\n", "T/link\n"] :=
  ⟨fun _ _ _ => rfl, by decide⟩
/-! ## The columns of the long form -/

/-- A value below `2 ^ 63` is unchanged by the conversion to `long`. -/
theorem to_long_of_lt (n : Nat) (h : n < 2 ^ 63) : to_long n = (n : Int) := by
  have h1 : n % 2 ^ 64 = n := Nat.mod_eq_of_lt (by omega)
  unfold to_long
  rw [h1, if_pos h]

theorem toString_natCast (n : Nat) : toString ((n : Nat) : Int) = toString n := rfl

/-- C11, as amended. While `printf` succeeds, `localtime` does not return
`NULL` for the modification time, and the inode number is below `2 ^ 63`, the
record that `do_ls` writes begins with the decimal inode number left-aligned
in 8 columns (padded with spaces on the right), then a single space, then the
block count `st_blocks / 2` right-aligned in 2 columns. -/
theorem ls_record_columns (env : Env) (s : State) (path : String) (attr : stat)
    (hout : env.printf_err s.printfs = none) (hino : attr.st_ino < 2 ^ 63)
    (hlt : env.localtime_null attr.st_mtime = false) :
    ∃ rest, (do_ls env s path attr).2.stdout = s.stdout ++
      [toString attr.st_ino ++
        String.mk (List.replicate (8 - (toString attr.st_ino).length) ' ') ++ " " ++
        String.mk (List.replicate (2 - (toString (attr.st_blocks / 2)).length) ' ') ++
        toString (attr.st_blocks / 2) ++ rest] := by
  refine ⟨" " ++ pad_left 11 (do_get_perms attr) ++ " " ++
    pad_left 2 (toString (to_long attr.st_nlink)) ++ " " ++
    pad_right 8 (toString attr.st_uid) ++ " " ++ pad_right 8 (toString attr.st_gid) ++ " " ++
    pad_left 8 (toString attr.st_size) ++ " " ++ pad_left 12 (mtime_text env attr) ++ " " ++
    path ++ (if (do_get_symlink env s path attr).1.length > 0 then " -> " else "") ++
    (do_get_symlink env s path attr).1 ++ "\n", ?_⟩
  rw [(do_ls_stdout env s path attr hout hlt).2, to_long_of_lt attr.st_ino hino]
  simp only [format_ls, pad_left, pad_right, toString_natCast, String.append_assoc]

/-- C11 on a regular file with inode 42 and 8 blocks. -/
theorem ls_record_columns_witness :
    ∃ rest, (do_ls env_ok State.init "T/a.txt" regular_file).2.stdout =
      State.init.stdout ++
      [toString regular_file.st_ino ++
        String.mk (List.replicate (8 - (toString regular_file.st_ino).length) ' ') ++ " " ++
        String.mk (List.replicate (2 - (toString (regular_file.st_blocks / 2)).length) ' ') ++
        toString (regular_file.st_blocks / 2) ++ rest] :=
  ls_record_columns env_ok State.init "T/a.txt" regular_file rfl (by decide) rfl

set_option maxRecDepth 100000 in
/-- C11 as stated fails: for inode 42 the record begins with `42` and six
spaces, not with six spaces and `42`; and the inode number `2 ^ 63` is shown as
a negative number. -/
theorem ls_record_columns_counterexample :
    (do_ls env_ok State.init "T/a.txt" regular_file).2.stdout =
      ["42        4 -rw-r--r--   1 1000     1000            5 Jan  1 00:00 T/a.txt\n"] ∧
    (¬ ∃ rest, (do_ls env_ok State.init "T/a.txt" regular_file).2.stdout =
      ["      42" ++ " " ++ " 4" ++ rest]) ∧
    (do_ls env_ok State.init "T/a.txt" { regular_file with st_ino := 2 ^ 63 }).2.stdout =
      ["-9223372036854775808  4 -rw-r--r--   1 1000     1000            5 Jan  1 00:00 T/a.txt\n"]
    := by
  refine ⟨by decide, ?_, by decide⟩
  rintro ⟨rest, h⟩
  have h1 : (do_ls env_ok State.init "T/a.txt" regular_file).2.stdout =
      ["42        4 -rw-r--r--   1 1000     1000            5 Jan  1 00:00 T/a.txt\n"] := by
    decide
  rw [h1] at h
  have h2 := congrArg (fun l => l.map (fun x => x.data.head?)) h
  simp [String.data_append] at h2
/-! ## The target of a symbolic link -/

/-- C12 fails on the code: for a symbolic link whose target `0123456789` has
ten bytes, `do_get_symlink` returns the first seven bytes of the target
followed by whatever the fresh heap memory holds, and the record of `do_ls`
ends with that text instead of the complete target. -/
theorem symlink_target_truncated :
    (do_get_symlink (env_long_link 'x') State.init "T/l" long_link).1 = "0123456xxx" ∧
    (do_get_symlink (env_long_link 'y') State.init "T/l" long_link).1 = "0123456yyy" ∧
    (do_ls (env_long_link 'x') State.init "T/l" long_link).2.stdout =
      ["44        0 lrwxrwxrwx   1 1000     1000           10 Jan  1 00:00 T/l -> 0123456xxx\n"]
    := by
  decide

/-! ## A child that cannot be probed -/

/-- C13 fails on the code: when `lstat` fails for a child, the loop of `do_dir`
writes the diagnostic and returns `EXIT_FAILURE` at once, whatever entries
`readdir` still has to return; over the directory `T` with the unprobeable
child `a` and the regular file `b` the run prints only `T`, and `T/b` is never
given to `lstat`. -/
theorem siblings_after_failed_lstat_skipped :
    (∀ (env : Env) (params : List String) (path d_name e : String)
        (child_opendir : Except String (List (String × Node))) (child_closedir : Option String)
        (rest : List (String × Node)) (s : State),
      ¬ (d_name = "." ∨ d_name = "..") → env.malloc_err s.mallocs = none →
      do_dir_loop env params path ((d_name, .mk (.error e) child_opendir child_closedir) :: rest)
        s =
      (some EXIT_FAILURE,
        (s.probe_child (path ++ "/" ++ d_name)).err
          (s.program ++ ": lstat(" ++ path ++ "/" ++ d_name ++ "): " ++ e ++ "\n"))) ∧
    (main env_ok ["myfind", "T", "-print"] broken_tree).2.stdout = ["T\n"] ∧
    (main env_ok ["myfind", "T", "-print"] broken_tree).2.stderr =
      ["myfind: lstat(T/a): No such file or directory\n"] ∧
    lstat_paths (main env_ok ["myfind", "T", "-print"] broken_tree).2.calls = ["T", "T/a"] := by
  refine ⟨?_, by decide, by decide, by decide⟩
  intro env params path d_name e child_opendir child_closedir rest s hdot hmal
  rw [do_dir_loop_cons, if_neg hdot, hmal]

/-! ## Directory streams -/

/-- C19 fails on the code: when `lstat` fails for a child, or the allocation
of a child path fails, `do_dir` returns with the directory stream of `T` still
open; on normal completion the stream is closed. -/
theorem directory_stream_left_open :
    (do_dir env_ok ["myfind", "T", "-print"] "T" broken_tree
        (first_state ["myfind", "T", "-print"])).2.open_dirs = ["T"] ∧
    (do_dir env_no_memory ["myfind", "T", "-print"] "T" fixture
        (first_state ["myfind", "T", "-print"])).2.open_dirs = ["T"] ∧
    Call.closedir "T" ∉ (do_dir env_ok ["myfind", "T", "-print"] "T" broken_tree
        (first_state ["myfind", "T", "-print"])).2.calls ∧
    (do_dir env_ok ["myfind", "T", "-print"] "T" fixture
        (first_state ["myfind", "T", "-print"])).2.open_dirs = [] := by
  decide

/-! ## Values of `-user`, `-name` and `-path` -/

/-- C20. After accepted groups, the token `v` that follows `-user`, `-name` or
`-path` is bound as the value of that predicate whatever it is, and the scan
goes on with the token after `v`: `v` is `argv[k]` for the index `k` stored in
the static of the predicate. So `myfind T -name -ls` does not select `-ls`, and
`myfind T -name -bogus` is not an error. -/
theorem value_token_consumed (prog root : String) (groups : List (List String))
    (p v : String) (rest : List String) (s : State)
    (hg : ∀ g ∈ groups, accepted_group g)
    (hp : p = "-user" ∨ p = "-name" ∨ p = "-path") :
    (∃ s1, check_params (groups.flatten ++ p :: v :: rest) 2 s =
        check_params rest (groups.flatten.length + 4) s1 ∧
      (if p = "-user" then s1.s_user else if p = "-name" then s1.s_name else s1.s_path) =
        groups.flatten.length + 3 ∧
      s1.s_print = (bind_groups 2 s groups).s_print ∧
      s1.s_ls = (bind_groups 2 s groups).s_ls ∧
      s1.s_nouser = (bind_groups 2 s groups).s_nouser ∧
      s1.s_type = (bind_groups 2 s groups).s_type) ∧
    param (prog :: root :: (groups.flatten ++ p :: v :: rest)) (groups.flatten.length + 3) = v ∧
    (do_file env_ok (first_state ["myfind", "T", "-name", "-ls"]) "T"
        ["myfind", "T", "-name", "-ls"] directory).2.s_ls = 0 ∧
    (do_file env_ok (first_state ["myfind", "T", "-name", "-ls"]) "T"
        ["myfind", "T", "-name", "-ls"] directory).2.stdout = ["T\n"] ∧
    (do_file env_ok (first_state ["myfind", "T", "-name", "-bogus"]) "T"
        ["myfind", "T", "-name", "-bogus"] directory).1 = EXIT_SUCCESS ∧
    (do_file env_ok (first_state ["myfind", "T", "-name", "-bogus"]) "T"
        ["myfind", "T", "-name", "-bogus"] directory).2.stderr = [] := by
  refine ⟨?_, ?_, by decide, by decide, by decide, by decide⟩
  · have h := check_params_bind_groups groups (p :: v :: rest) hg 2 s
    rw [h, check_params_cons]
    generalize bind_groups 2 s groups = b
    generalize groups.flatten.length = n
    have e4 : 2 + n + 2 = n + 4 := by omega
    have e3 : 2 + n + 1 = n + 3 := by omega
    rw [e4, e3]
    rcases hp with hp | hp | hp <;> subst hp
    · exact ⟨{ b with s_user := n + 3 }, by simp, by simp, rfl, rfl, rfl, rfl⟩
    · exact ⟨{ b with s_name := n + 3 }, by simp, by simp, rfl, rfl, rfl, rfl⟩
    · exact ⟨{ b with s_path := n + 3 }, by simp, by simp, rfl, rfl, rfl, rfl⟩
  · have h := param_after prog root (groups.flatten ++ [p]) v rest
    simp only [List.append_assoc, List.singleton_append, List.length_append,
      List.length_singleton] at h
    exact h

/-- C20 for `-name -ls` given first. -/
theorem value_token_consumed_witness :
    param ["myfind", "T", "-name", "-ls"] 3 = "-ls" :=
  (value_token_consumed "myfind" "T" [] "-name" "-ls" [] State.init (by simp)
    (Or.inr (Or.inl rfl))).2.1
/-! ## The statics after the first call, over the whole run -/

/-- A diagnostic of the printing section is none of the argument diagnostics. -/
theorem runtime_not_argument (prog path line : String) (h : runtime_diagnostic prog path line) :
    ¬ argument_diagnostic prog line := by
  intro ha
  rcases h with ⟨e, h⟩ | h | ⟨e, h⟩ | ⟨e, h⟩ <;>
    rcases ha with ⟨t, ha⟩ | ⟨t, ha⟩ | ⟨t, v, ha⟩ <;>
    · rw [h] at ha
      have hd := congrArg String.data ha
      simp [String.data_append] at hd

theorem stderr_extends_refl (prog path : String) (s : State) : stderr_extends prog path s s :=
  ⟨[], by simp, by simp⟩

theorem stderr_extends_of_eq (prog path : String) (s t : State) (h : t.stderr = s.stderr) :
    stderr_extends prog path s t :=
  ⟨[], by simp [h], by simp⟩

theorem stderr_extends_trans (prog path : String) (s t u : State)
    (h1 : stderr_extends prog path s t) (h2 : stderr_extends prog path t u) :
    stderr_extends prog path s u := by
  obtain ⟨n1, e1, p1⟩ := h1
  obtain ⟨n2, e2, p2⟩ := h2
  refine ⟨n1 ++ n2, by rw [e2, e1, List.append_assoc], ?_⟩
  intro l hl
  rcases List.mem_append.mp hl with h | h
  · exact p1 l h
  · exact p2 l h

theorem printf_out_stderr (env : Env) (s : State) (record path : String) :
    stderr_extends s.program path s (printf_out env s record).2 := by
  unfold printf_out
  cases env.printf_err s.printfs with
  | none => exact stderr_extends_of_eq _ _ _ _ rfl
  | some e =>
    refine ⟨[s.program ++ ": printf(): " ++ e ++ "\n"], rfl, ?_⟩
    intro l hl
    rw [List.mem_singleton.mp hl]
    exact Or.inl ⟨e, rfl⟩

theorem do_get_mtime_stderr (env : Env) (s : State) (attr : stat) (path : String) :
    stderr_extends s.program path s (do_get_mtime env s attr).2 := by
  unfold do_get_mtime
  split_ifs
  · exact stderr_extends_of_eq _ _ _ _ rfl
  · cases env.strftime attr.st_mtime with
    | some txt => exact stderr_extends_refl _ _ _
    | none =>
      refine ⟨[s.program ++ ": strftime() failed\n"], rfl, ?_⟩
      intro l hl
      rw [List.mem_singleton.mp hl]
      exact Or.inr (Or.inl rfl)

theorem do_get_symlink_stderr (env : Env) (s : State) (path : String) (attr : stat) :
    stderr_extends s.program path s (do_get_symlink env s path attr).2 := by
  unfold do_get_symlink
  split_ifs
  · cases env.malloc_err s.mallocs with
    | some e =>
      refine ⟨[s.program ++ ": malloc(): " ++ e ++ "\n"], rfl, ?_⟩
      intro l hl
      rw [List.mem_singleton.mp hl]
      exact Or.inr (Or.inr (Or.inl ⟨e, rfl⟩))
    | none =>
      cases env.readlink path with
      | error e =>
        refine ⟨[s.program ++ ": readlink(" ++ path ++ "): " ++ e ++ "\n"], rfl, ?_⟩
        intro l hl
        rw [List.mem_singleton.mp hl]
        exact Or.inr (Or.inr (Or.inr ⟨e, rfl⟩))
      | ok target => exact stderr_extends_of_eq _ _ _ _ rfl
  · exact stderr_extends_refl _ _ _

theorem do_ls_stderr (env : Env) (s : State) (path : String) (attr : stat) :
    stderr_extends s.program path s (do_ls env s path attr).2 := by
  cases hlt : env.localtime_null attr.st_mtime with
  | true =>
    rw [do_ls_killed env s path attr hlt]
    exact stderr_extends_of_eq _ _ _ _ rfl
  | false =>
    have h1 := do_get_mtime_stderr env s attr path
    have p1 := (do_get_mtime_state env s attr).2.2.2.1
    have h2 := do_get_symlink_stderr env (do_get_mtime env s attr).2 path attr
    have p2 := (do_get_symlink_state env (do_get_mtime env s attr).2 path attr).2.2.1
    have h3 := printf_out_stderr env (do_get_symlink env (do_get_mtime env s attr).2 path attr).2
      (format_ls (to_long attr.st_ino) (attr.st_blocks / 2) (do_get_perms attr)
        (to_long attr.st_nlink) attr.st_uid attr.st_gid attr.st_size
        (mtime_text env attr) path
        (if (do_get_symlink env (do_get_mtime env s attr).2 path attr).1.length > 0 then " -> "
          else "")
        (do_get_symlink env (do_get_mtime env s attr).2 path attr).1) path
    rw [p2, p1] at h3
    rw [p1] at h2
    rw [do_ls_alive env s path attr hlt]
    exact stderr_extends_trans _ _ _ _ _ (stderr_extends_trans _ _ _ _ _ h1 h2) h3

theorem printing_stderr (env : Env) (s : State) (path : String) (attr : stat) :
    stderr_extends s.program path s (printing env s path attr).2 := by
  have hp := printf_out_stderr env s (path ++ "\n") path
  have pp := (printf_out_state env s (path ++ "\n")).2.1
  have hl1 := do_ls_stderr env (printf_out env s (path ++ "\n")).2 path attr
  rw [pp] at hl1
  have hl2 := do_ls_stderr env s path attr
  unfold printing
  by_cases h1 : s.s_ls = 0 ∨ s.s_print ≠ 0
  · simp only [if_pos h1, do_print]
    by_cases h2 : (printf_out env s (path ++ "\n")).1 ≠ EXIT_SUCCESS
    · simp only [if_pos h2]
      exact hp
    · simp only [if_neg h2]
      by_cases h3 : (printf_out env s (path ++ "\n")).2.s_ls ≠ 0
      · simp only [if_pos h3, ret_snd]
        exact stderr_extends_trans _ _ _ _ _ hp hl1
      · simp only [if_neg h3, ret_snd]
        exact hp
  · simp only [if_neg h1, ne_eq, not_true_eq_false, if_false]
    by_cases h3 : s.s_ls ≠ 0
    · simp only [if_pos h3, ret_snd]
      exact hl2
    · simp only [if_neg h3, ret_snd]
      exact stderr_extends_refl _ _ _

/-- The first call of `do_file` leaves the statics that the check of `argv`
alone determines. -/
theorem first_call_statics (env : Env) (argv : List String) (path : String) (attr : stat) :
    statics (do_file env (first_state argv) path argv attr).2 = statics (after_check argv) := by
  have hchk : (first_state argv).checked = 0 := rfl
  have hfp := filter_print_eq env (after_check argv) path argv attr
  have hn := (name_done_fields (after_check argv) path).1
  have hpr := (printing_state env (name_done (after_check argv) path)
    (path_seen (after_check argv) path) attr).1
  unfold do_file
  simp only [hchk, if_true]
  split_ifs
  · rfl
  · rfl
  · rfl
  · show statics (filter_print env (after_check argv) path argv attr).2 = _
    rw [hfp]
    split_ifs
    · exact hn
    · exact hpr.trans hn

/-- Every call of `do_file` leaves `checked` set. -/
theorem do_file_sets_checked (env : Env) (s : State) (path : String) (params : List String)
    (attr : stat) : (do_file env s path params attr).2.checked = 1 := by
  have key : ∀ t : State, t.checked = 1 →
      (filter_print env t path params attr).2.checked = 1 := by
    intro t ht
    have hn := (name_done_flags t path).1
    rw [filter_print_eq]
    split_ifs
    · exact hn.trans ht
    · have h := (printing_state env (name_done t path) (path_seen t path) attr).1
      simp only [statics, List.cons.injEq] at h
      rw [h.1]; exact hn.trans ht
  unfold do_file
  dsimp only
  split_ifs <;> first
    | rfl
    | exact key _ rfl

mutual
theorem do_dir_statics (env : Env) (params : List String) :
    ∀ (node : Node) (path : String) (s : State), s.checked = 1 →
      statics (do_dir env params path node s).2 = statics s ∧
      (do_dir env params path node s).2.program = s.program
  | .mk _ (.error e) _, path, s, _ => by
    simp only [do_dir]
    exact ⟨rfl, rfl⟩
  | .mk _ (.ok entries) closedir, path, s, hs => by
    have ih := do_dir_loop_statics env params entries path (s.open_dir path) hs
    simp only [do_dir]
    cases h : do_dir_loop env params path entries (s.open_dir path) with
    | mk r s2 =>
      rw [h] at ih
      cases r with
      | some ret => exact ih
      | none =>
        cases closedir with
        | none => exact ih
        | some e => exact ih
theorem do_dir_loop_statics (env : Env) (params : List String) :
    ∀ (entries : List (String × Node)) (path : String) (s : State), s.checked = 1 →
      statics (do_dir_loop env params path entries s).2 = statics s ∧
      (do_dir_loop env params path entries s).2.program = s.program
  | [], path, s, _ => by
    simp only [do_dir_loop]
    exact ⟨trivial, trivial⟩
  | (d_name, .mk child_lstat child_opendir child_closedir) :: rest, path, s, hs => by
    rw [do_dir_loop_cons]
    by_cases hdot : d_name = "." ∨ d_name = ".."
    · rw [if_pos hdot]
      exact do_dir_loop_statics env params rest path s hs
    · rw [if_neg hdot]
      cases env.malloc_err s.mallocs with
      | some e => exact ⟨rfl, rfl⟩
      | none =>
        cases child_lstat with
        | error e => exact ⟨rfl, rfl⟩
        | ok attr =>
          have hc : (s.probe_child (path ++ "/" ++ d_name)).checked = 1 := hs
          have hf := do_file_state env (s.probe_child (path ++ "/" ++ d_name))
            (path ++ "/" ++ d_name) params attr hc
          have hfc := do_file_sets_checked env (s.probe_child (path ++ "/" ++ d_name))
            (path ++ "/" ++ d_name) params attr
          have hdd := do_dir_statics env params (.mk (.ok attr) child_opendir child_closedir)
            (do_file env (s.probe_child (path ++ "/" ++ d_name)) (path ++ "/" ++ d_name)
              params attr).2.path_buf _ hfc
          have hdc : (do_dir env params
              (do_file env (s.probe_child (path ++ "/" ++ d_name)) (path ++ "/" ++ d_name)
                params attr).2.path_buf
              (.mk (.ok attr) child_opendir child_closedir)
              (do_file env (s.probe_child (path ++ "/" ++ d_name)) (path ++ "/" ++ d_name)
                params attr).2).2.checked = 1 := by
            have h := hdd.1
            simp only [statics, List.cons.injEq] at h
            rw [h.1]; exact hfc
          have hl1 := do_dir_loop_statics env params rest path _ hdc
          have hl2 := do_dir_loop_statics env params rest path _ hfc
          simp only []
          split_ifs
          · exact hf
          · exact ⟨hdd.1.trans hf.1, hdd.2.trans hf.2⟩
          · exact ⟨hl1.1.trans (hdd.1.trans hf.1), hl1.2.trans (hdd.2.trans hf.2)⟩
          · exact ⟨hl2.1.trans hf.1, hl2.2.trans hf.2⟩
end
/-- Once `checked` is set, a call of `do_file` adds to standard error only
diagnostics of its printing section. -/
theorem do_file_stderr (env : Env) (s : State) (path : String) (params : List String)
    (attr : stat) (hc : s.checked = 1) :
    stderr_extends s.program (path_seen s path) s (do_file env s path params attr).2 := by
  have hn := name_done_fields s path
  have h0 : stderr_extends s.program (path_seen s path) s (name_done s path) :=
    stderr_extends_of_eq _ _ _ _ hn.2.2.2.1
  have hp := printing_stderr env (name_done s path) (path_seen s path) attr
  rw [hn.2.1] at hp
  rw [do_file_checked env s path params attr hc, filter_print_eq]
  split_ifs
  · exact h0
  · exact stderr_extends_trans _ _ _ _ _ h0 hp

/-- C18. Every call of `do_file` leaves `checked` set. A call made with
`checked` set leaves all eight statics as they are and adds to standard error
no argument diagnostic. The statics after the first call are the same for
every environment, path and attributes, so they depend on `argv` alone. A
whole call of `do_dir`, and a whole run of `main` on a probeable root, leave
the statics as the first call left them. -/
theorem plan_immutable :
    (∀ (env : Env) (s : State) (path : String) (params : List String) (attr : stat),
      (do_file env s path params attr).2.checked = 1) ∧
    (∀ (env : Env) (s : State) (path : String) (params : List String) (attr : stat),
      s.checked = 1 →
        statics (do_file env s path params attr).2 = statics s ∧
        ∃ new, (do_file env s path params attr).2.stderr = s.stderr ++ new ∧
          ∀ l ∈ new, ¬ argument_diagnostic s.program l) ∧
    (∀ (env1 env2 : Env) (argv : List String) (path1 path2 : String) (attr1 attr2 : stat),
      statics (do_file env1 (first_state argv) path1 argv attr1).2 =
        statics (do_file env2 (first_state argv) path2 argv attr2).2) ∧
    (∀ (env : Env) (params : List String) (node : Node) (path : String) (s : State),
      s.checked = 1 → statics (do_dir env params path node s).2 = statics s) ∧
    (∀ (env : Env) (argv : List String) (attr : stat)
        (root_opendir : Except String (List (String × Node))) (root_closedir : Option String),
      3 ≤ argv.length →
        statics (main env argv (.mk (.ok attr) root_opendir root_closedir)).2 =
          statics (after_check argv)) := by
  refine ⟨do_file_sets_checked, ?_, ?_, ?_, ?_⟩
  · intro env s path params attr hc
    refine ⟨(do_file_state env s path params attr hc).1, ?_⟩
    obtain ⟨new, h1, h2⟩ := do_file_stderr env s path params attr hc
    exact ⟨new, h1, fun l hl => runtime_not_argument _ (path_seen s path) l (h2 l hl)⟩
  · intro env1 env2 argv path1 path2 attr1 attr2
    rw [first_call_statics, first_call_statics]
  · intro env params node path s hc
    exact (do_dir_statics env params node path s hc).1
  · intro env argv attr root_opendir root_closedir hargc
    have h3 : ¬ argv.length < 3 := by omega
    have h1 := first_call_statics env argv (param argv 1) attr
    have h2 := do_file_sets_checked env (first_state argv) (param argv 1) argv attr
    have hd := (do_dir_statics env argv (.mk (.ok attr) root_opendir root_closedir)
      (do_file env (first_state argv) (param argv 1) argv attr).2.path_buf _ h2).1
    simp only [main, if_neg h3]
    split_ifs
    · exact h1
    · exact h1
    · exact hd.trans h1
    · exact hd.trans h1
    · exact h1

/-- C18 on the second call of a run of `myfind T -type f -print`. -/
theorem plan_immutable_witness :
    statics (do_file env_ok
        (do_file env_ok (first_state ["myfind", "T", "-type", "f", "-print"]) "T"
          ["myfind", "T", "-type", "f", "-print"] directory).2
        "T/a.txt" ["myfind", "T", "-type", "f", "-print"] regular_file).2 =
      statics (do_file env_ok (first_state ["myfind", "T", "-type", "f", "-print"]) "T"
          ["myfind", "T", "-type", "f", "-print"] directory).2 :=
  (plan_immutable.2.1 env_ok
    (do_file env_ok (first_state ["myfind", "T", "-type", "f", "-print"]) "T"
      ["myfind", "T", "-type", "f", "-print"] directory).2
    "T/a.txt" ["myfind", "T", "-type", "f", "-print"] regular_file (by decide)).1
/-! ## The exit status -/

theorem printf_out_printfs (env : Env) (s : State) (record : String) :
    (printf_out env s record).2.printfs = s.printfs + 1 ∧
    (printf_out env s record).2.killed = s.killed ∧
    (printf_out env s record).2.path_buf = s.path_buf ∧
    (env.printf_err s.printfs = none → (printf_out env s record).1 = EXIT_SUCCESS) := by
  unfold printf_out
  cases h : env.printf_err s.printfs <;> simp

/-- The function `main` on a probeable root when `argc` is at least 3. -/
theorem main_root (env : Env) (argv : List String) (attr : stat)
    (root_opendir : Except String (List (String × Node))) (root_closedir : Option String)
    (h3 : ¬ argv.length < 3) :
    main env argv (.mk (.ok attr) root_opendir root_closedir) =
      if (do_file env (first_state argv) (param argv 1) argv attr).2.killed = true then
        (KILLED, (do_file env (first_state argv) (param argv 1) argv attr).2)
      else if (do_file env (first_state argv) (param argv 1) argv attr).1 ≠ EXIT_SUCCESS then
        (EXIT_FAILURE, (do_file env (first_state argv) (param argv 1) argv attr).2)
      else if S_ISDIR attr.st_mode = true then
        if (do_dir env argv (do_file env (first_state argv) (param argv 1) argv attr).2.path_buf
            (.mk (.ok attr) root_opendir root_closedir)
            (do_file env (first_state argv) (param argv 1) argv attr).2).2.killed = true then
          (KILLED,
            (do_dir env argv (do_file env (first_state argv) (param argv 1) argv attr).2.path_buf
              (.mk (.ok attr) root_opendir root_closedir)
              (do_file env (first_state argv) (param argv 1) argv attr).2).2)
        else
          (EXIT_SUCCESS,
            (do_dir env argv (do_file env (first_state argv) (param argv 1) argv attr).2.path_buf
              (.mk (.ok attr) root_opendir root_closedir)
              (do_file env (first_state argv) (param argv 1) argv attr).2).2)
      else (EXIT_SUCCESS, (do_file env (first_state argv) (param argv 1) argv attr).2) := by
  unfold main
  rw [if_neg h3]

theorem stdout_extends_refl (P : String → Prop) (s : State) : stdout_extends P s s :=
  ⟨[], by simp, by simp⟩

theorem stdout_extends_of_eq (P : String → Prop) (s t : State) (h : t.stdout = s.stdout) :
    stdout_extends P s t :=
  ⟨[], by simp [h], by simp⟩

theorem stdout_extends_trans (P : String → Prop) (s t u : State)
    (h1 : stdout_extends P s t) (h2 : stdout_extends P t u) : stdout_extends P s u := by
  obtain ⟨n1, e1, p1⟩ := h1
  obtain ⟨n2, e2, p2⟩ := h2
  refine ⟨n1 ++ n2, by rw [e2, e1, List.append_assoc], ?_⟩
  intro l hl
  rcases List.mem_append.mp hl with h | h
  · exact p1 l h
  · exact p2 l h

theorem stdout_extends_mono (P Q : String → Prop) (s t : State) (hPQ : ∀ l, P l → Q l)
    (h : stdout_extends P s t) : stdout_extends Q s t := by
  obtain ⟨n, e, p⟩ := h
  exact ⟨n, e, fun l hl => hPQ l (p l hl)⟩

theorem printf_out_records (env : Env) (s : State) (record : String) :
    stdout_extends (fun l => l = record) s (printf_out env s record).2 := by
  unfold printf_out
  cases env.printf_err s.printfs with
  | none => exact ⟨[record], rfl, fun l hl => List.mem_singleton.mp hl⟩
  | some e => exact stdout_extends_of_eq _ _ _ rfl


theorem string_length_zero (t : String) (h : ¬ t.length > 0) : t = "" := by
  cases t with
  | mk data =>
    cases data with
    | nil => rfl
    | cons c l => exact absurd (Nat.succ_pos _) h

theorem do_ls_records (env : Env) (s : State) (path : String) (attr : stat) :
    stdout_extends (record_for path) s (do_ls env s path attr).2 := by
  cases hlt : env.localtime_null attr.st_mtime with
  | true =>
    rw [do_ls_killed env s path attr hlt]
    exact stdout_extends_of_eq _ _ _ rfl
  | false =>
    have hm := (do_get_mtime_state env s attr).1
    have hl := (do_get_symlink_state env (do_get_mtime env s attr).2 path attr).1
    have hp := printf_out_records env (do_get_symlink env (do_get_mtime env s attr).2 path attr).2
      (format_ls (to_long attr.st_ino) (attr.st_blocks / 2) (do_get_perms attr)
        (to_long attr.st_nlink) attr.st_uid attr.st_gid attr.st_size
        (mtime_text env attr) path
        (if (do_get_symlink env (do_get_mtime env s attr).2 path attr).1.length > 0 then " -> "
          else "")
        (do_get_symlink env (do_get_mtime env s attr).2 path attr).1)
    obtain ⟨new, e, p⟩ := hp
    rw [do_ls_alive env s path attr hlt]
    refine ⟨new, by rw [e, hl, hm], ?_⟩
    intro l hl2
    refine Or.inr ⟨_, _, _, _, _, _, _, _, _, _, ?_, p l hl2⟩
    by_cases hlen : (do_get_symlink env (do_get_mtime env s attr).2 path attr).1.length > 0
    · right
      rw [if_pos hlen]
    · left
      rw [if_neg hlen]
      exact ⟨rfl, string_length_zero _ hlen⟩

theorem printing_records (env : Env) (s : State) (path : String) (attr : stat) :
    stdout_extends (record_for path) s (printing env s path attr).2 := by
  have hp : stdout_extends (record_for path) s (printf_out env s (path ++ "\n")).2 :=
    stdout_extends_mono _ _ _ _ (fun l hl => Or.inl hl) (printf_out_records env s (path ++ "\n"))
  have hl1 := do_ls_records env (printf_out env s (path ++ "\n")).2 path attr
  have hl2 := do_ls_records env s path attr
  unfold printing
  by_cases h1 : s.s_ls = 0 ∨ s.s_print ≠ 0
  · simp only [if_pos h1, do_print]
    by_cases h2 : (printf_out env s (path ++ "\n")).1 ≠ EXIT_SUCCESS
    · simp only [if_pos h2]
      exact hp
    · simp only [if_neg h2]
      by_cases h3 : (printf_out env s (path ++ "\n")).2.s_ls ≠ 0
      · simp only [if_pos h3, ret_snd]
        exact stdout_extends_trans _ _ _ _ hp hl1
      · simp only [if_neg h3, ret_snd]
        exact hp
  · simp only [if_neg h1, ne_eq, not_true_eq_false, if_false]
    by_cases h3 : s.s_ls ≠ 0
    · simp only [if_pos h3, ret_snd]
      exact hl2
    · simp only [if_neg h3, ret_snd]
      exact stdout_extends_refl _ _

/-- Once `checked` is set, a call of `do_file` adds to standard output only
records for its path as the test of `-name` leaves it. -/
theorem do_file_records (env : Env) (s : State) (path : String) (params : List String)
    (attr : stat) (hc : s.checked = 1) :
    stdout_extends (record_for (path_seen s path)) s (do_file env s path params attr).2 := by
  have hn := name_done_fields s path
  have h0 : stdout_extends (record_for (path_seen s path)) s (name_done s path) :=
    stdout_extends_of_eq _ _ _ hn.2.2.1
  rw [do_file_checked env s path params attr hc, filter_print_eq]
  split_ifs
  · exact h0
  · exact stdout_extends_trans _ _ _ _ h0 (printing_records env _ _ attr)

/-- A path whose last byte is not `/` is left as it is by `basename`. -/
theorem basename_cut_of_last (path : String) (c : Char) (l : List Char)
    (h : path.data.reverse = c :: l) (hc : c ≠ '/') : basename_cut path = path := by
  have hb : (c == '/') = false := by
    simpa using hc
  have hd : (c :: l).dropWhile (fun c => c == '/') = c :: l := by
    simp only [List.dropWhile, hb]
  have hr : (c :: l).reverse = path.data := by
    rw [← h, List.reverse_reverse]
  unfold basename_cut
  rw [h, hd]
  simp only [hr]

/-- The path of a child whose name is not empty and has no `/` is left as it
is by `basename`. -/
theorem basename_cut_child (parent d_name : String) (h1 : d_name ≠ "")
    (h2 : '/' ∉ d_name.data) :
    basename_cut (parent ++ "/" ++ d_name) = parent ++ "/" ++ d_name := by
  have hd : (parent ++ "/" ++ d_name).data.reverse =
      d_name.data.reverse ++ '/' :: parent.data.reverse := by
    simp [String.data_append]
  cases hr : d_name.data.reverse with
  | nil =>
    exfalso
    apply h1
    have : d_name.data = [] := by
      have := congrArg List.reverse hr
      simpa using this
    cases d_name with
    | mk data =>
      simp only at this
      rw [this]
  | cons c l =>
    have hc : c ≠ '/' := by
      intro hEq
      apply h2
      have : c ∈ d_name.data.reverse := by rw [hr]; simp
      rw [← hEq]
      exact List.mem_reverse.mp this
    exact basename_cut_of_last _ c (l ++ '/' :: parent.data.reverse) (by rw [hd, hr]; rfl) hc

theorem do_ls_buf (env : Env) (s : State) (path : String) (attr : stat) :
    (do_ls env s path attr).2.path_buf = s.path_buf := by
  cases hlt : env.localtime_null attr.st_mtime with
  | true =>
    rw [do_ls_killed env s path attr hlt]
  | false =>
    rw [do_ls_alive env s path attr hlt, (printf_out_printfs env _ _).2.2.1,
      (do_get_symlink_buf env _ path attr).1, do_get_mtime_buf]

theorem printing_buf (env : Env) (s : State) (path : String) (attr : stat) :
    (printing env s path attr).2.path_buf = s.path_buf := by
  have hp := (printf_out_printfs env s (path ++ "\n")).2.2.1
  have hl1 := do_ls_buf env (printf_out env s (path ++ "\n")).2 path attr
  have hl2 := do_ls_buf env s path attr
  unfold printing
  by_cases h1 : s.s_ls = 0 ∨ s.s_print ≠ 0
  · simp only [if_pos h1, do_print]
    by_cases h2 : (printf_out env s (path ++ "\n")).1 ≠ EXIT_SUCCESS
    · simp only [if_pos h2]
      exact hp
    · simp only [if_neg h2]
      by_cases h3 : (printf_out env s (path ++ "\n")).2.s_ls ≠ 0
      · simp only [if_pos h3, ret_snd]
        exact hl1.trans hp
      · simp only [if_neg h3, ret_snd]
        exact hp
  · simp only [if_neg h1, ne_eq, not_true_eq_false, if_false]
    by_cases h3 : s.s_ls ≠ 0
    · simp only [if_pos h3, ret_snd]
      exact hl2
    · simp only [if_neg h3, ne_eq, not_true_eq_false, if_false]

/-- Once `checked` is set, a call of `do_file` leaves in the path buffer what
the test of `-name` has left there. -/
theorem do_file_buf (env : Env) (s : State) (path : String) (params : List String)
    (attr : stat) (hc : s.checked = 1) :
    (do_file env s path params attr).2.path_buf = (name_done s path).path_buf := by
  rw [do_file_checked env s path params attr hc, filter_print_eq]
  split_ifs
  · rfl
  · exact printing_buf env _ _ attr

/-- For a child whose name is what a file system gives, or when no `-name` is
bound, `do_file` goes on with the path of the child and leaves it in the
buffer. -/
theorem child_path (env : Env) (s : State) (path d_name : String) (params : List String)
    (attr : stat) (hc : s.checked = 1)
    (h : s.s_name = 0 ∨ (d_name ≠ "" ∧ '/' ∉ d_name.data)) :
    path_seen (s.probe_child (path ++ "/" ++ d_name)) (path ++ "/" ++ d_name) =
      path ++ "/" ++ d_name ∧
    (do_file env (s.probe_child (path ++ "/" ++ d_name)) (path ++ "/" ++ d_name) params
      attr).2.path_buf = path ++ "/" ++ d_name := by
  have hc1 : (s.probe_child (path ++ "/" ++ d_name)).checked = 1 := hc
  have e1 : (s.probe_child (path ++ "/" ++ d_name)).s_name = s.s_name := rfl
  rw [do_file_buf env _ _ params attr hc1]
  unfold path_seen name_done
  rw [e1]
  rcases h with h | ⟨h1, h2⟩
  · simp only [h, ne_eq, not_true_eq_false, if_false]
    exact ⟨trivial, rfl⟩
  · have hb := basename_cut_child path d_name h1 h2
    split_ifs
    · exact ⟨hb, hb⟩
    · exact ⟨rfl, rfl⟩

/-! ## The entries `.` and `..` -/

/-- The last component of `parent/name` is `name` when `name` has no `/`. -/
theorem last_component_child (parent name : String) (h : '/' ∉ name.data) :
    last_component (parent ++ "/" ++ name) = name := by
  have hall : ∀ c ∈ name.data.reverse, (c != '/') = true := by
    intro c hc
    have hc2 : c ∈ name.data := List.mem_reverse.mp hc
    simp only [bne_iff_ne, ne_eq]
    intro hEq
    exact h (hEq ▸ hc2)
  have htw : ∀ (l rest : List Char), (∀ c ∈ l, (c != '/') = true) →
      (l ++ '/' :: rest).takeWhile (fun c => c != '/') = l := by
    intro l rest hl
    induction l with
    | nil => simp [List.takeWhile]
    | cons a l ih =>
      have ha : (a != '/') = true := hl a (by simp)
      simp only [List.cons_append, List.takeWhile_cons, ha, if_true]
      rw [ih (fun c hc => hl c (by simp [hc]))]
  unfold last_component
  have hd : (parent ++ "/" ++ name).data.reverse =
      name.data.reverse ++ '/' :: parent.data.reverse := by
    simp [String.data_append]
  rw [hd, htw _ _ hall, List.reverse_reverse]

mutual
theorem do_dir_records (env : Env) (params : List String) :
    ∀ (node : Node) (path : String) (s : State), s.checked = 1 → plain_names_dir node →
      stdout_extends record_below s (do_dir env params path node s).2
  | .mk _ (.error e) _, path, s, _, _ => by
    simp only [do_dir]
    exact stdout_extends_of_eq _ _ _ rfl
  | .mk _ (.ok entries) closedir, path, s, hc, hn => by
    have ih := do_dir_loop_records env params entries path (s.open_dir path) hc
      (by simpa only [plain_names_dir] using hn)
    have h0 : stdout_extends record_below s (s.open_dir path) :=
      stdout_extends_of_eq _ _ _ rfl
    simp only [do_dir]
    cases h : do_dir_loop env params path entries (s.open_dir path) with
    | mk r s2 =>
      rw [h] at ih
      have h2 := stdout_extends_trans _ _ _ _ h0 ih
      cases r with
      | some ret => exact h2
      | none =>
        cases closedir with
        | none => exact stdout_extends_trans _ _ _ _ h2 (stdout_extends_of_eq _ _ _ rfl)
        | some e => exact stdout_extends_trans _ _ _ _ h2 (stdout_extends_of_eq _ _ _ rfl)
theorem do_dir_loop_records (env : Env) (params : List String) :
    ∀ (entries : List (String × Node)) (path : String) (s : State), s.checked = 1 →
      plain_names_entries entries →
      stdout_extends record_below s (do_dir_loop env params path entries s).2
  | [], path, s, _, _ => by
    simp only [do_dir_loop]
    exact stdout_extends_refl _ _
  | (d_name, .mk child_lstat child_opendir child_closedir) :: rest, path, s, hc, hn => by
    simp only [plain_names_entries] at hn
    obtain ⟨hne, hslash, hnchild, hnrest⟩ := hn
    rw [do_dir_loop_cons]
    by_cases hdot : d_name = "." ∨ d_name = ".."
    · rw [if_pos hdot]
      exact do_dir_loop_records env params rest path s hc hnrest
    · rw [if_neg hdot]
      cases env.malloc_err s.mallocs with
      | some e => exact stdout_extends_of_eq _ _ _ rfl
      | none =>
        cases child_lstat with
        | error e => exact stdout_extends_of_eq _ _ _ rfl
        | ok attr =>
          have hc1 : (s.probe_child (path ++ "/" ++ d_name)).checked = 1 := hc
          have hcp := child_path env s path d_name params attr hc (Or.inr ⟨hne, hslash⟩)
          have hlast := last_component_child path d_name hslash
          have h0 : stdout_extends record_below s (s.probe_child (path ++ "/" ++ d_name)) :=
            stdout_extends_of_eq _ _ _ rfl
          have hf : stdout_extends record_below (s.probe_child (path ++ "/" ++ d_name))
              (do_file env (s.probe_child (path ++ "/" ++ d_name)) (path ++ "/" ++ d_name)
                params attr).2 := by
            have hr := do_file_records env _ (path ++ "/" ++ d_name) params attr hc1
            rw [hcp.1] at hr
            exact stdout_extends_mono _ _ _ _
              (fun l hl => ⟨path ++ "/" ++ d_name, hl,
                by rw [hlast]; exact fun h => hdot (Or.inl h),
                by rw [hlast]; exact fun h => hdot (Or.inr h)⟩) hr
          have hfc := do_file_sets_checked env (s.probe_child (path ++ "/" ++ d_name))
            (path ++ "/" ++ d_name) params attr
          have hdd := do_dir_records env params (.mk (.ok attr) child_opendir child_closedir)
            (do_file env (s.probe_child (path ++ "/" ++ d_name)) (path ++ "/" ++ d_name)
              params attr).2.path_buf
            (do_file env (s.probe_child (path ++ "/" ++ d_name)) (path ++ "/" ++ d_name)
              params attr).2 hfc hnchild
          have hdc : (do_dir env params
              (do_file env (s.probe_child (path ++ "/" ++ d_name)) (path ++ "/" ++ d_name)
                params attr).2.path_buf
              (.mk (.ok attr) child_opendir child_closedir)
              (do_file env (s.probe_child (path ++ "/" ++ d_name)) (path ++ "/" ++ d_name)
                params attr).2).2.checked = 1 := by
            have h := (do_dir_statics env params (.mk (.ok attr) child_opendir child_closedir)
              (do_file env (s.probe_child (path ++ "/" ++ d_name)) (path ++ "/" ++ d_name)
                params attr).2.path_buf _ hfc).1
            simp only [statics, List.cons.injEq] at h
            rw [h.1]; exact hfc
          have hl1 := do_dir_loop_records env params rest path _ hdc hnrest
          have hl2 := do_dir_loop_records env params rest path _ hfc hnrest
          simp only []
          split_ifs
          · exact stdout_extends_trans _ _ _ _ h0 hf
          · exact stdout_extends_trans _ _ _ _ (stdout_extends_trans _ _ _ _ h0 hf) hdd
          · exact stdout_extends_trans _ _ _ _
              (stdout_extends_trans _ _ _ _ (stdout_extends_trans _ _ _ _ h0 hf) hdd) hl1
          · exact stdout_extends_trans _ _ _ _ (stdout_extends_trans _ _ _ _ h0 hf) hl2
end

/-- The names of the fixture tree are not empty and have no `/`. -/
theorem fixture_plain_names : plain_names_dir fixture := by
  simp only [fixture, dot_entries, leaf, plain_names_dir, plain_names_entries, List.cons_append,
    List.nil_append]
  decide

mutual
theorem preorder_dir_nil : ∀ (node : Node) (path : String), preorder_dir path node []
  | .mk _ (.error _) _, path => by
    simp only [preorder_dir]
  | .mk _ (.ok entries) _, path => by
    simp only [preorder_dir]
    exact preorder_entries_nil entries path
theorem preorder_entries_nil :
    ∀ (entries : List (String × Node)) (path : String), preorder_entries path entries []
  | [], path => by
    simp only [preorder_entries]
  | (d_name, .mk child_lstat child_opendir child_closedir) :: rest, path => by
    simp only [preorder_entries]
    exact ⟨[], [], [], rfl, Or.inl rfl,
      preorder_dir_nil (.mk child_lstat child_opendir child_closedir) (path ++ "/" ++ d_name),
      preorder_entries_nil rest path⟩
end


theorem name_done_buf (s : State) (path : String) (h : s.path_buf = path) :
    (name_done s path).path_buf = path_seen s path := by
  unfold name_done path_seen
  split_ifs
  · rfl
  · exact h

/-- Without `-ls`, a call of `do_file` made with `checked` set adds to standard
output the line of its path, as the test of `-name` leaves it, or nothing. -/
theorem do_file_own_line (env : Env) (s : State) (path : String) (params : List String)
    (attr : stat) (hc : s.checked = 1) (hls : s.s_ls = 0) :
    ∃ own, (do_file env s path params attr).2.stdout = s.stdout ++ own ∧
      (own = [] ∨ own = [path_seen s path ++ "\n"]) := by
  have hn := name_done_fields s path
  have hf := name_done_flags s path
  rw [do_file_checked env s path params attr hc, filter_print_eq]
  split_ifs
  · exact ⟨[], by simp [hn.2.2.1], Or.inl rfl⟩
  · generalize name_done s path = w at hn hf
    generalize path_seen s path = p
    have hlsw : w.s_ls = 0 := by rw [hf.2.2.1]; exact hls
    have hst := (printf_out_state env w (p ++ "\n")).1
    have hls2 : (printf_out env w (p ++ "\n")).2.s_ls = 0 := by
      simp only [statics, List.cons.injEq] at hst
      rw [hst.2.2.1]; exact hlsw
    have c1 : w.s_ls = 0 ∨ w.s_print ≠ 0 := Or.inl hlsw
    have hp : ∃ own, (printf_out env w (p ++ "\n")).2.stdout = s.stdout ++ own ∧
        (own = [] ∨ own = [p ++ "\n"]) := by
      unfold printf_out
      cases env.printf_err w.printfs with
      | none => exact ⟨[p ++ "\n"], by simp [hn.2.2.1], Or.inr rfl⟩
      | some e => exact ⟨[], by simp [hn.2.2.1], Or.inl rfl⟩
    unfold printing
    simp only [if_pos c1, do_print, hls2, ne_eq, not_true_eq_false, if_false]
    split_ifs <;> exact hp

mutual
theorem do_dir_preorder (env : Env) (params : List String) :
    ∀ (node : Node) (path : String) (s : State), s.checked = 1 → s.s_ls = 0 →
      (s.s_name = 0 ∨ plain_names_dir node) →
      ∃ out, (do_dir env params path node s).2.stdout = s.stdout ++ out ∧
        preorder_dir path node out
  | .mk _ (.error e) _, path, s, _, _, _ => by
    simp only [do_dir, preorder_dir]
    exact ⟨[], by simp [State.err, State.open_dir_failed], rfl⟩
  | .mk _ (.ok entries) closedir, path, s, hc, hls, hn => by
    obtain ⟨out, e1, p1⟩ := do_dir_loop_preorder env params entries path (s.open_dir path) hc hls
      (by simpa only [plain_names_dir] using hn)
    simp only [do_dir, preorder_dir]
    cases h : do_dir_loop env params path entries (s.open_dir path) with
    | mk r s2 =>
      rw [h] at e1
      have e2 : s2.stdout = s.stdout ++ out := e1
      cases r with
      | some ret => exact ⟨out, e2, p1⟩
      | none =>
        cases closedir with
        | none => exact ⟨out, e2, p1⟩
        | some e => exact ⟨out, e2, p1⟩
theorem do_dir_loop_preorder (env : Env) (params : List String) :
    ∀ (entries : List (String × Node)) (path : String) (s : State),
      s.checked = 1 → s.s_ls = 0 → (s.s_name = 0 ∨ plain_names_entries entries) →
      ∃ out, (do_dir_loop env params path entries s).2.stdout = s.stdout ++ out ∧
        preorder_entries path entries out
  | [], path, s, _, _, _ => by
    simp only [do_dir_loop, preorder_entries]
    exact ⟨[], by simp, rfl⟩
  | (d_name, .mk child_lstat child_opendir child_closedir) :: rest, path, s, hc, hls, hn => by
    have hnil : preorder_entries path
        ((d_name, .mk child_lstat child_opendir child_closedir) :: rest) [] :=
      preorder_entries_nil _ path
    have hnrest : s.s_name = 0 ∨ plain_names_entries rest := by
      rcases hn with h | h
      · exact Or.inl h
      · simp only [plain_names_entries] at h
        exact Or.inr h.2.2.2
    have hnchild : s.s_name = 0 ∨
        plain_names_dir (.mk child_lstat child_opendir child_closedir) := by
      rcases hn with h | h
      · exact Or.inl h
      · simp only [plain_names_entries] at h
        exact Or.inr h.2.2.1
    have hnname : s.s_name = 0 ∨ (d_name ≠ "" ∧ '/' ∉ d_name.data) := by
      rcases hn with h | h
      · exact Or.inl h
      · simp only [plain_names_entries] at h
        exact Or.inr ⟨h.1, h.2.1⟩
    rw [do_dir_loop_cons]
    by_cases hdot : d_name = "." ∨ d_name = ".."
    · rw [if_pos hdot]
      obtain ⟨out, e1, p1⟩ := do_dir_loop_preorder env params rest path s hc hls hnrest
      refine ⟨out, e1, ?_⟩
      simp only [preorder_entries]
      exact ⟨[], [], out, by simp, Or.inl rfl, preorder_dir_nil _ _, p1⟩
    · rw [if_neg hdot]
      cases env.malloc_err s.mallocs with
      | some e => exact ⟨[], by simp [State.err, State.malloc_done], hnil⟩
      | none =>
        cases child_lstat with
        | error e => exact ⟨[], by simp [State.err, State.probe_child], hnil⟩
        | ok attr =>
          have hc1 : (s.probe_child (path ++ "/" ++ d_name)).checked = 1 := hc
          have hls1 : (s.probe_child (path ++ "/" ++ d_name)).s_ls = 0 := hls
          have hcp := child_path env s path d_name params attr hc hnname
          obtain ⟨own, e1, p1⟩ := do_file_own_line env (s.probe_child (path ++ "/" ++ d_name))
            (path ++ "/" ++ d_name) params attr hc1 hls1
          rw [hcp.1] at p1
          have e1' : (do_file env (s.probe_child (path ++ "/" ++ d_name))
              (path ++ "/" ++ d_name) params attr).2.stdout = s.stdout ++ own := e1
          have hst := (do_file_state env (s.probe_child (path ++ "/" ++ d_name))
            (path ++ "/" ++ d_name) params attr hc1).1
          simp only [statics, List.cons.injEq] at hst
          have hc2 : (do_file env (s.probe_child (path ++ "/" ++ d_name))
              (path ++ "/" ++ d_name) params attr).2.checked = 1 := by
            rw [hst.1]; exact hc
          have hls2 : (do_file env (s.probe_child (path ++ "/" ++ d_name))
              (path ++ "/" ++ d_name) params attr).2.s_ls = 0 := by
            rw [hst.2.2.1]; exact hls
          have hnm2 : (do_file env (s.probe_child (path ++ "/" ++ d_name))
              (path ++ "/" ++ d_name) params attr).2.s_name = s.s_name := hst.2.2.2.2.2.1
          obtain ⟨sub, e2, p2⟩ := do_dir_preorder env params
            (.mk (.ok attr) child_opendir child_closedir) (path ++ "/" ++ d_name)
            (do_file env (s.probe_child (path ++ "/" ++ d_name))
              (path ++ "/" ++ d_name) params attr).2 hc2 hls2
            (by rw [hnm2]; exact hnchild)
          have hst3 := (do_dir_statics env params
            (.mk (.ok attr) child_opendir child_closedir) (path ++ "/" ++ d_name)
            (do_file env (s.probe_child (path ++ "/" ++ d_name))
              (path ++ "/" ++ d_name) params attr).2 hc2).1
          simp only [statics, List.cons.injEq] at hst3
          obtain ⟨tail, e3, p3⟩ := do_dir_loop_preorder env params rest path
            (do_dir env params (path ++ "/" ++ d_name)
              (.mk (.ok attr) child_opendir child_closedir)
              (do_file env (s.probe_child (path ++ "/" ++ d_name))
                (path ++ "/" ++ d_name) params attr).2).2
            (by rw [hst3.1]; exact hc2) (by rw [hst3.2.2.1]; exact hls2)
            (by rw [hst3.2.2.2.2.2.1, hnm2]; exact hnrest)
          obtain ⟨tail2, e4, p4⟩ := do_dir_loop_preorder env params rest path
            (do_file env (s.probe_child (path ++ "/" ++ d_name))
              (path ++ "/" ++ d_name) params attr).2 hc2 hls2
            (by rw [hnm2]; exact hnrest)
          simp only [hcp.2]
          split_ifs
          · refine ⟨own ++ [] ++ [], ?_, ?_⟩
            · exact e1'.trans (by simp only [List.append_nil])
            · simp only [preorder_entries]
              exact ⟨own, [], [], rfl, p1, preorder_dir_nil _ _, preorder_entries_nil _ _⟩
          · refine ⟨own ++ sub ++ [], ?_, ?_⟩
            · exact (e2.trans (by rw [e1'])).trans (by simp only [List.append_nil, List.append_assoc])
            · simp only [preorder_entries]
              exact ⟨own, sub, [], rfl, p1, p2, preorder_entries_nil _ _⟩
          · refine ⟨own ++ sub ++ tail, ?_, ?_⟩
            · rw [e3, e2, e1']
              simp only [List.append_assoc]
            · simp only [preorder_entries]
              exact ⟨own, sub, tail, rfl, p1, p2, p3⟩
          · refine ⟨own ++ [] ++ tail2, ?_, ?_⟩
            · rw [e4, e1']
              simp only [List.append_assoc, List.append_nil]
            · simp only [preorder_entries]
              exact ⟨own, [], tail2, rfl, p1, preorder_dir_nil _ _, p4⟩
end

/-- Without `-ls` the printing section either writes the line of the path and
succeeds, or writes nothing and fails. -/
theorem printing_no_ls_cases (env : Env) (s : State) (path : String) (attr : stat)
    (hls : s.s_ls = 0) :
    ((printing env s path attr).1 = EXIT_SUCCESS ∧
      (printing env s path attr).2.stdout = s.stdout ++ [path ++ "\n"]) ∨
    ((printing env s path attr).1 = EXIT_FAILURE ∧
      (printing env s path attr).2.stdout = s.stdout) := by
  have c1 : s.s_ls = 0 ∨ s.s_print ≠ 0 := Or.inl hls
  unfold printing
  simp only [if_pos c1, do_print, printf_out]
  cases env.printf_err s.printfs with
  | none =>
    left
    simp only [hls, ne_eq, not_true_eq_false, if_false]
    exact ⟨trivial, trivial⟩
  | some e =>
    right
    have hne : EXIT_FAILURE ≠ EXIT_SUCCESS := by decide
    simp only [ne_eq, hne, not_false_eq_true, if_true]
    exact ⟨trivial, trivial⟩


/-- C14. In a run under accepted arguments that do not select `-ls`, over a
tree whose names are not empty and have no `/`, or without `-name`, standard
output is a pre-order listing of the tree: the line of the root, if written,
comes first; the lines for the entries of a directory come in blocks, one per
entry in the order of enumeration; and in each block the line of the entry, if
written, comes before all lines for the entries below it. The root is listed
under the path that the test of `-name` leaves of `argv[1]`, which is `argv[1]`
when no `-name` is bound. With the single action `-print`, over any tree,
standard output is empty or begins with the line of the root. -/
theorem preorder_output (env : Env) (prog root : String) (groups : List (List String))
    (node : Node) (hg : ∀ g ∈ groups, accepted_group g)
    (hargc : 3 ≤ (prog :: root :: groups.flatten).length) (hls : ["-ls"] ∉ groups)
    (hname : (∀ v, ["-name", v] ∉ groups) ∨ plain_names_dir node) :
    preorder_run (path_seen (after_check (prog :: root :: groups.flatten)) root) node
      (main env (prog :: root :: groups.flatten) node).2.stdout ∧
    ((∀ v, ["-name", v] ∉ groups) →
      path_seen (after_check (prog :: root :: groups.flatten)) root = root) ∧
    ((main env [prog, root, "-print"] node).2.stdout = [] ∨
      ∃ below, (main env [prog, root, "-print"] node).2.stdout = (root ++ "\n") :: below ∧
        preorder_dir root node below) := by
  have general : ∀ (gs : List (List String)), (∀ g ∈ gs, accepted_group g) →
      3 ≤ (prog :: root :: gs.flatten).length → ["-ls"] ∉ gs →
      ((∀ v, ["-name", v] ∉ gs) ∨ plain_names_dir node) →
      ∃ own sub, (main env (prog :: root :: gs.flatten) node).2.stdout = own ++ sub ∧
        (own = [] ∨ own = [path_seen (after_check (prog :: root :: gs.flatten)) root ++ "\n"]) ∧
        preorder_dir (path_seen (after_check (prog :: root :: gs.flatten)) root) node sub ∧
        (own = [] → ["-print"] ∈ gs → (∀ v, ["-type", v] ∉ gs) → sub = []) := by
    intro gs hgs hlen hnols hnm
    have h3 : ¬ (prog :: root :: gs.flatten).length < 3 := by omega
    have hroot : param (prog :: root :: gs.flatten) 1 = root := by simp [param]
    cases node with
    | mk node_lstat node_opendir node_closedir =>
      cases node_lstat with
      | error e =>
        refine ⟨[], [], ?_, Or.inl rfl, preorder_dir_nil _ _, fun _ _ _ => rfl⟩
        simp only [main, if_neg h3]
        rfl
      | ok attr =>
        have hrun : run_state (prog :: root :: gs.flatten)
            (first_state (prog :: root :: gs.flatten)) := Or.inl rfl
        have hd := do_file_in_run env prog root gs hgs _ hrun root attr
        have hac := after_check_accepted prog root gs hgs
        have hps : path_seen (with_statics (first_state (prog :: root :: gs.flatten))
            (after_check (prog :: root :: gs.flatten))) root =
            path_seen (after_check (prog :: root :: gs.flatten)) root := rfl
        have hwnm0 : (∀ v, ["-name", v] ∉ gs) →
            (after_check (prog :: root :: gs.flatten)).s_name = 0 := by
          intro h
          rw [hac]
          exact bind_groups_s_name_kept gs h 2 _
        generalize path_seen (after_check (prog :: root :: gs.flatten)) root = rs at hps ⊢
        generalize hw : with_statics (first_state (prog :: root :: gs.flatten))
          (after_check (prog :: root :: gs.flatten)) = w at hd hps
        have hwc : w.checked = 1 := by rw [← hw]; rfl
        have hwls : w.s_ls = 0 := by
          rw [← hw]
          show (after_check (prog :: root :: gs.flatten)).s_ls = 0
          rw [hac]
          exact bind_groups_s_ls_kept gs hnols 2 _
        have hwnm : w.s_name = 0 ∨ plain_names_dir (.mk (.ok attr) node_opendir node_closedir) := by
          rcases hnm with h | h
          · left
            rw [← hw]
            exact hwnm0 h
          · exact Or.inr h
        have hwout : w.stdout = [] := by rw [← hw]; rfl
        have hwbuf : w.path_buf = root := by rw [← hw]; exact hroot
        have hd2 : do_file env (first_state (prog :: root :: gs.flatten)) root
            (prog :: root :: gs.flatten) attr =
            do_file env w root (prog :: root :: gs.flatten) attr := by
          rw [hd, do_file_checked env w root _ attr hwc]
        obtain ⟨own, e1, p1⟩ := do_file_own_line env w root (prog :: root :: gs.flatten) attr
          hwc hwls
        rw [hwout, List.nil_append] at e1
        rw [hps] at p1
        have hbuf : (do_file env w root (prog :: root :: gs.flatten) attr).2.path_buf = rs := by
          rw [do_file_buf env w root _ attr hwc, name_done_buf w root hwbuf]
          exact hps
        have hst := (do_file_state env w root (prog :: root :: gs.flatten) attr hwc).1
        simp only [statics, List.cons.injEq] at hst
        have hc2 : (do_file env w root (prog :: root :: gs.flatten) attr).2.checked = 1 := by
          rw [hst.1]; exact hwc
        have hls2 : (do_file env w root (prog :: root :: gs.flatten) attr).2.s_ls = 0 := by
          rw [hst.2.2.1]; exact hwls
        have hnm2 : (do_file env w root (prog :: root :: gs.flatten) attr).2.s_name = 0 ∨
            plain_names_dir (.mk (.ok attr) node_opendir node_closedir) := by
          rw [hst.2.2.2.2.2.1]; exact hwnm
        -- with `-print` and no `-type`, nothing printed means that the call failed
        have hfail : own = [] → ["-print"] ∈ gs → (∀ v, ["-type", v] ∉ gs) →
            (do_file env w root (prog :: root :: gs.flatten) attr).1 ≠ EXIT_SUCCESS := by
          intro hown _ hnotype
          have hty : w.s_type = 0 := by
            rw [← hw]
            show (after_check (prog :: root :: gs.flatten)).s_type = 0
            rw [hac]
            exact bind_groups_s_type_kept gs hnotype 2 _
          have hnls : (name_done w root).s_ls = 0 := by
            rw [(name_done_flags w root).2.2.1]; exact hwls
          rw [do_file_checked env w root _ attr hwc, filter_print_eq,
            if_neg (fun h => h.1 hty)] at e1 ⊢
          rcases printing_no_ls_cases env (name_done w root) (path_seen w root) attr hnls
            with ⟨_, h2⟩ | ⟨h1, _⟩
          · rw [h2, (name_done_fields w root).2.2.1, hwout, hown] at e1
            exact absurd e1 (by simp)
          · rw [h1]
            decide
        obtain ⟨sub, e2, p2⟩ := do_dir_preorder env (prog :: root :: gs.flatten)
          (.mk (.ok attr) node_opendir node_closedir) rs _ hc2 hls2 hnm2
        rw [main_root env _ attr node_opendir node_closedir h3, hroot, hd2, hbuf]
        by_cases hk : (do_file env w root (prog :: root :: gs.flatten) attr).2.killed = true
        · rw [if_pos hk]
          exact ⟨own, [], by rw [e1]; simp, p1, preorder_dir_nil _ _, fun _ _ _ => rfl⟩
        · rw [if_neg hk]
          by_cases hr : (do_file env w root (prog :: root :: gs.flatten) attr).1 ≠ EXIT_SUCCESS
          · rw [if_pos hr]
            exact ⟨own, [], by rw [e1]; simp, p1, preorder_dir_nil _ _, fun _ _ _ => rfl⟩
          · rw [if_neg hr]
            by_cases hdir : S_ISDIR attr.st_mode = true
            · rw [if_pos hdir]
              split_ifs
              · exact ⟨own, sub, by rw [e2, e1], p1, p2, fun a b c => absurd (hfail a b c) hr⟩
              · exact ⟨own, sub, by rw [e2, e1], p1, p2, fun a b c => absurd (hfail a b c) hr⟩
            · rw [if_neg hdir]
              exact ⟨own, [], by rw [e1]; simp, p1, preorder_dir_nil _ _, fun _ _ _ => rfl⟩
  refine ⟨?_, (path_seen_accepted prog root groups hg root).1, ?_⟩
  · obtain ⟨own, sub, e, p1, p2, _⟩ := general groups hg hargc hls hname
    exact ⟨own, sub, e, p1, p2⟩
  · obtain ⟨own, sub, e, p1, p2, p3⟩ := general [["-print"]] (by simp [accepted_group])
      (by simp) (by simp) (Or.inl (by simp))
    have hrs : path_seen (after_check (prog :: root :: [["-print"]].flatten)) root = root :=
      (path_seen_accepted prog root [["-print"]] (by simp [accepted_group]) root).1 (by simp)
    rw [hrs] at p1 p2
    have e' : (main env [prog, root, "-print"] node).2.stdout = own ++ sub := e
    rcases p1 with h | h
    · left
      rw [e', h, p3 h (by simp) (by simp)]
      rfl
    · right
      exact ⟨sub, by rw [e', h]; rfl, p2⟩

/-- C14 on the fixture tree given as `T/` under `myfind T/ -name x`: the
listing is that of `T`. -/
theorem preorder_output_witness :
    preorder_run "T" fixture (main env_ok ["myfind", "T/", "-name", "x"] fixture).2.stdout :=
  (preorder_output env_ok "myfind" "T/" [["-name", "x"]] fixture (by simp [accepted_group])
    (by simp) (by simp) (Or.inr fixture_plain_names)).1
/-! ## The trace of system calls -/

theorem lstat_paths_append (a b : List Call) :
    lstat_paths (a ++ b) = lstat_paths a ++ lstat_paths b := by
  induction a with
  | nil => rfl
  | cons c a ih => cases c <;> simp [lstat_paths, ih]

theorem opendir_paths_append (a b : List Call) :
    opendir_paths (a ++ b) = opendir_paths a ++ opendir_paths b := by
  induction a with
  | nil => rfl
  | cons c a ih => cases c <;> simp [opendir_paths, ih]

theorem calls_extend_quietly_refl (s : State) : calls_extend_quietly s s :=
  ⟨[], by simp, rfl, rfl⟩

theorem calls_extend_quietly_of_eq (s t : State) (h : t.calls = s.calls) :
    calls_extend_quietly s t :=
  ⟨[], by simp [h], rfl, rfl⟩

theorem calls_extend_quietly_trans (s t u : State) (h1 : calls_extend_quietly s t)
    (h2 : calls_extend_quietly t u) : calls_extend_quietly s u := by
  obtain ⟨x1, e1, a1, b1⟩ := h1
  obtain ⟨x2, e2, a2, b2⟩ := h2
  exact ⟨x1 ++ x2, by rw [e2, e1, List.append_assoc], by rw [lstat_paths_append, a1, a2]; rfl,
    by rw [opendir_paths_append, b1, b2]; rfl⟩

/-- A quiet extension of the trace has the same `lstat` and `opendir` calls. -/
theorem calls_extend_quietly_paths (s t : State) (h : calls_extend_quietly s t) :
    lstat_paths t.calls = lstat_paths s.calls ∧ opendir_paths t.calls = opendir_paths s.calls := by
  obtain ⟨x, e, a, b⟩ := h
  rw [e, lstat_paths_append, opendir_paths_append, a, b]
  simp

theorem do_get_symlink_calls (env : Env) (s : State) (path : String) (attr : stat) :
    calls_extend_quietly s (do_get_symlink env s path attr).2 := by
  unfold do_get_symlink
  split_ifs
  · cases env.malloc_err s.mallocs with
    | some e => exact calls_extend_quietly_of_eq _ _ rfl
    | none =>
      cases env.readlink path with
      | error e => exact ⟨[Call.readlink path], rfl, rfl, rfl⟩
      | ok target => exact ⟨[Call.readlink path], rfl, rfl, rfl⟩
  · exact calls_extend_quietly_refl _

theorem printf_out_calls (env : Env) (s : State) (record : String) :
    (printf_out env s record).2.calls = s.calls := by
  unfold printf_out
  cases env.printf_err s.printfs <;> rfl

theorem do_get_mtime_calls (env : Env) (s : State) (attr : stat) :
    (do_get_mtime env s attr).2.calls = s.calls := by
  unfold do_get_mtime
  split_ifs
  · rfl
  · cases env.strftime attr.st_mtime <;> rfl

theorem do_ls_calls (env : Env) (s : State) (path : String) (attr : stat) :
    calls_extend_quietly s (do_ls env s path attr).2 := by
  cases hlt : env.localtime_null attr.st_mtime with
  | true =>
    rw [do_ls_killed env s path attr hlt]
    exact calls_extend_quietly_of_eq _ _ rfl
  | false =>
    have h1 := calls_extend_quietly_of_eq s _ (do_get_mtime_calls env s attr)
    have h2 := do_get_symlink_calls env (do_get_mtime env s attr).2 path attr
    rw [do_ls_alive env s path attr hlt]
    exact calls_extend_quietly_trans _ _ _ (calls_extend_quietly_trans _ _ _ h1 h2)
      (calls_extend_quietly_of_eq _ _ (printf_out_calls env _ _))

theorem printing_calls (env : Env) (s : State) (path : String) (attr : stat) :
    calls_extend_quietly s (printing env s path attr).2 := by
  have hp := calls_extend_quietly_of_eq s _ (printf_out_calls env s (path ++ "\n"))
  have hl1 := do_ls_calls env (printf_out env s (path ++ "\n")).2 path attr
  have hl2 := do_ls_calls env s path attr
  unfold printing
  by_cases h1 : s.s_ls = 0 ∨ s.s_print ≠ 0
  · simp only [if_pos h1, do_print]
    by_cases h2 : (printf_out env s (path ++ "\n")).1 ≠ EXIT_SUCCESS
    · simp only [if_pos h2]
      exact hp
    · simp only [if_neg h2]
      by_cases h3 : (printf_out env s (path ++ "\n")).2.s_ls ≠ 0
      · simp only [if_pos h3, ret_snd]
        exact calls_extend_quietly_trans _ _ _ hp hl1
      · simp only [if_neg h3, ret_snd]
        exact hp
  · simp only [if_neg h1, ne_eq, not_true_eq_false, if_false]
    by_cases h3 : s.s_ls ≠ 0
    · simp only [if_pos h3, ret_snd]
      exact hl2
    · simp only [if_neg h3, ret_snd]
      exact calls_extend_quietly_refl _

/-- A call of `do_file` makes no `lstat` and no `opendir` call. -/
theorem do_file_calls (env : Env) (s : State) (path : String) (params : List String)
    (attr : stat) : calls_extend_quietly s (do_file env s path params attr).2 := by
  have key : ∀ t : State, t.calls = s.calls →
      calls_extend_quietly s (filter_print env t path params attr).2 := by
    intro t ht
    have hn : calls_extend_quietly s (name_done t path) :=
      calls_extend_quietly_of_eq _ _ ((name_done_fields t path).2.2.2.2.2.2.1.trans ht)
    rw [filter_print_eq]
    split_ifs
    · exact hn
    · exact calls_extend_quietly_trans _ _ _ hn (printing_calls env _ _ attr)
  have hfr := (check_params_frame (params.drop 2) 2 s).2.2.2.2.2.2.1
  unfold do_file
  dsimp only
  split_ifs <;> first
    | exact calls_extend_quietly_of_eq _ _ hfr
    | exact calls_extend_quietly_of_eq _ _ rfl
    | exact key _ hfr
    | exact key _ rfl

theorem lstat_paths_snoc_lstat (l : List Call) (p : String) :
    lstat_paths (l ++ [Call.lstat p]) = lstat_paths l ++ [p] := by
  rw [lstat_paths_append]; rfl

theorem opendir_paths_snoc_opendir (l : List Call) (p : String) :
    opendir_paths (l ++ [Call.opendir p]) = opendir_paths l ++ [p] := by
  rw [opendir_paths_append]; rfl

mutual
theorem do_dir_trace (env : Env) (params : List String) (hmal : ∀ n, env.malloc_err n = none) :
    ∀ (node : Node) (path : String) (s : State), s.checked = 1 → all_ok_dir node →
      (s.s_name = 0 ∨ plain_names_dir node) →
      (do_dir env params path node s).2.killed = false →
      lstat_paths (do_dir env params path node s).2.calls =
        lstat_paths s.calls ++ paths_below path node ∧
      opendir_paths (do_dir env params path node s).2.calls =
        opendir_paths s.calls ++ path :: dirs_below path node
  | .mk _ (.error e) _, path, s, _, hok, _, _ => by
    simp only [all_ok_dir] at hok
  | .mk _ (.ok entries) closedir, path, s, hc, hok, hn, hk => by
    simp only [all_ok_dir] at hok
    have hkl : (do_dir_loop env params path entries (s.open_dir path)).2.killed = false := by
      simp only [do_dir] at hk
      cases h : do_dir_loop env params path entries (s.open_dir path) with
      | mk r s2 =>
        rw [h] at hk
        cases r with
        | some ret => exact hk
        | none =>
          cases closedir with
          | none => exact hk
          | some e => exact hk
    obtain ⟨ih1, ih2⟩ := do_dir_loop_trace env params hmal entries path (s.open_dir path) hc hok
      (by simpa only [plain_names_dir] using hn) hkl
    have o1 : lstat_paths (s.open_dir path).calls = lstat_paths s.calls := by
      show lstat_paths (s.calls ++ [Call.opendir path]) = _
      rw [lstat_paths_append]; simp [lstat_paths]
    have o2 : opendir_paths (s.open_dir path).calls = opendir_paths s.calls ++ [path] :=
      opendir_paths_snoc_opendir _ _
    rw [o1] at ih1
    rw [o2] at ih2
    simp only [do_dir, paths_below, dirs_below]
    cases h : do_dir_loop env params path entries (s.open_dir path) with
    | mk r s2 =>
      rw [h] at ih1 ih2
      have c1 : lstat_paths (s2.close_dir path).calls = lstat_paths s2.calls := by
        show lstat_paths (s2.calls ++ [Call.closedir path]) = _
        rw [lstat_paths_append]; simp [lstat_paths]
      have c2 : opendir_paths (s2.close_dir path).calls = opendir_paths s2.calls := by
        show opendir_paths (s2.calls ++ [Call.closedir path]) = _
        rw [opendir_paths_append]; simp [opendir_paths]
      have j1 : lstat_paths s2.calls = lstat_paths s.calls ++ paths_entries path entries := ih1
      have j2 : opendir_paths s2.calls =
          opendir_paths s.calls ++ path :: dirs_entries path entries := by
        have : opendir_paths s2.calls =
            opendir_paths s.calls ++ [path] ++ dirs_entries path entries := ih2
        rw [this]; simp
      cases r with
      | some ret => exact ⟨j1, j2⟩
      | none =>
        cases closedir with
        | none => exact ⟨c1.trans j1, c2.trans j2⟩
        | some e => exact ⟨c1.trans j1, c2.trans j2⟩
theorem do_dir_loop_trace (env : Env) (params : List String)
    (hmal : ∀ n, env.malloc_err n = none) :
    ∀ (entries : List (String × Node)) (path : String) (s : State), s.checked = 1 →
      all_ok_entries entries → (s.s_name = 0 ∨ plain_names_entries entries) →
      (do_dir_loop env params path entries s).2.killed = false →
      lstat_paths (do_dir_loop env params path entries s).2.calls =
        lstat_paths s.calls ++ paths_entries path entries ∧
      opendir_paths (do_dir_loop env params path entries s).2.calls =
        opendir_paths s.calls ++ dirs_entries path entries
  | [], path, s, _, _, _, _ => by
    simp [do_dir_loop, paths_entries, dirs_entries]
  | (d_name, .mk child_lstat child_opendir child_closedir) :: rest, path, s, hc, hok, hn, hk => by
    simp only [all_ok_entries] at hok
    obtain ⟨hchild, hrest⟩ := hok
    have hnrest : s.s_name = 0 ∨ plain_names_entries rest := by
      rcases hn with h | h
      · exact Or.inl h
      · simp only [plain_names_entries] at h
        exact Or.inr h.2.2.2
    have hnchild : s.s_name = 0 ∨
        plain_names_dir (.mk child_lstat child_opendir child_closedir) := by
      rcases hn with h | h
      · exact Or.inl h
      · simp only [plain_names_entries] at h
        exact Or.inr h.2.2.1
    have hnname : s.s_name = 0 ∨ (d_name ≠ "" ∧ '/' ∉ d_name.data) := by
      rcases hn with h | h
      · exact Or.inl h
      · simp only [plain_names_entries] at h
        exact Or.inr ⟨h.1, h.2.1⟩
    rw [do_dir_loop_cons] at hk ⊢
    by_cases hdot : d_name = "." ∨ d_name = ".."
    · rw [if_pos hdot] at hk ⊢
      simp only [paths_entries, dirs_entries, if_pos hdot]
      exact do_dir_loop_trace env params hmal rest path s hc hrest hnrest hk
    · rw [if_neg hdot, hmal s.mallocs] at hk ⊢
      simp only [paths_entries, dirs_entries, if_neg hdot]
      cases child_lstat with
      | error e =>
        rcases hchild with h | h | h
        · exact absurd (Or.inl h) hdot
        · exact absurd (Or.inr h) hdot
        · exact absurd h (by simp)
      | ok attr =>
        have hchild2 : S_ISDIR attr.st_mode = true →
            all_ok_dir (.mk (.ok attr) child_opendir child_closedir) := by
          rcases hchild with h | h | h
          · exact absurd (Or.inl h) hdot
          · exact absurd (Or.inr h) hdot
          · exact h
        have p1 : lstat_paths (s.probe_child (path ++ "/" ++ d_name)).calls =
            lstat_paths s.calls ++ [path ++ "/" ++ d_name] := lstat_paths_snoc_lstat _ _
        have p2 : opendir_paths (s.probe_child (path ++ "/" ++ d_name)).calls =
            opendir_paths s.calls := by
          show opendir_paths (s.calls ++ [Call.lstat (path ++ "/" ++ d_name)]) = _
          rw [opendir_paths_append]; simp [opendir_paths]
        obtain ⟨f1, f2⟩ := calls_extend_quietly_paths _ _
          (do_file_calls env (s.probe_child (path ++ "/" ++ d_name)) (path ++ "/" ++ d_name)
            params attr)
        rw [p1] at f1
        rw [p2] at f2
        have hc1 : (s.probe_child (path ++ "/" ++ d_name)).checked = 1 := hc
        have hcp := child_path env s path d_name params attr hc hnname
        have hst := (do_file_state env (s.probe_child (path ++ "/" ++ d_name))
          (path ++ "/" ++ d_name) params attr hc1).1
        simp only [statics, List.cons.injEq] at hst
        have hc2 : (do_file env (s.probe_child (path ++ "/" ++ d_name))
            (path ++ "/" ++ d_name) params attr).2.checked = 1 := by
          rw [hst.1]; exact hc
        have hnm2 : (do_file env (s.probe_child (path ++ "/" ++ d_name))
            (path ++ "/" ++ d_name) params attr).2.s_name = s.s_name := hst.2.2.2.2.2.1
        have hst3 := (do_dir_statics env params
          (.mk (.ok attr) child_opendir child_closedir) (path ++ "/" ++ d_name)
          (do_file env (s.probe_child (path ++ "/" ++ d_name))
            (path ++ "/" ++ d_name) params attr).2 hc2).1
        simp only [statics, List.cons.injEq] at hst3
        simp only [hcp.2] at hk ⊢
        by_cases hkr : (do_file env (s.probe_child (path ++ "/" ++ d_name))
            (path ++ "/" ++ d_name) params attr).2.killed = true
        · rw [if_pos hkr] at hk
          exact absurd (hkr.symm.trans hk) (by decide)
        · rw [if_neg hkr] at hk ⊢
          by_cases hd : S_ISDIR attr.st_mode = true
          · simp only [if_pos hd] at hk ⊢
            by_cases hkd : (do_dir env params (path ++ "/" ++ d_name)
                (.mk (.ok attr) child_opendir child_closedir)
                (do_file env (s.probe_child (path ++ "/" ++ d_name)) (path ++ "/" ++ d_name)
                  params attr).2).2.killed = true
            · rw [if_pos hkd] at hk
              exact absurd (hkd.symm.trans hk) (by decide)
            · rw [if_neg hkd] at hk ⊢
              obtain ⟨d1, d2⟩ := do_dir_trace env params hmal
                (.mk (.ok attr) child_opendir child_closedir) (path ++ "/" ++ d_name)
                (do_file env (s.probe_child (path ++ "/" ++ d_name)) (path ++ "/" ++ d_name)
                  params attr).2 hc2 (hchild2 hd) (by rw [hnm2]; exact hnchild)
                (by simpa using hkd)
              obtain ⟨l1, l2⟩ := do_dir_loop_trace env params hmal rest path
                (do_dir env params (path ++ "/" ++ d_name)
                  (.mk (.ok attr) child_opendir child_closedir)
                  (do_file env (s.probe_child (path ++ "/" ++ d_name)) (path ++ "/" ++ d_name)
                    params attr).2).2 (by rw [hst3.1]; exact hc2) hrest
                (by rw [hst3.2.2.2.2.2.1, hnm2]; exact hnrest) hk
              rw [l1, d1, f1, l2, d2, f2]
              simp
          · simp only [if_neg hd] at hk ⊢
            obtain ⟨l1, l2⟩ := do_dir_loop_trace env params hmal rest path
              (do_file env (s.probe_child (path ++ "/" ++ d_name)) (path ++ "/" ++ d_name)
                params attr).2 hc2 hrest (by rw [hnm2]; exact hnrest) hk
            rw [l1, f1, l2, f2]
            simp
end

/-! ## No path is probed twice -/

/-- Two names without `/` that are continued to the same text, each by nothing
or by a `/` and more, are equal. -/
theorem first_slash (a : List Char) :
    ∀ (b r1 r2 : List Char), '/' ∉ a → '/' ∉ b → (r1 = [] ∨ ∃ x, r1 = '/' :: x) →
      (r2 = [] ∨ ∃ x, r2 = '/' :: x) → a ++ r1 = b ++ r2 → a = b := by
  induction a with
  | nil =>
    intro b r1 r2 _ hb h1 h2 h
    cases b with
    | nil => rfl
    | cons c b =>
      rcases h1 with h1 | ⟨x, h1⟩
      · rw [h1] at h; simp at h
      · rw [h1] at h
        simp only [List.nil_append, List.cons_append, List.cons.injEq] at h
        exact absurd (h.1 ▸ List.mem_cons_self _ _) hb
  | cons c a ih =>
    intro b r1 r2 ha hb h1 h2 h
    cases b with
    | nil =>
      rcases h2 with h2 | ⟨x, h2⟩
      · rw [h2] at h; simp at h
      · rw [h2] at h
        simp only [List.nil_append, List.cons_append, List.cons.injEq] at h
        exact absurd (h.1 ▸ List.mem_cons_self _ _) ha
    | cons d b =>
      simp only [List.cons_append, List.cons.injEq] at h
      have hab := ih b r1 r2 (fun hm => ha (List.mem_cons_of_mem _ hm))
        (fun hm => hb (List.mem_cons_of_mem _ hm)) h1 h2 h.2
      rw [h.1, hab]

/-- Two different names without `/` in one directory have no path in common
at or below them. -/
theorem disjoint_siblings (p a b q : String) (ha : '/' ∉ a.data) (hb : '/' ∉ b.data)
    (hab : a ≠ b) (h1 : under (p ++ "/" ++ a) q) (h2 : under (p ++ "/" ++ b) q) : False := by
  obtain ⟨r1, e1, c1⟩ := h1
  obtain ⟨r2, e2, c2⟩ := h2
  rw [e1] at e2
  simp only [String.data_append, List.append_assoc] at e2
  have e3 := List.append_cancel_left (List.append_cancel_left e2)
  have := first_slash a.data b.data r1 r2 ha hb c1 c2 e3
  exact hab (String.ext this)

theorem names_ok_entries_mem :
    ∀ (entries : List (String × Node)), names_ok_entries entries →
      ∀ e ∈ entries, e.1 ≠ "" ∧ '/' ∉ e.1.data
  | [], _, e, he => by simp at he
  | (d_name, .mk child_lstat child_opendir child_closedir) :: rest, h, e, he => by
    simp only [names_ok_entries] at h
    rcases List.mem_cons.mp he with h1 | h1
    · rw [h1]; exact ⟨h.1, h.2.1⟩
    · exact names_ok_entries_mem rest h.2.2.2.2 e h1

mutual
theorem paths_below_under :
    ∀ (node : Node) (path q : String), q ∈ paths_below path node →
      ∃ r2, q.data = path.data ++ '/' :: r2
  | .mk _ (.error _) _, path, q, h => by
    simp [paths_below] at h
  | .mk _ (.ok entries) _, path, q, h => by
    simp only [paths_below] at h
    obtain ⟨e, _, r, hr, _⟩ := paths_entries_under entries path q h
    exact ⟨e.1.data ++ r, by rw [hr]; simp [String.data_append]⟩
theorem paths_entries_under :
    ∀ (entries : List (String × Node)) (path q : String), q ∈ paths_entries path entries →
      ∃ e ∈ entries, under (path ++ "/" ++ e.1) q
  | [], path, q, h => by
    simp [paths_entries] at h
  | (d_name, .mk child_lstat child_opendir child_closedir) :: rest, path, q, h => by
    simp only [paths_entries] at h
    have from_rest : q ∈ paths_entries path rest →
        ∃ e ∈ (d_name, Node.mk child_lstat child_opendir child_closedir) :: rest,
          under (path ++ "/" ++ e.1) q := by
      intro hq
      obtain ⟨e, he, hu⟩ := paths_entries_under rest path q hq
      exact ⟨e, List.mem_cons_of_mem _ he, hu⟩
    split_ifs at h with hdot
    · exact from_rest h
    · rcases List.mem_cons.mp h with h1 | h1
      · exact ⟨_, List.mem_cons_self _ _, [], by rw [h1]; simp, Or.inl rfl⟩
      · rcases List.mem_append.mp h1 with h2 | h2
        · cases child_lstat with
          | error e => simp at h2
          | ok attr =>
            simp only [] at h2
            split_ifs at h2
            · obtain ⟨r2, hr⟩ := paths_below_under
                (.mk (.ok attr) child_opendir child_closedir) (path ++ "/" ++ d_name) q h2
              exact ⟨_, List.mem_cons_self _ _, '/' :: r2, hr, Or.inr ⟨r2, rfl⟩⟩
            · simp at h2
        · exact from_rest h2
end

mutual
theorem paths_below_nodup :
    ∀ (node : Node) (path : String), names_ok_dir node → (paths_below path node).Nodup
  | .mk _ (.error _) _, path, _ => by
    simp [paths_below]
  | .mk _ (.ok entries) _, path, h => by
    simp only [names_ok_dir] at h
    simp only [paths_below]
    exact paths_entries_nodup entries path h
theorem paths_entries_nodup :
    ∀ (entries : List (String × Node)) (path : String), names_ok_entries entries →
      (paths_entries path entries).Nodup
  | [], path, _ => by
    simp [paths_entries]
  | (d_name, .mk child_lstat child_opendir child_closedir) :: rest, path, h => by
    simp only [names_ok_entries] at h
    obtain ⟨_, hslash, hdiff, hchild, hrest⟩ := h
    have ih_rest := paths_entries_nodup rest path hrest
    have hmem := names_ok_entries_mem rest hrest
    -- a path at or below this entry is not among the paths of the later entries
    have apart : ∀ q, under (path ++ "/" ++ d_name) q → q ∉ paths_entries path rest := by
      intro q hu hq
      obtain ⟨e, he, hue⟩ := paths_entries_under rest path q hq
      exact disjoint_siblings path d_name e.1 q hslash (hmem e he).2 (fun h => hdiff e he h.symm)
        hu hue
    simp only [paths_entries]
    split_ifs with hdot
    · exact ih_rest
    · cases child_lstat with
      | error e =>
        simp only [List.nil_append]
        exact List.nodup_cons.mpr ⟨apart _ ⟨[], by simp, Or.inl rfl⟩, ih_rest⟩
      | ok attr =>
        simp only []
        split_ifs
        · have ih_child := paths_below_nodup (.mk (.ok attr) child_opendir child_closedir)
            (path ++ "/" ++ d_name) hchild
          have hsub : ∀ q ∈ paths_below (path ++ "/" ++ d_name)
              (.mk (.ok attr) child_opendir child_closedir),
              ∃ r2, q.data = (path ++ "/" ++ d_name).data ++ '/' :: r2 :=
            fun q hq => paths_below_under _ _ q hq
          refine List.nodup_cons.mpr ⟨?_, ?_⟩
          · intro hq
            rcases List.mem_append.mp hq with h1 | h1
            · obtain ⟨r2, hr⟩ := hsub _ h1
              have := congrArg List.length hr
              simp at this
            · exact apart _ ⟨[], by simp, Or.inl rfl⟩ h1
          · refine List.Nodup.append ih_child ih_rest ?_
            intro q h1 h2
            obtain ⟨r2, hr⟩ := hsub q h1
            exact apart q ⟨'/' :: r2, hr, Or.inr ⟨r2, rfl⟩⟩ h2
        · simp only [List.nil_append]
          exact List.nodup_cons.mpr ⟨apart _ ⟨[], by simp, Or.inl rfl⟩, ih_rest⟩
end

mutual
theorem dirs_below_sublist :
    ∀ (node : Node) (path : String), (dirs_below path node).Sublist (paths_below path node)
  | .mk _ (.error _) _, path => by
    simp [dirs_below, paths_below]
  | .mk _ (.ok entries) _, path => by
    simp only [dirs_below, paths_below]
    exact dirs_entries_sublist entries path
theorem dirs_entries_sublist :
    ∀ (entries : List (String × Node)) (path : String),
      (dirs_entries path entries).Sublist (paths_entries path entries)
  | [], path => by
    simp [dirs_entries, paths_entries]
  | (d_name, .mk child_lstat child_opendir child_closedir) :: rest, path => by
    have ih_rest := dirs_entries_sublist rest path
    simp only [dirs_entries, paths_entries]
    split_ifs with hdot
    · exact ih_rest
    · cases child_lstat with
      | error e =>
        simp only [List.nil_append]
        exact List.Sublist.cons _ ih_rest
      | ok attr =>
        simp only []
        split_ifs
        · have ih_child := dirs_below_sublist (.mk (.ok attr) child_opendir child_closedir)
            (path ++ "/" ++ d_name)
          simp only [List.cons_append]
          exact List.Sublist.cons₂ _ (List.Sublist.append ih_child ih_rest)
        · simp only [List.nil_append]
          exact List.Sublist.cons _ ih_rest
end

/-- When `localtime` returns `NULL` for the modification time of an entry,
`do_ls` writes nothing and the process is killed: a run with `-ls` on a file
whose modification time is `2 ^ 62` has no exit status, while the same run
with `-print` succeeds. -/
theorem killed_by_localtime :
    (do_ls env_year_overflow State.init "T" far_future_file).2.killed = true ∧
    (do_ls env_year_overflow State.init "T" far_future_file).2.stdout = [] ∧
    (main env_year_overflow ["myfind", "T", "-ls"] (leaf far_future_file)).1 = KILLED ∧
    (main env_year_overflow ["myfind", "T", "-ls"] (leaf far_future_file)).2.killed = true ∧
    (main env_year_overflow ["myfind", "T", "-print"] (leaf far_future_file)).1 =
      EXIT_SUCCESS ∧
    (main env_year_overflow ["myfind", "T", "-ls"] (leaf regular_file)).1 = EXIT_SUCCESS := by
  decide

end Myfind
